import Mathlib

/-!
# Mesh ingestion: typed buffers and the OBJ model loader

A shallow embedding of `src/resource.h` and `src/world/model.cpp`.

Modelling conventions

* `float` is an arbitrary type `F` with a zero (`0.f`); the loader only copies
  floats, except in `compute_normal`, whose arithmetic is that of the linear
  algebra library and is taken as a parameter (`Library`).
* `unsigned int` counters live in `Nat` and are reduced modulo `2 ^ 32` after
  every increment (`u32`).  `size_t` values live in `Nat`; `int` values live in
  `Int`.
* `std::vector::operator[]` past the end is undefined behaviour and is reported
  as `Fault.bad_subscript`; `std::vector::at` past the end throws and is
  reported as `Fault.out_of_range`; `THROW_ERROR` is `Fault.error`.
* Every stateful member function is a function from the state before the call
  to `Except Fault` of the state after the call.
-/

/-! ## Faults and machine integers -/

/-- The ways in which the embedded code stops without returning. -/
inductive Fault where
  /-- `std::out_of_range`, thrown by `std::vector::at`. -/
  | out_of_range : Fault
  /-- Undefined behaviour: `operator[]` outside the vector, or `int` overflow
  in the subscript expression. -/
  | bad_subscript : Fault
  /-- The exception raised by `THROW_ERROR(message)`. -/
  | error (message : String) : Fault
  /-- `std::length_error`, thrown by `std::vector::resize` for a size above
  `max_size()`. -/
  | length_error : Fault
  /-- `std::bad_alloc`, thrown by `std::vector::resize` when the allocator
  cannot deliver the storage. -/
  | bad_alloc : Fault
  /-- Undefined behaviour: a floating-point to integer conversion whose
  truncated value the integer type cannot hold, or whose operand is NaN. -/
  | bad_conversion : Fault
  deriving DecidableEq, Repr

/-- Outcomes of the embedded code can be compared. -/
instance Fault.instDecidableEqExcept {α : Type} [DecidableEq α] :
    DecidableEq (Except Fault α)
  | Except.ok a, Except.ok b =>
    if h : a = b then isTrue (by rw [h]) else isFalse (fun e => h (Except.ok.inj e))
  | Except.error a, Except.error b =>
    if h : a = b then isTrue (by rw [h]) else isFalse (fun e => h (Except.error.inj e))
  | Except.ok _, Except.error _ => isFalse (fun e => Except.noConfusion e)
  | Except.error _, Except.ok _ => isFalse (fun e => Except.noConfusion e)

/-- Wrap-around of an `unsigned int`. -/
def u32 (n : Nat) : Nat := n % 2 ^ 32

/-- Largest value of an `int`. -/
def INT_MAX : Int := 2 ^ 31 - 1

/-- The expression `xs[i]` for a `size_t` subscript. -/
def subscript {α : Type} (xs : List α) (i : Nat) : Except Fault α :=
  match xs[i]? with
  | some x => Except.ok x
  | none => Except.error Fault.bad_subscript

/-- The expression `xs[e]` for an `int` subscript expression `e`: the value of
`e` has to be representable, and its conversion to `size_t` has to fall inside
the vector. -/
def subscript_int {α : Type} (xs : List α) (e : Int) : Except Fault α :=
  if 0 ≤ e ∧ e ≤ INT_MAX then subscript xs e.toNat
  else Except.error Fault.bad_subscript

/-- The loop `for (size_t v = 0; v < n; v++) body(v)`, started at `v`, with
`n` iterations left. -/
def for_range {σ : Type} (body : Nat → σ → Except Fault σ) :
    Nat → Nat → σ → Except Fault σ
  | 0, _, st => Except.ok st
  | n + 1, v, st =>
    match body v st with
    | Except.ok st1 => for_range body n (v + 1) st1
    | Except.error e => Except.error e

/-- A range-based `for` loop over a vector. -/
def for_each {α σ : Type} (body : α → σ → Except Fault σ) :
    List α → σ → Except Fault σ
  | [], st => Except.ok st
  | x :: xs, st =>
    match body x st with
    | Except.ok st1 => for_each body xs st1
    | Except.error e => Except.error e

/-! ## `linalg.h` and `std::filesystem`, as far as the loader uses them -/

/-- The type `float3`. -/
structure float3 (F : Type) where
  x : F
  y : F
  z : F
  deriving DecidableEq, Repr

/-- The library operations the loader calls.  Their code is not part of the
sources; they are parameters of the embedding. -/
structure Library (F : Type) where
  /-- The expression `b - a` on `float3`. -/
  sub : float3 F → float3 F → float3 F
  /-- The function `linalg::cross`. -/
  cross : float3 F → float3 F → float3 F
  /-- The function `linalg::normalize`. -/
  normalize : float3 F → float3 F
  /-- The value of a `float3` declared without an initialiser. -/
  float3_default : float3 F
  /-- The expression `base_folder / name` on `std::filesystem::path`. -/
  path_append : String → String → String

/-! ## The parser's data (`tinyobj`) -/

namespace tinyobj

/-- The type `tinyobj::index_t`. -/
structure index_t where
  vertex_index : Int
  normal_index : Int
  texcoord_index : Int
  deriving DecidableEq, Repr

/-- The type `tinyobj::mesh_t`, restricted to the fields the loader reads.
Face sizes are taken as natural numbers that fit an `int`, so that the
conversion in `int fv = mesh.num_face_vertices[f]` is exact. -/
structure mesh_t where
  indices : List index_t
  num_face_vertices : List Nat
  material_ids : List Int
  deriving DecidableEq, Repr

/-- The type `tinyobj::shape_t`. -/
structure shape_t where
  name : String
  mesh : mesh_t
  deriving DecidableEq, Repr

/-- The type `tinyobj::attrib_t`, restricted to the fields the loader reads. -/
structure attrib_t (F : Type) where
  vertices : List F
  normals : List F
  texcoords : List F
  deriving DecidableEq, Repr

/-- A colour array `real_t name[3]` of a material. -/
structure real3 (F : Type) where
  c0 : F
  c1 : F
  c2 : F
  deriving DecidableEq, Repr

/-- The type `tinyobj::material_t`, restricted to the fields the loader
reads. -/
structure material_t (F : Type) where
  ambient : real3 F
  diffuse : real3 F
  emission : real3 F
  diffuse_texname : String
  deriving DecidableEq, Repr

end tinyobj

/-! ## `resource.h` -/

namespace cg

/-- The class template `cg::resource<T>`. -/
structure resource (T : Type) where
  data : List T
  item_size : Nat
  stride : Nat
  deriving DecidableEq, Repr

namespace resource

variable {T : Type}

/-- The object the constructor `resource(size_t size)` leaves when
`data.resize` returns; `sizeof_T` is `sizeof(T)` and `default` the
value-initialised element `resize` creates. -/
def mk1 [Inhabited T] (sizeof_T : Nat) (size : Nat) : resource T :=
  { data := List.replicate size default, item_size := sizeof_T, stride := size }

/-- The object the constructor `resource(size_t x_size, size_t y_size)` leaves
when `data.resize` returns; the product is taken in `size_t`. -/
def mk2 [Inhabited T] (sizeof_T : Nat) (x_size y_size : Nat) : resource T :=
  { data := List.replicate ((x_size * y_size) % 2 ^ 64) default,
    item_size := sizeof_T, stride := x_size }

/-- The member `get_number_of_elements`. -/
def get_number_of_elements (r : resource T) : Nat := r.data.length

/-- The member `get_stride`. -/
def get_stride (r : resource T) : Nat := r.stride

/-- The member `get_size_in_bytes`; the product is taken in `size_t`. -/
def get_size_in_bytes (r : resource T) : Nat := (r.item_size * r.data.length) % 2 ^ 64

/-- The member `get_data`: the backing storage in linear order. -/
def get_data (r : resource T) : List T := r.data

/-- The member `item(size_t item)`, read through the returned reference. -/
def item (r : resource T) (i : Nat) : Except Fault T :=
  match r.data[i]? with
  | some x => Except.ok x
  | none => Except.error Fault.out_of_range

/-- The member `item(size_t item)`, written through the returned reference. -/
def item_assign (r : resource T) (i : Nat) (x : T) : Except Fault (resource T) :=
  match r.item i with
  | Except.ok _ => Except.ok { r with data := r.data.set i x }
  | Except.error e => Except.error e

/-- The member `item(size_t x, size_t y)`, read through the returned
reference. -/
def item2 (r : resource T) (x y : Nat) : Except Fault T :=
  match r.data[(y * r.get_stride + x) % 2 ^ 64]? with
  | some v => Except.ok v
  | none => Except.error Fault.out_of_range

end resource

/-- The struct `cg::vertex`. -/
structure vertex (F : Type) where
  x : F
  y : F
  z : F
  nx : F
  ny : F
  nz : F
  tx : F
  ty : F
  ambient_r : F
  ambient_g : F
  ambient_b : F
  diffuse_r : F
  diffuse_g : F
  diffuse_b : F
  emissive_r : F
  emissive_g : F
  emissive_b : F
  deriving DecidableEq, Repr

/-- A value-initialised `cg::vertex`: every field is `0.f`. -/
instance vertex.instInhabited {F : Type} [Zero F] : Inhabited (vertex F) :=
  ⟨⟨0, 0, 0, 0, 0, 0, 0, 0, 0, 0, 0, 0, 0, 0, 0, 0, 0⟩⟩

/-- The constant `sizeof(cg::vertex)`: seventeen `float`s. -/
def sizeof_vertex : Nat := 68

/-- The constant `sizeof(unsigned int)`. -/
def sizeof_unsigned_int : Nat := 4

end cg

/-! ## `world/model.cpp` -/

/-- Modelled from the spec: the macro `THROW_ERROR` of `utils/error_handler.h`,
which is not part of the sources; it raises a fatal error carrying the given
message. -/
def THROW_ERROR {α : Type} (message : String) : Except Fault α :=
  Except.error (Fault.error message)

namespace cg.world

open tinyobj

/-- The macro `vx`. -/
def vx (index : Int) : Int := 3 * index

/-- The macro `vy`. -/
def vy (index : Int) : Int := 3 * index + 1

/-- The macro `vz`. -/
def vz (index : Int) : Int := 3 * index + 2

/-- The key type `std::tuple<int, int, int>`, compared component by
component. -/
structure index_tuple where
  get0 : Int
  get1 : Int
  get2 : Int
  deriving DecidableEq, Repr

/-- The macro `make_index_tuple`. -/
def make_index_tuple (idx : index_t) : index_tuple :=
  ⟨idx.vertex_index, idx.normal_index, idx.texcoord_index⟩

/-- The type `std::map<std::tuple<int, int, int>, unsigned int>`, as an
association list with at most one entry per key. -/
abbrev index_map_t : Type := List (index_tuple × Nat)

namespace index_map_t

/-- The member `count`. -/
def count (index_map : index_map_t) (key : index_tuple) : Nat :=
  match index_map.lookup key with
  | some _ => 1
  | none => 0

/-- The statement `index_map[key] = value`. -/
def assign (index_map : index_map_t) (key : index_tuple) (value : Nat) : index_map_t :=
  (key, value) :: index_map.filter (fun entry => entry.1 != key)

/-- The expression `index_map[key]` as a value: the mapped value, after
inserting a zero for a key that is not present. -/
def get (index_map : index_map_t) (key : index_tuple) : Nat × index_map_t :=
  match index_map.lookup key with
  | some value => (value, index_map)
  | none => (0, index_map.assign key 0)

end index_map_t

/-- The data members of `cg::world::model`. -/
structure model (F : Type) where
  vertex_buffers : List (resource (vertex F))
  index_buffers : List (resource Nat)
  textures : List String
  deriving DecidableEq, Repr

/-- The constructor `model::model()`. -/
def model.empty {F : Type} : model F := ⟨[], [], []⟩

/-- The member `std::vector::resize(n)` on a vector of paths. -/
def resize_paths (paths : List String) (n : Nat) : List String :=
  paths.take n ++ List.replicate (n - paths.length) ""

/-! ### Pass 1: `allocate_buffers` -/

/-- The local variables of one iteration of the shape loop of
`allocate_buffers`. -/
structure allocate_state where
  vertex_offset : Nat
  vertex_buffer_size : Nat
  index_buffer_size : Nat
  index_map : index_map_t
  deriving DecidableEq, Repr

/-- The body of the loop over `v` in `allocate_buffers`. -/
def allocate_face_vertex (mesh : mesh_t) (v : Nat) (st : allocate_state) :
    Except Fault allocate_state := do
  let idx ← subscript mesh.indices (st.vertex_offset + v)
  let idx_tuple := make_index_tuple idx
  let st1 : allocate_state :=
    if st.index_map.count idx_tuple = 0 then
      { st with
        index_map := st.index_map.assign idx_tuple st.vertex_buffer_size
        vertex_buffer_size := u32 (st.vertex_buffer_size + 1) }
    else st
  pure { st1 with index_buffer_size := u32 (st1.index_buffer_size + 1) }

/-- The body of the loop over `fv` in `allocate_buffers`. -/
def allocate_face (mesh : mesh_t) (fv : Nat) (st : allocate_state) :
    Except Fault allocate_state := do
  let st1 ← for_range (allocate_face_vertex mesh) fv 0 st
  pure { st1 with vertex_offset := st1.vertex_offset + fv }

/-- The counting part of the body of the shape loop of `allocate_buffers`. -/
def allocate_shape (mesh : mesh_t) : Except Fault allocate_state :=
  for_each (allocate_face mesh) mesh.num_face_vertices
    { vertex_offset := 0, vertex_buffer_size := 0, index_buffer_size := 0, index_map := [] }

/-- The body of the shape loop of `allocate_buffers`. -/
def allocate_buffers_shape {F : Type} [Zero F] (shape : shape_t) (m : model F) :
    Except Fault (model F) := do
  let st ← allocate_shape shape.mesh
  pure { m with
    vertex_buffers := m.vertex_buffers ++ [resource.mk1 sizeof_vertex st.vertex_buffer_size]
    index_buffers := m.index_buffers ++ [resource.mk1 sizeof_unsigned_int st.index_buffer_size] }

/-- The member `model::allocate_buffers`. -/
def model.allocate_buffers {F : Type} [Zero F] (shapes : List shape_t) (m : model F) :
    Except Fault (model F) := do
  let m1 ← for_each allocate_buffers_shape shapes m
  pure { m1 with textures := resize_paths m1.textures shapes.length }

/-! ### Pass 2: `fill_buffers` -/

/-- The member `model::compute_normal`. -/
def model.compute_normal {F : Type} (L : Library F) (attrib : attrib_t F) (mesh : mesh_t)
    (index_offset : Nat) : Except Fault (float3 F) := do
  let a_id ← subscript mesh.indices index_offset
  let b_id ← subscript mesh.indices (index_offset + 1)
  let c_id ← subscript mesh.indices (index_offset + 2)
  let ax ← subscript_int attrib.vertices (vx a_id.vertex_index)
  let ay ← subscript_int attrib.vertices (vy a_id.vertex_index)
  let az ← subscript_int attrib.vertices (vz a_id.vertex_index)
  let a : float3 F := ⟨ax, ay, az⟩
  let bx ← subscript_int attrib.vertices (vx b_id.vertex_index)
  let b_y ← subscript_int attrib.vertices (vy b_id.vertex_index)
  let bz ← subscript_int attrib.vertices (vz b_id.vertex_index)
  let b : float3 F := ⟨bx, b_y, bz⟩
  let cx ← subscript_int attrib.vertices (vx c_id.vertex_index)
  let cy ← subscript_int attrib.vertices (vy c_id.vertex_index)
  let cz ← subscript_int attrib.vertices (vz c_id.vertex_index)
  let c : float3 F := ⟨cx, cy, cz⟩
  pure (L.normalize (L.cross (L.sub b a) (L.sub c a)))

/-- The member `model::fill_vertex_data`; the result is the vertex the
reference parameter denotes after the call. -/
def model.fill_vertex_data {F : Type} [Zero F] (vertex : vertex F) (attrib : attrib_t F)
    (idx : index_t) (computed_normal : float3 F) (material : material_t F) :
    Except Fault (cg.vertex F) := do
  let x ← subscript_int attrib.vertices (vx idx.vertex_index)
  let vertex := { vertex with x := x }
  let y ← subscript_int attrib.vertices (vy idx.vertex_index)
  let vertex := { vertex with y := y }
  let z ← subscript_int attrib.vertices (vz idx.vertex_index)
  let vertex := { vertex with z := z }
  let vertex ←
    if idx.normal_index < 0 then
      pure { vertex with
        nx := computed_normal.x, ny := computed_normal.y, nz := computed_normal.z }
    else do
      let nx ← subscript_int attrib.normals (vx idx.normal_index)
      let ny ← subscript_int attrib.normals (vy idx.normal_index)
      let nz ← subscript_int attrib.normals (vz idx.normal_index)
      pure { vertex with nx := nx, ny := ny, nz := nz }
  let vertex ←
    if idx.texcoord_index < 0 then
      pure { vertex with tx := 0, ty := 0 }
    else do
      let tx ← subscript_int attrib.texcoords (2 * idx.texcoord_index)
      let ty ← subscript_int attrib.texcoords (2 * idx.texcoord_index + 1)
      pure { vertex with tx := tx, ty := ty }
  pure { vertex with
    ambient_r := material.ambient.c0
    ambient_g := material.ambient.c1
    ambient_b := material.ambient.c2
    diffuse_r := material.diffuse.c0
    diffuse_g := material.diffuse.c1
    diffuse_b := material.diffuse.c2
    emissive_r := material.emission.c0
    emissive_g := material.emission.c1
    emissive_b := material.emission.c2 }

/-- The local variables of one iteration of the shape loop of `fill_buffers`,
with the two buffers the shared pointers refer to. -/
structure fill_state (F : Type) where
  index_offset : Nat
  vertex_buffer_id : Nat
  index_buffer_id : Nat
  vertex_buffer : resource (vertex F)
  index_buffer : resource Nat
  index_map : index_map_t
  deriving DecidableEq, Repr

/-- The body of the loop over `v` in `fill_buffers`, in face `f` with the
face normal `normal`. -/
def fill_face_vertex {F : Type} [Zero F] (attrib : attrib_t F) (materials : List (material_t F))
    (mesh : mesh_t) (f : Nat) (normal : float3 F) (v : Nat) (st : fill_state F) :
    Except Fault (fill_state F) := do
  let idx ← subscript mesh.indices (st.index_offset + v)
  let idx_tuple := make_index_tuple idx
  let st1 : fill_state F ←
    if st.index_map.count idx_tuple = 0 then do
      let vertex ← st.vertex_buffer.item st.vertex_buffer_id
      let material_id ← subscript mesh.material_ids f
      let material ← subscript_int materials material_id
      let vertex1 ← model.fill_vertex_data vertex attrib idx normal material
      let vertex_buffer ← st.vertex_buffer.item_assign st.vertex_buffer_id vertex1
      pure { st with
        vertex_buffer := vertex_buffer
        index_map := st.index_map.assign idx_tuple st.vertex_buffer_id
        vertex_buffer_id := u32 (st.vertex_buffer_id + 1) }
    else pure st
  let slot := st1.index_map.get idx_tuple
  let index_buffer ← st1.index_buffer.item_assign st1.index_buffer_id slot.1
  pure { st1 with
    index_map := slot.2
    index_buffer := index_buffer
    index_buffer_id := u32 (st1.index_buffer_id + 1) }

/-- The normal a face of `fill_buffers` works with: computed when the first
face-vertex has no normal index, and the uninitialised `float3` otherwise. -/
def face_normal {F : Type} (L : Library F) (attrib : attrib_t F) (mesh : mesh_t)
    (index_offset : Nat) : Except Fault (float3 F) := do
  let first ← subscript mesh.indices index_offset
  if first.normal_index < 0 then model.compute_normal L attrib mesh index_offset
  else pure L.float3_default

/-- The body of the loop over `f` in `fill_buffers`. -/
def fill_face {F : Type} [Zero F] (L : Library F) (attrib : attrib_t F)
    (materials : List (material_t F)) (mesh : mesh_t) (f : Nat) (st : fill_state F) :
    Except Fault (fill_state F) := do
  let fv ← subscript mesh.num_face_vertices f
  let normal ← face_normal L attrib mesh st.index_offset
  let st1 ← for_range (fill_face_vertex attrib materials mesh f normal) fv 0 st
  pure { st1 with index_offset := st1.index_offset + fv }

/-- The face loop of `fill_buffers` on one shape, from fresh local variables
and the shape's two buffers. -/
def fill_shape {F : Type} [Zero F] (L : Library F) (attrib : attrib_t F)
    (materials : List (material_t F)) (mesh : mesh_t)
    (vertex_buffer : resource (vertex F)) (index_buffer : resource Nat) :
    Except Fault (fill_state F) :=
  for_range (fill_face L attrib materials mesh) mesh.num_face_vertices.length 0
    { index_offset := 0, vertex_buffer_id := 0, index_buffer_id := 0,
      vertex_buffer := vertex_buffer, index_buffer := index_buffer, index_map := [] }

/-- The texture step that ends the body of the shape loop of `fill_buffers`:
the path that is assigned to `textures[s]`, if one is assigned. -/
def resolve_texture {F : Type} (L : Library F) (materials : List (material_t F))
    (base_folder : String) (mesh : mesh_t) : Except Fault (Option String) := do
  let material_id ← subscript mesh.material_ids 0
  let material ← subscript_int materials material_id
  if !material.diffuse_texname.isEmpty then
    pure (some (L.path_append base_folder material.diffuse_texname))
  else pure none

/-- The statement `textures[s] = path`, when there is a path to assign. -/
def assign_texture (textures : List String) (s : Nat) (path : Option String) :
    Except Fault (List String) :=
  match path with
  | some p =>
    match subscript textures s with
    | Except.ok _ => Except.ok (textures.set s p)
    | Except.error e => Except.error e
  | none => Except.ok textures

/-- The body of the shape loop of `fill_buffers`. -/
def fill_buffers_shape {F : Type} [Zero F] (L : Library F) (shapes : List shape_t)
    (attrib : attrib_t F) (materials : List (material_t F)) (base_folder : String)
    (s : Nat) (m : model F) : Except Fault (model F) := do
  let vertex_buffer ← subscript m.vertex_buffers s
  let index_buffer ← subscript m.index_buffers s
  let shape ← subscript shapes s
  let st ← fill_shape L attrib materials shape.mesh vertex_buffer index_buffer
  let path ← resolve_texture L materials base_folder shape.mesh
  let textures ← assign_texture m.textures s path
  pure { m with
    vertex_buffers := m.vertex_buffers.set s st.vertex_buffer
    index_buffers := m.index_buffers.set s st.index_buffer
    textures := textures }

/-- The member `model::fill_buffers`. -/
def model.fill_buffers {F : Type} [Zero F] (L : Library F) (shapes : List shape_t)
    (attrib : attrib_t F) (materials : List (material_t F)) (base_folder : String)
    (m : model F) : Except Fault (model F) :=
  for_range (fill_buffers_shape L shapes attrib materials base_folder) shapes.length 0 m

/-! ### `load_obj` -/

/-- The outcome of `tinyobj::ObjReader::ParseFromFile`: its return value, the
text of `Error()`, and the parsed data. -/
structure ObjReader (F : Type) where
  parse_result : Bool
  error : String
  shapes : List shape_t
  attrib : attrib_t F
  materials : List (material_t F)
  deriving DecidableEq, Repr

/-- How a call of `load_obj` ends, and the model it leaves behind.  The model
after the call is the model before the call when the error is thrown ahead of
the two passes, and the result of the passes when they complete; it is not
tracked (`none`) when a pass stops on a fault, which may leave buffers partly
written. -/
structure load_outcome (F : Type) where
  result : Except Fault Unit
  model_after : Option (model F)
  deriving DecidableEq

/-- The two passes of `load_obj`, one after the other. -/
def model.load_passes {F : Type} [Zero F] (L : Library F) (reader : ObjReader F)
    (model_folder : String) (m : model F) : Except Fault (model F) := do
  let m1 ← m.allocate_buffers reader.shapes
  m1.fill_buffers L reader.shapes reader.attrib reader.materials model_folder

/-- The member `model::load_obj`, given the outcome of the parser and the
parent folder of the model path. -/
def model.load_obj {F : Type} [Zero F] (L : Library F) (reader : ObjReader F)
    (model_folder : String) (m : model F) : load_outcome F :=
  if !reader.parse_result && !reader.error.isEmpty then
    { result := THROW_ERROR reader.error, model_after := some m }
  else
    match m.load_passes L reader model_folder with
    | Except.ok m2 => { result := Except.ok (), model_after := some m2 }
    | Except.error e => { result := Except.error e, model_after := none }

end cg.world

/-! ## Notions used to state the properties of the loader -/

namespace cg.world

open tinyobj

/-- The number of face-vertices of a mesh: the sum of its face sizes. -/
def face_vertex_count (mesh : mesh_t) : Nat := mesh.num_face_vertices.sum

/-- The position, in `mesh.indices`, of the first face-vertex of face `f`. -/
def face_offset (mesh : mesh_t) (f : Nat) : Nat := (mesh.num_face_vertices.take f).sum

/-- The index triples of the first `n` face-vertices of a mesh. -/
def index_tuples (mesh : mesh_t) (n : Nat) : List index_tuple :=
  (mesh.indices.take n).map make_index_tuple

/-- The distinct elements of a list of index triples, in the order of their
first occurrences. -/
def first_seen (keys : List index_tuple) : List index_tuple :=
  keys.foldl (fun seen key => if key ∈ seen then seen else seen ++ [key]) []

/-- The number of distinct `(vertex_index, normal_index, texcoord_index)`
triples among the first `sum(num_face_vertices)` entries of `mesh.indices`,
counted on the three index fields themselves. -/
def distinct_tuple_count (mesh : mesh_t) : Nat :=
  ((mesh.indices.take (face_vertex_count mesh)).map
    (fun idx => (idx.vertex_index, idx.normal_index, idx.texcoord_index))).toFinset.card

end cg.world

namespace cg.world

open tinyobj

/-- What holds of the local variables of pass 1 after `n` face-vertices. -/
structure allocate_inv (mesh : mesh_t) (n : Nat) (st : allocate_state) : Prop where
  le : n ≤ mesh.indices.length
  ibs : st.index_buffer_size = u32 n
  vbs : st.vertex_buffer_size = u32 (first_seen (index_tuples mesh n)).length
  map : ∀ key, st.index_map.lookup key =
    if key ∈ first_seen (index_tuples mesh n)
    then some (u32 ((first_seen (index_tuples mesh n)).indexOf key)) else none

/-- What `fill_vertex_data` leaves in the vertex `r`. -/
structure vertex_data {F : Type} [Zero F] (attrib : attrib_t F) (idx : index_t)
    (computed_normal : float3 F) (material : material_t F) (r : vertex F) : Prop where
  x : subscript_int attrib.vertices (vx idx.vertex_index) = Except.ok r.x
  y : subscript_int attrib.vertices (vy idx.vertex_index) = Except.ok r.y
  z : subscript_int attrib.vertices (vz idx.vertex_index) = Except.ok r.z
  computed : idx.normal_index < 0 →
    r.nx = computed_normal.x ∧ r.ny = computed_normal.y ∧ r.nz = computed_normal.z
  normal : ¬ idx.normal_index < 0 →
    subscript_int attrib.normals (vx idx.normal_index) = Except.ok r.nx ∧
    subscript_int attrib.normals (vy idx.normal_index) = Except.ok r.ny ∧
    subscript_int attrib.normals (vz idx.normal_index) = Except.ok r.nz
  no_texcoord : idx.texcoord_index < 0 → r.tx = 0 ∧ r.ty = 0
  texcoord : ¬ idx.texcoord_index < 0 →
    subscript_int attrib.texcoords (2 * idx.texcoord_index) = Except.ok r.tx ∧
    subscript_int attrib.texcoords (2 * idx.texcoord_index + 1) = Except.ok r.ty
  ambient : r.ambient_r = material.ambient.c0 ∧ r.ambient_g = material.ambient.c1 ∧
    r.ambient_b = material.ambient.c2
  diffuse : r.diffuse_r = material.diffuse.c0 ∧ r.diffuse_g = material.diffuse.c1 ∧
    r.diffuse_b = material.diffuse.c2
  emissive : r.emissive_r = material.emission.c0 ∧ r.emissive_g = material.emission.c1 ∧
    r.emissive_b = material.emission.c2

end cg.world

namespace cg.world

open tinyobj

/-- What holds of the local variables and the two buffers of pass 2 after `n`
face-vertices of a mesh, for a vertex buffer of `vcount` and an index buffer of
`icount` elements. -/
structure fill_inv {F : Type} [Zero F] (L : Library F) (attrib : attrib_t F)
    (materials : List (material_t F)) (mesh : mesh_t) (vcount icount : Nat) (n : Nat)
    (st : fill_state F) : Prop where
  le : n ≤ mesh.indices.length
  ibid : st.index_buffer_id = n
  vbid : st.vertex_buffer_id = (first_seen (index_tuples mesh n)).length
  ib_len : st.index_buffer.data.length = icount
  vb_len : st.vertex_buffer.data.length = vcount
  ib_le : n ≤ icount
  vb_le : (first_seen (index_tuples mesh n)).length ≤ vcount
  map : ∀ key, st.index_map.lookup key =
    if key ∈ first_seen (index_tuples mesh n)
    then some ((first_seen (index_tuples mesh n)).indexOf key) else none
  ib : ∀ p idx, p < n → mesh.indices[p]? = some idx →
    st.index_buffer.data[p]? =
      some ((first_seen (index_tuples mesh n)).indexOf (make_index_tuple idx))
  vb : ∀ f fv v idx, mesh.num_face_vertices[f]? = some fv → v < fv →
    face_offset mesh f + v < n → mesh.indices[face_offset mesh f + v]? = some idx →
    make_index_tuple idx ∉ index_tuples mesh (face_offset mesh f + v) →
    ∃ normal material_id material r,
      face_normal L attrib mesh (face_offset mesh f) = Except.ok normal ∧
      mesh.material_ids[f]? = some material_id ∧
      subscript_int materials material_id = Except.ok material ∧
      st.vertex_buffer.data[(first_seen (index_tuples mesh n)).indexOf (make_index_tuple idx)]?
        = some r ∧
      vertex_data attrib idx normal material r

end cg.world

namespace cg.world

open tinyobj

/-- The element `textures[s]` after the texture step, given the path the step
assigns (if any) and the element before the step. -/
def texture_after (path old : Option String) : Option String :=
  match path with
  | some p => some p
  | none => old

/-- Shape `s` of the model `m1` holds what pass 2 makes of the buffers and the
texture path that shape `s` has in the model `m`. -/
def shape_filled {F : Type} [Zero F] (L : Library F) (shapes : List shape_t)
    (attrib : attrib_t F) (materials : List (material_t F)) (base_folder : String)
    (m m1 : model F) (s : Nat) : Prop :=
  ∃ shape vertex_buffer index_buffer st path,
    shapes[s]? = some shape ∧
    m.vertex_buffers[s]? = some vertex_buffer ∧
    m.index_buffers[s]? = some index_buffer ∧
    fill_shape L attrib materials shape.mesh vertex_buffer index_buffer = Except.ok st ∧
    resolve_texture L materials base_folder shape.mesh = Except.ok path ∧
    m1.vertex_buffers[s]? = some st.vertex_buffer ∧
    m1.index_buffers[s]? = some st.index_buffer ∧
    m1.textures[s]? = texture_after path m.textures[s]?

/-- What holds of the model in `fill_buffers` when the shape loop reaches
shape `s`, having started from the model `m`. -/
structure fill_buffers_inv {F : Type} [Zero F] (L : Library F) (shapes : List shape_t)
    (attrib : attrib_t F) (materials : List (material_t F)) (base_folder : String)
    (m : model F) (s : Nat) (m1 : model F) : Prop where
  vb_len : m1.vertex_buffers.length = m.vertex_buffers.length
  ib_len : m1.index_buffers.length = m.index_buffers.length
  tex_len : m1.textures.length = m.textures.length
  vb_rest : ∀ i, s ≤ i → m1.vertex_buffers[i]? = m.vertex_buffers[i]?
  ib_rest : ∀ i, s ≤ i → m1.index_buffers[i]? = m.index_buffers[i]?
  tex_rest : ∀ i, s ≤ i → m1.textures[i]? = m.textures[i]?
  filled : ∀ i, i < s → shape_filled L shapes attrib materials base_folder m m1 i

end cg.world

namespace cg.world

open tinyobj

/-- What a completed load (pass 1, then pass 2, from an empty model) leaves
for a shape with mesh `mesh`: its vertex buffer, index buffer and texture
path. -/
structure shape_loaded {F : Type} [Zero F] (L : Library F) (attrib : attrib_t F)
    (materials : List (material_t F)) (base_folder : String) (mesh : mesh_t)
    (vertex_buffer : resource (vertex F)) (index_buffer : resource Nat) (texture : String) :
    Prop where
  count_lt : face_vertex_count mesh < 2 ^ 32
  le : face_vertex_count mesh ≤ mesh.indices.length
  ib_len : index_buffer.data.length = face_vertex_count mesh
  vb_len : vertex_buffer.data.length =
    (first_seen (index_tuples mesh (face_vertex_count mesh))).length
  ib : ∀ p idx, p < face_vertex_count mesh → mesh.indices[p]? = some idx →
    index_buffer.data[p]? = some
      ((first_seen (index_tuples mesh (face_vertex_count mesh))).indexOf (make_index_tuple idx))
  vb : ∀ f fv v idx, mesh.num_face_vertices[f]? = some fv → v < fv →
    mesh.indices[face_offset mesh f + v]? = some idx →
    make_index_tuple idx ∉ index_tuples mesh (face_offset mesh f + v) →
    ∃ normal material_id material r,
      face_normal L attrib mesh (face_offset mesh f) = Except.ok normal ∧
      mesh.material_ids[f]? = some material_id ∧
      subscript_int materials material_id = Except.ok material ∧
      vertex_buffer.data[(first_seen (index_tuples mesh (face_vertex_count mesh))).indexOf
        (make_index_tuple idx)]? = some r ∧
      vertex_data attrib idx normal material r
  texture : ∃ path, resolve_texture L materials base_folder mesh = Except.ok path ∧
    texture = path.getD ""

end cg.world

/-! ## Sample data -/

namespace sample

open cg cg.world tinyobj

/-- A library over the integers: exact subtraction and cross product.  Its
`normalize` is the identity; the face normals of the sample meshes are unit
vectors, which normalisation leaves unchanged. -/
def library : Library Int :=
  { sub := fun b a => ⟨b.x - a.x, b.y - a.y, b.z - a.z⟩
    cross := fun u v => ⟨u.y * v.z - u.z * v.y, u.z * v.x - u.x * v.z, u.x * v.y - u.y * v.x⟩
    normalize := fun v => v
    float3_default := ⟨0, 0, 0⟩
    path_append := fun base name => base ++ "/" ++ name }

/-- Four positions (the origin and the three unit points), one normal, three
texture coordinates. -/
def attrib : attrib_t Int :=
  { vertices := [0, 0, 0, 1, 0, 0, 0, 1, 0, 0, 0, 1]
    normals := [0, 0, 1]
    texcoords := [0, 0, 1, 0, 0, 1] }

/-- Two materials: the first with a diffuse texture, the second without. -/
def materials : List (material_t Int) :=
  [ { ambient := ⟨1, 2, 3⟩, diffuse := ⟨4, 5, 6⟩, emission := ⟨7, 8, 9⟩,
      diffuse_texname := "wood.png" },
    { ambient := ⟨10, 20, 30⟩, diffuse := ⟨40, 50, 60⟩, emission := ⟨70, 80, 90⟩,
      diffuse_texname := "" } ]

/-- Two triangles without normal or texture indices that share the
face-vertices of positions 0 and 2; the first lies in the plane `z = 0`, the
second in the plane `x = 0`. -/
def two_faces : shape_t :=
  { name := "two_faces"
    mesh :=
      { indices := [⟨0, -1, -1⟩, ⟨1, -1, -1⟩, ⟨2, -1, -1⟩, ⟨0, -1, -1⟩, ⟨3, -1, -1⟩, ⟨2, -1, -1⟩]
        num_face_vertices := [3, 3]
        material_ids := [0, 1] } }

/-- One triangle with normal and texture indices at every face-vertex, and the
second material. -/
def triangle : shape_t :=
  { name := "triangle"
    mesh :=
      { indices := [⟨0, 0, 0⟩, ⟨1, 0, 1⟩, ⟨2, 0, 2⟩]
        num_face_vertices := [3]
        material_ids := [1] } }

/-- The sample shapes. -/
def shapes : List shape_t := [two_faces, triangle]

/-- The model after pass 1 on the sample shapes. -/
def allocated : model Int :=
  match (model.empty : model Int).allocate_buffers shapes with
  | Except.ok m => m
  | Except.error _ => model.empty

/-- The model after pass 2 on the sample shapes. -/
def filled : model Int :=
  match allocated.fill_buffers library shapes attrib materials "base" with
  | Except.ok m => m
  | Except.error _ => model.empty

end sample

namespace sample

open cg cg.world tinyobj

/-- A shape of `n` triangles whose face-vertices all carry the index triple
`(0, -1, -1)`. -/
def triangles (n : Nat) : shape_t :=
  { name := "triangles"
    mesh :=
      { indices := List.replicate (3 * n) ⟨0, -1, -1⟩
        num_face_vertices := List.replicate n 3
        material_ids := List.replicate n 0 } }

end sample

namespace cg.world

open tinyobj

/-- The position the attribute pool holds for a vertex index:
`attrib.vertices[3 * vi .. 3 * vi + 2]`. -/
def pool_position {F : Type} (attrib : attrib_t F) (vertex_index : Int) : Option (float3 F) :=
  if 0 ≤ vertex_index then
    match attrib.vertices[(3 * vertex_index).toNat]?,
      attrib.vertices[(3 * vertex_index + 1).toNat]?,
      attrib.vertices[(3 * vertex_index + 2).toNat]? with
    | some x, some y, some z => some ⟨x, y, z⟩
    | _, _, _ => none
  else none

end cg.world

/-! ## Colours (`resource.h`), with channels as exact rationals -/

namespace cg

/-- The struct `cg::color`. -/
structure color (F : Type) where
  r : F
  g : F
  b : F
  deriving DecidableEq, Repr

/-- The member `color::from_float3`. -/
def color.from_float3 {F : Type} (inp : float3 F) : color F :=
  { r := inp.x, g := inp.y, b := inp.z }

/-- The member `color::to_float3`. -/
def color.to_float3 {F : Type} (c : color F) : float3 F := ⟨c.r, c.g, c.b⟩

/-- The function `std::clamp(v, lo, hi)`. -/
def clamp (v lo hi : ℚ) : ℚ := if v < lo then lo else if hi < v then hi else v

/-- Truncation towards zero, the rounding of a floating-point to integer
conversion. -/
def trunc (v : ℚ) : Int := if 0 ≤ v then ⌊v⌋ else -⌊-v⌋

/-- The conversion `static_cast<uint8_t>(v)`: the truncated value.  The
conversion is only defined when the truncated value is between 0 and 255;
the colour code converts clamped values only. -/
def static_cast_uint8 (v : ℚ) : Nat := (trunc v).toNat

/-- The struct `cg::unsigned_color`; a `uint8_t` channel is held as a natural
number. -/
structure unsigned_color where
  r : Nat
  g : Nat
  b : Nat
  deriving DecidableEq, Repr

/-- The member `unsigned_color::from_float3`. -/
def unsigned_color.from_float3 (color : float3 ℚ) : unsigned_color :=
  { r := static_cast_uint8 (clamp (color.x * 255) 0 255)
    g := static_cast_uint8 (clamp (color.y * 255) 0 255)
    b := static_cast_uint8 (clamp (color.z * 255) 0 255) }

/-- The member `unsigned_color::from_color`. -/
def unsigned_color.from_color (color : color ℚ) : unsigned_color :=
  unsigned_color.from_float3 color.to_float3

/-- The member `unsigned_color::to_float3`. -/
def unsigned_color.to_float3 (u : unsigned_color) : float3 ℚ :=
  ⟨(u.r : ℚ) / 255, (u.g : ℚ) / 255, (u.b : ℚ) / 255⟩

end cg

namespace sample

open cg cg.world tinyobj

/-- The triangle of `triangle`, with the material id `-1` of a face that has no
material. -/
def unassigned : shape_t :=
  { name := "unassigned"
    mesh :=
      { indices := [⟨0, 0, 0⟩, ⟨1, 0, 1⟩, ⟨2, 0, 2⟩]
        num_face_vertices := [3]
        material_ids := [-1] } }

end sample

namespace sample

open cg cg.world tinyobj

/-- A quad split into two triangles that share the face-vertices of positions
0 and 2: the index triples are `k0, k1, k2, k0, k2, k3`. -/
def quad : shape_t :=
  { name := "quad"
    mesh :=
      { indices := [⟨0, -1, -1⟩, ⟨1, -1, -1⟩, ⟨2, -1, -1⟩, ⟨0, -1, -1⟩, ⟨2, -1, -1⟩, ⟨3, -1, -1⟩]
        num_face_vertices := [3, 3]
        material_ids := [0, 0] } }

/-- The model after pass 1 on the given shapes. -/
def allocated_of (shapes : List shape_t) : model Int :=
  match (model.empty : model Int).allocate_buffers shapes with
  | Except.ok m => m
  | Except.error _ => model.empty

/-- The model after pass 2 on the given shapes, with the sample pool and
materials and the given base folder. -/
def filled_of (shapes : List shape_t) (base_folder : String) : model Int :=
  match (allocated_of shapes).fill_buffers library shapes attrib materials base_folder with
  | Except.ok m => m
  | Except.error _ => model.empty

end sample

namespace cg.world

open tinyobj

/-- The face-vertex at the start of face `f`, where `fill_buffers` looks for a
normal index, has a negative normal index. -/
def first_normal_negative (mesh : mesh_t) (f : Nat) : Prop :=
  match mesh.indices[face_offset mesh f]? with
  | some first => first.normal_index < 0
  | none => False

/-- Whether `first_normal_negative` holds can be computed. -/
instance first_normal_negative.instDecidable (mesh : mesh_t) (f : Nat) :
    Decidable (first_normal_negative mesh f) := by
  unfold first_normal_negative
  cases mesh.indices[face_offset mesh f]? with
  | none => exact isFalse (fun h => h)
  | some first => exact inferInstanceAs (Decidable (first.normal_index < 0))

/-- The conditions on a mesh under which a load is said to be free of faults:
at least one face, enough indices, a material id per face, every material id
inside the material list, at least three face-vertices in a face that starts
with a negative normal index, and every index of a face-vertex inside its
pool. -/
def fault_free_claimed {F : Type} (attrib : attrib_t F) (materials : List (material_t F))
    (mesh : mesh_t) : Prop :=
  mesh.num_face_vertices ≠ [] ∧
  face_vertex_count mesh ≤ mesh.indices.length ∧
  mesh.num_face_vertices.length ≤ mesh.material_ids.length ∧
  (∀ id ∈ mesh.material_ids, 0 ≤ id ∧ id < materials.length) ∧
  (∀ f, f < mesh.num_face_vertices.length → first_normal_negative mesh f →
    3 ≤ mesh.num_face_vertices.getD f 0) ∧
  (∀ idx ∈ mesh.indices,
    (0 ≤ idx.vertex_index ∧ 3 * idx.vertex_index + 2 < attrib.vertices.length) ∧
    (0 ≤ idx.normal_index → 3 * idx.normal_index + 2 < attrib.normals.length) ∧
    (0 ≤ idx.texcoord_index → 2 * idx.texcoord_index + 1 < attrib.texcoords.length))

/-- Whether `fault_free_claimed` holds can be computed. -/
instance fault_free_claimed.instDecidable {F : Type} (attrib : attrib_t F)
    (materials : List (material_t F)) (mesh : mesh_t) :
    Decidable (fault_free_claimed attrib materials mesh) := by
  unfold fault_free_claimed
  infer_instance

/-- The values that `fill_buffers` computes in `int` stay representable: every
material id and every subscript expression `3 * vi + 2`, `3 * ni + 2`,
`2 * ti + 1` is at most `INT_MAX`. -/
def int_representable (mesh : mesh_t) : Prop :=
  (∀ id ∈ mesh.material_ids, id ≤ INT_MAX) ∧
  (∀ idx ∈ mesh.indices, 3 * idx.vertex_index + 2 ≤ INT_MAX ∧
    3 * idx.normal_index + 2 ≤ INT_MAX ∧ 2 * idx.texcoord_index + 1 ≤ INT_MAX)

/-- Whether `int_representable` holds can be computed. -/
instance int_representable.instDecidable (mesh : mesh_t) : Decidable (int_representable mesh) := by
  unfold int_representable
  infer_instance

/-- The conditions under which every subscript of pass 2 into the mesh, the
pools and the material list is valid: the conditions of `fault_free_claimed`,
no face without face-vertices, and representable `int` values. -/
def mesh_valid {F : Type} (attrib : attrib_t F) (materials : List (material_t F))
    (mesh : mesh_t) : Prop :=
  fault_free_claimed attrib materials mesh ∧
  (∀ fv ∈ mesh.num_face_vertices, 1 ≤ fv) ∧
  int_representable mesh

/-- Whether `mesh_valid` holds can be computed. -/
instance mesh_valid.instDecidable {F : Type} (attrib : attrib_t F)
    (materials : List (material_t F)) (mesh : mesh_t) :
    Decidable (mesh_valid attrib materials mesh) := by
  unfold mesh_valid
  infer_instance

/-- The conditions under which a load is free of faults: those of
`mesh_valid`, and fewer than `2 ^ 32` face-vertices in the shape. -/
def fault_free_conditions {F : Type} (attrib : attrib_t F) (materials : List (material_t F))
    (mesh : mesh_t) : Prop :=
  mesh_valid attrib materials mesh ∧ face_vertex_count mesh < 2 ^ 32

/-- Whether `fault_free_conditions` holds can be computed. -/
instance fault_free_conditions.instDecidable {F : Type} (attrib : attrib_t F)
    (materials : List (material_t F)) (mesh : mesh_t) :
    Decidable (fault_free_conditions attrib materials mesh) := by
  unfold fault_free_conditions
  infer_instance

end cg.world

namespace sample

open cg cg.world tinyobj

/-- The triangle of `triangle` with the first material, followed by a face
without face-vertices. -/
def empty_face : shape_t :=
  { name := "empty_face"
    mesh :=
      { indices := [⟨0, 0, 0⟩, ⟨1, 0, 1⟩, ⟨2, 0, 2⟩]
        num_face_vertices := [3, 0]
        material_ids := [0, 0] } }

/-- A material without a diffuse texture. -/
def material : material_t Int :=
  { ambient := ⟨10, 20, 30⟩, diffuse := ⟨40, 50, 60⟩, emission := ⟨70, 80, 90⟩,
    diffuse_texname := "" }

end sample

namespace cg.world

open tinyobj

/-- A shape that is one triangle with the face-vertices `i0`, `i1`, `i2` and
the first material. -/
def single_triangle (name : String) (i0 i1 i2 : index_t) : shape_t :=
  { name := name
    mesh := { indices := [i0, i1, i2], num_face_vertices := [3], material_ids := [0] } }

/-- The three indices of a face-vertex are non-negative and in range: the
subscripts `fill_vertex_data` computes from them are values of `int` inside
the three pools. -/
def indices_in_range {F : Type} (attrib : attrib_t F) (idx : index_t) : Prop :=
  (0 ≤ idx.vertex_index ∧ 3 * idx.vertex_index + 2 < attrib.vertices.length ∧
    3 * idx.vertex_index + 2 ≤ INT_MAX) ∧
  (0 ≤ idx.normal_index ∧ 3 * idx.normal_index + 2 < attrib.normals.length ∧
    3 * idx.normal_index + 2 ≤ INT_MAX) ∧
  (0 ≤ idx.texcoord_index ∧ 2 * idx.texcoord_index + 1 < attrib.texcoords.length ∧
    2 * idx.texcoord_index + 1 ≤ INT_MAX)

instance indices_in_range.instDecidable {F : Type} (attrib : attrib_t F) (idx : index_t) :
    Decidable (indices_in_range attrib idx) := by
  unfold indices_in_range
  infer_instance

end cg.world

/-! ## The constructors of `resource`, with the limits of `std::vector` -/

namespace cg

/-- What a call of `std::vector<T>::resize` depends on besides its argument:
the value of `max_size()`, which is implementation-defined, and the largest
number of elements for which the allocator delivers storage at the time of the
call. -/
structure vector_limits where
  max_size : Nat
  available : Nat
  deriving DecidableEq, Repr

/-- The call `data.resize(n)` on the empty vector of a resource under
construction: it throws `std::length_error` when `n` exceeds `max_size()`, it
throws `std::bad_alloc` when the storage cannot be allocated, and it leaves `n`
value-initialised elements otherwise. -/
def vector_resize {T : Type} [Inhabited T] (limits : vector_limits) (n : Nat) :
    Except Fault (List T) :=
  if limits.max_size < n then Except.error Fault.length_error
  else if limits.available < n then Except.error Fault.bad_alloc
  else Except.ok (List.replicate n default)

/-- The constructor `resource(size_t size)` as a call that may throw;
`sizeof_T` is `sizeof(T)`.  `resource.mk1` is the object it leaves when
`resize` returns. -/
def resource.construct1 {T : Type} [Inhabited T] (limits : vector_limits)
    (sizeof_T size : Nat) : Except Fault (resource T) := do
  let data ← vector_resize limits size
  pure { data := data, item_size := sizeof_T, stride := size }

/-- The constructor `resource(size_t x_size, size_t y_size)` as a call that may
throw; the product is taken in `size_t`.  `resource.mk2` is the object it
leaves when `resize` returns. -/
def resource.construct2 {T : Type} [Inhabited T] (limits : vector_limits)
    (sizeof_T x_size y_size : Nat) : Except Fault (resource T) := do
  let data ← vector_resize limits ((x_size * y_size) % 2 ^ 64)
  pure { data := data, item_size := sizeof_T, stride := x_size }

end cg

/-! ## Colours (`resource.h`), with infinities and NaN -/

namespace cg

/-- A value of the type `float`: NaN, an infinity, or a finite value, which is
held as the rational number it denotes. -/
inductive float_value where
  | finite (v : ℚ) : float_value
  | pos_inf : float_value
  | neg_inf : float_value
  | nan : float_value
  deriving DecidableEq

namespace float_value

/-- The comparison `a < b` of two `float` values: false whenever an operand is
NaN. -/
def lt : float_value → float_value → Bool
  | finite a, finite b => decide (a < b)
  | finite _, pos_inf => true
  | neg_inf, finite _ => true
  | neg_inf, pos_inf => true
  | _, _ => false

/-- The product `v * 255.f`; the product of a finite value is taken exactly. -/
def mul_255 : float_value → float_value
  | finite v => finite (v * 255)
  | pos_inf => pos_inf
  | neg_inf => neg_inf
  | nan => nan

/-- The function `std::clamp(v, lo, hi)` on `float` values, which is
`(v < lo) ? lo : (hi < v) ? hi : v`. -/
def clamp (v lo hi : float_value) : float_value :=
  if lt v lo then lo else if lt hi v then hi else v

/-- The conversion `static_cast<uint8_t>(v)` of a `float`: the value truncated
towards zero; the behaviour is undefined when the truncated value is not
between 0 and 255, and for an infinity or NaN. -/
def to_uint8 : float_value → Except Fault Nat
  | finite v =>
    if -1 < v ∧ v < 256 then Except.ok (trunc v).toNat
    else Except.error Fault.bad_conversion
  | _ => Except.error Fault.bad_conversion

end float_value

/-- The member `unsigned_color::from_float3` on `float` channels that may be
infinite or NaN. -/
def unsigned_color.from_float3_ieee (color : float3 float_value) :
    Except Fault unsigned_color := do
  let r ← (float_value.clamp color.x.mul_255 (float_value.finite 0)
    (float_value.finite 255)).to_uint8
  let g ← (float_value.clamp color.y.mul_255 (float_value.finite 0)
    (float_value.finite 255)).to_uint8
  let b ← (float_value.clamp color.z.mul_255 (float_value.finite 0)
    (float_value.finite 255)).to_uint8
  pure { r := r, g := g, b := b }

end cg

namespace sample

open cg cg.world tinyobj

/-- Two triangles along a seam: the face-vertices `(0, 0, 0)` and `(0, 0, 1)`
differ in the texture-coordinate index only, `(0, 0, 0)` and `(0, -1, 0)` in the
normal index only, and `(1, 0, 0)` and `(0, 0, 1)` occur twice. -/
def seam : shape_t :=
  { name := "seam"
    mesh :=
      { indices := [⟨0, 0, 0⟩, ⟨0, 0, 1⟩, ⟨1, 0, 0⟩, ⟨0, -1, 0⟩, ⟨1, 0, 0⟩, ⟨0, 0, 1⟩]
        num_face_vertices := [3, 3]
        material_ids := [0, 1] } }

/-- The sample shapes, followed by the seam. -/
def shapes_with_seam : List shape_t := [two_faces, triangle, seam]

end sample

/-! ## Loops -/

theorem for_range_ok_inv {σ : Type} (body : Nat → σ → Except Fault σ) (P : Nat → σ → Prop)
    (n : Nat) : ∀ (v : Nat) (st st1 : σ), for_range body n v st = Except.ok st1 → P v st →
    (∀ i s s1, v ≤ i → i < v + n → P i s → body i s = Except.ok s1 → P (i + 1) s1) →
    P (v + n) st1 := by
  induction n with
  | zero =>
    intro v st st1 h h0 _
    simp only [for_range, Except.ok.injEq] at h
    subst h
    simpa using h0
  | succ n ih =>
    intro v st st1 h h0 hstep
    simp only [for_range] at h
    cases hb : body v st with
    | error e => rw [hb] at h; cases h
    | ok s1 =>
      rw [hb] at h
      have h1 : P (v + 1) s1 := hstep v st s1 (Nat.le_refl v) (by omega) h0 hb
      have h2 := ih (v + 1) s1 st1 h h1
        (fun i s s2 hi hlt hp hbody => hstep i s s2 (by omega) (by omega) hp hbody)
      have e : v + 1 + n = v + (n + 1) := by omega
      rw [e] at h2
      exact h2

theorem for_range_total {σ : Type} (body : Nat → σ → Except Fault σ) (P : Nat → σ → Prop)
    (n : Nat) : ∀ (v : Nat) (st : σ), P v st →
    (∀ i s, v ≤ i → i < v + n → P i s → ∃ s1, body i s = Except.ok s1 ∧ P (i + 1) s1) →
    ∃ st1, for_range body n v st = Except.ok st1 ∧ P (v + n) st1 := by
  induction n with
  | zero =>
    intro v st h0 _
    exact ⟨st, rfl, by simpa using h0⟩
  | succ n ih =>
    intro v st h0 hstep
    obtain ⟨s1, hb, h1⟩ := hstep v st (Nat.le_refl v) (by omega) h0
    obtain ⟨st1, hr, h2⟩ := ih (v + 1) s1 h1
      (fun i s hi hlt hp => hstep i s (by omega) (by omega) hp)
    refine ⟨st1, ?_, ?_⟩
    · simp only [for_range, hb]
      exact hr
    · have e : v + 1 + n = v + (n + 1) := by omega
      rw [e] at h2
      exact h2

theorem for_each_ok_inv {α σ : Type} (body : α → σ → Except Fault σ)
    (P : List α → σ → Prop) (xs : List α) : ∀ (done : List α) (st st1 : σ),
    for_each body xs st = Except.ok st1 → P done st →
    (∀ pre x s s1, P pre s → body x s = Except.ok s1 → P (pre ++ [x]) s1) →
    P (done ++ xs) st1 := by
  induction xs with
  | nil =>
    intro done st st1 h h0 _
    simp only [for_each, Except.ok.injEq] at h
    subst h
    simpa using h0
  | cons x xs ih =>
    intro done st st1 h h0 hstep
    simp only [for_each] at h
    cases hb : body x st with
    | error e => rw [hb] at h; cases h
    | ok s1 =>
      rw [hb] at h
      have h2 := ih (done ++ [x]) s1 st1 h (hstep done x st s1 h0 hb) hstep
      simpa using h2

theorem for_each_total {α σ : Type} (body : α → σ → Except Fault σ)
    (P : List α → σ → Prop) (xs : List α) : ∀ (done : List α) (st : σ), P done st →
    (∀ pre x s, x ∈ xs → P pre s → ∃ s1, body x s = Except.ok s1 ∧ P (pre ++ [x]) s1) →
    ∃ st1, for_each body xs st = Except.ok st1 ∧ P (done ++ xs) st1 := by
  induction xs with
  | nil =>
    intro done st h0 _
    exact ⟨st, rfl, by simpa using h0⟩
  | cons x xs ih =>
    intro done st h0 hstep
    obtain ⟨s1, hb, h1⟩ := hstep done x st (List.mem_cons_self x xs) h0
    obtain ⟨st1, hr, h2⟩ := ih (done ++ [x]) s1 h1
      (fun pre y s hy hp => hstep pre y s (List.mem_cons_of_mem x hy) hp)
    refine ⟨st1, ?_, by simpa using h2⟩
    simp only [for_each, hb]
    exact hr

/-! ## Subscripts -/

theorem subscript_ok_iff {α : Type} (xs : List α) (i : Nat) (x : α) :
    subscript xs i = Except.ok x ↔ xs[i]? = some x := by
  unfold subscript
  cases h : xs[i]? with
  | none => simp
  | some y => simp

theorem subscript_int_ok_iff {α : Type} (xs : List α) (e : Int) (x : α) :
    subscript_int xs e = Except.ok x ↔ (0 ≤ e ∧ e ≤ INT_MAX ∧ xs[e.toNat]? = some x) := by
  unfold subscript_int
  by_cases h : 0 ≤ e ∧ e ≤ INT_MAX
  · rw [if_pos h, subscript_ok_iff]
    constructor
    · intro hx; exact ⟨h.1, h.2, hx⟩
    · intro hx; exact hx.2.2
  · rw [if_neg h]
    constructor
    · intro hx; cases hx
    · intro hx; exact absurd ⟨hx.1, hx.2.1⟩ h

theorem u32_of_lt {n : Nat} (h : n < 2 ^ 32) : u32 n = n := by
  unfold u32
  exact Nat.mod_eq_of_lt h

/-! ## First-seen order and the slot map -/

namespace cg.world

open tinyobj

theorem first_seen_nil : first_seen [] = [] := rfl

theorem first_seen_concat (keys : List index_tuple) (key : index_tuple) :
    first_seen (keys ++ [key]) =
      if key ∈ first_seen keys then first_seen keys else first_seen keys ++ [key] := by
  simp [first_seen, List.foldl_append]

theorem mem_first_seen (keys : List index_tuple) (key : index_tuple) :
    key ∈ first_seen keys ↔ key ∈ keys := by
  induction keys using List.reverseRecOn with
  | nil => simp [first_seen_nil]
  | append_singleton ks k ih =>
    rw [first_seen_concat]
    by_cases hk : k ∈ first_seen ks
    · rw [if_pos hk]
      constructor
      · intro h; exact List.mem_append_left _ (ih.mp h)
      · intro h
        rcases List.mem_append.mp h with h1 | h1
        · exact ih.mpr h1
        · have e : key = k := by simpa using h1
          rw [e]; exact hk
    · rw [if_neg hk]
      simp only [List.mem_append, List.mem_singleton, ih]

theorem nodup_first_seen (keys : List index_tuple) : (first_seen keys).Nodup := by
  induction keys using List.reverseRecOn with
  | nil => simp [first_seen_nil]
  | append_singleton ks k ih =>
    rw [first_seen_concat]
    by_cases hk : k ∈ first_seen ks
    · rw [if_pos hk]; exact ih
    · rw [if_neg hk]
      exact List.Nodup.append ih (List.nodup_singleton k) (by simpa using hk)

theorem length_first_seen (keys : List index_tuple) :
    (first_seen keys).length = keys.toFinset.card := by
  rw [← List.toFinset_card_of_nodup (nodup_first_seen keys)]
  congr 1
  ext key
  simp [mem_first_seen]

theorem length_first_seen_le (keys : List index_tuple) :
    (first_seen keys).length ≤ keys.length := by
  rw [length_first_seen]
  exact List.toFinset_card_le keys

theorem index_tuples_succ (mesh : mesh_t) (n : Nat) (idx : index_t)
    (h : mesh.indices[n]? = some idx) :
    index_tuples mesh (n + 1) = index_tuples mesh n ++ [make_index_tuple idx] := by
  simp [index_tuples, List.take_succ, h]

theorem length_index_tuples (mesh : mesh_t) (n : Nat) (h : n ≤ mesh.indices.length) :
    (index_tuples mesh n).length = n := by
  simp [index_tuples, h]

theorem index_tuples_getElem (mesh : mesh_t) (n p : Nat) (idx : index_t) (hp : p < n)
    (h : mesh.indices[p]? = some idx) :
    (index_tuples mesh n)[p]? = some (make_index_tuple idx) := by
  simp [index_tuples, List.getElem?_take_of_lt hp, h]

theorem index_tuples_take (mesh : mesh_t) (n p : Nat) (hp : p ≤ n) :
    (index_tuples mesh n).take p = index_tuples mesh p := by
  simp [index_tuples, ← List.map_take, List.take_take, hp]

theorem mem_index_tuples_of_lt (mesh : mesh_t) (n p : Nat) (idx : index_t) (hp : p < n)
    (h : mesh.indices[p]? = some idx) : make_index_tuple idx ∈ index_tuples mesh n := by
  have h1 := index_tuples_getElem mesh n p idx hp h
  obtain ⟨hlt, he⟩ := List.getElem?_eq_some_iff.mp h1
  rw [← he]
  exact List.getElem_mem hlt

theorem lookup_filter_ne (index_map : index_map_t) (key key1 : index_tuple)
    (h : key1 ≠ key) :
    (index_map.filter (fun entry => entry.1 != key)).lookup key1 = index_map.lookup key1 := by
  induction index_map with
  | nil => rfl
  | cons entry rest ih =>
    obtain ⟨k, w⟩ := entry
    by_cases hk : k = key
    · subst hk
      have hb1 : (key1 == k) = false := by simpa using h
      simp [List.filter_cons, List.lookup_cons, hb1, ih]
    · by_cases hk1 : key1 = k
      · subst hk1
        simp [List.filter_cons, hk]
      · have hb1 : (key1 == k) = false := by simpa using hk1
        simp [List.filter_cons, hk, List.lookup_cons, hb1, ih]

theorem lookup_assign (index_map : index_map_t) (key key1 : index_tuple) (value : Nat) :
    (index_map.assign key value).lookup key1 =
      if key1 = key then some value else index_map.lookup key1 := by
  unfold index_map_t.assign
  by_cases h : key1 = key
  · subst h
    simp
  · rw [if_neg h, List.lookup_cons]
    have hb : (key1 == key) = false := by simpa using h
    rw [hb]
    exact lookup_filter_ne index_map key key1 h

theorem count_eq_zero_iff (index_map : index_map_t) (key : index_tuple) :
    index_map.count key = 0 ↔ index_map.lookup key = none := by
  unfold index_map_t.count
  cases h : index_map.lookup key with
  | none => simp
  | some v => simp

theorem get_of_lookup (index_map : index_map_t) (key : index_tuple) (value : Nat)
    (h : index_map.lookup key = some value) : index_map.get key = (value, index_map) := by
  unfold index_map_t.get
  rw [h]

end cg.world

/-! ## Face offsets -/

namespace cg.world

open tinyobj

theorem face_offset_zero (mesh : mesh_t) : face_offset mesh 0 = 0 := by
  simp [face_offset]

theorem face_offset_succ (mesh : mesh_t) (f fv : Nat)
    (h : mesh.num_face_vertices[f]? = some fv) :
    face_offset mesh (f + 1) = face_offset mesh f + fv := by
  obtain ⟨hlt, he⟩ := List.getElem?_eq_some_iff.mp h
  unfold face_offset
  rw [List.sum_take_succ _ _ hlt, he]

theorem face_offset_length (mesh : mesh_t) :
    face_offset mesh mesh.num_face_vertices.length = face_vertex_count mesh := by
  simp [face_offset, face_vertex_count]

theorem face_offset_le_succ (mesh : mesh_t) (f : Nat) :
    face_offset mesh f ≤ face_offset mesh (f + 1) := by
  cases h : mesh.num_face_vertices[f]? with
  | some fv => rw [face_offset_succ mesh f fv h]; omega
  | none =>
    have hl : mesh.num_face_vertices.length ≤ f := List.getElem?_eq_none_iff.mp h
    unfold face_offset
    rw [List.take_of_length_le hl, List.take_of_length_le (by omega)]

theorem face_offset_mono (mesh : mesh_t) (f g : Nat) (h : f ≤ g) :
    face_offset mesh f ≤ face_offset mesh g := by
  induction g with
  | zero =>
    have e : f = 0 := by omega
    rw [e]
  | succ g ih =>
    by_cases hfg : f = g + 1
    · rw [hfg]
    · exact Nat.le_trans (ih (by omega)) (face_offset_le_succ mesh g)

theorem face_offset_le_count (mesh : mesh_t) (f : Nat) :
    face_offset mesh f ≤ face_vertex_count mesh := by
  by_cases h : f ≤ mesh.num_face_vertices.length
  · rw [← face_offset_length]
    exact face_offset_mono mesh f _ h
  · unfold face_offset face_vertex_count
    rw [List.take_of_length_le (by omega)]

theorem face_position_lt_count (mesh : mesh_t) (f fv v : Nat)
    (h : mesh.num_face_vertices[f]? = some fv) (hv : v < fv) :
    face_offset mesh f + v < face_vertex_count mesh := by
  have h1 := face_offset_succ mesh f fv h
  have h2 := face_offset_le_count mesh (f + 1)
  omega

theorem face_position_unique (mesh : mesh_t) (f g fv gv v w : Nat)
    (hf : mesh.num_face_vertices[f]? = some fv) (hg : mesh.num_face_vertices[g]? = some gv)
    (hv : v < fv) (hw : w < gv) (h : face_offset mesh f + v = face_offset mesh g + w) :
    f = g ∧ v = w := by
  have key : ∀ a b av bv x y, mesh.num_face_vertices[a]? = some av →
      mesh.num_face_vertices[b]? = some bv → x < av → y < bv →
      face_offset mesh a + x = face_offset mesh b + y → ¬ a < b := by
    intro a b av bv x y ha _ hx _ hxy hab
    have h1 := face_offset_succ mesh a av ha
    have h2 := face_offset_mono mesh (a + 1) b hab
    omega
  have h1 := key f g fv gv v w hf hg hv hw h
  have h2 := key g f gv fv w v hg hf hw hv h.symm
  have e : f = g := by omega
  subst e
  exact ⟨rfl, by omega⟩

/-! ## Pass 1 -/

theorem u32_succ_u32 (n : Nat) : u32 (u32 n + 1) = u32 (n + 1) := by
  unfold u32
  omega

theorem allocate_face_vertex_inv (mesh : mesh_t) (v n : Nat) (st st1 : allocate_state)
    (hn : st.vertex_offset + v = n) (hinv : allocate_inv mesh n st)
    (h : allocate_face_vertex mesh v st = Except.ok st1) :
    allocate_inv mesh (n + 1) st1 ∧ st1.vertex_offset = st.vertex_offset := by
  unfold allocate_face_vertex at h
  rw [hn] at h
  cases hs : subscript mesh.indices n with
  | error e => rw [hs] at h; cases h
  | ok idx =>
    rw [hs] at h
    have hidx : mesh.indices[n]? = some idx := (subscript_ok_iff _ _ _).mp hs
    have hlt : n < mesh.indices.length := (List.getElem?_eq_some_iff.mp hidx).1
    have htup := index_tuples_succ mesh n idx hidx
    have hfs := first_seen_concat (index_tuples mesh n) (make_index_tuple idx)
    rw [← htup] at hfs
    simp only [bind, Except.bind, pure, Except.pure, Except.ok.injEq] at h
    by_cases hc : st.index_map.count (make_index_tuple idx) = 0
    · rw [if_pos hc] at h
      subst h
      have hnone := (count_eq_zero_iff _ _).mp hc
      rw [hinv.map] at hnone
      have hnot : make_index_tuple idx ∉ first_seen (index_tuples mesh n) := by
        intro hm; rw [if_pos hm] at hnone; cases hnone
      rw [if_neg hnot] at hfs
      refine ⟨⟨by omega, ?_, ?_, ?_⟩, rfl⟩
      · simp only [hinv.ibs, u32_succ_u32]
      · simp only [hinv.vbs, u32_succ_u32, hfs, List.length_append, List.length_singleton]
      · intro key
        simp only [lookup_assign, hfs, hinv.map, hinv.vbs]
        by_cases hk : key = make_index_tuple idx
        · subst hk
          simp [List.indexOf_append_of_not_mem hnot]
        · rw [if_neg hk]
          by_cases hm : key ∈ first_seen (index_tuples mesh n)
          · simp [hm, List.indexOf_append_of_mem hm]
          · simp [hm, hk]
    · rw [if_neg hc] at h
      subst h
      have hsome : st.index_map.lookup (make_index_tuple idx) ≠ none :=
        fun hx => hc ((count_eq_zero_iff _ _).mpr hx)
      rw [hinv.map] at hsome
      have hmem : make_index_tuple idx ∈ first_seen (index_tuples mesh n) := by
        by_contra hm; rw [if_neg hm] at hsome; exact hsome rfl
      rw [if_pos hmem] at hfs
      refine ⟨⟨by omega, ?_, ?_, ?_⟩, rfl⟩
      · simp only [hinv.ibs, u32_succ_u32]
      · simp only [hinv.vbs, hfs]
      · intro key
        simp only [hfs, hinv.map]

theorem allocate_face_inv (mesh : mesh_t) (fv : Nat) (st st1 : allocate_state)
    (hinv : allocate_inv mesh st.vertex_offset st)
    (h : allocate_face mesh fv st = Except.ok st1) :
    allocate_inv mesh st1.vertex_offset st1 ∧ st1.vertex_offset = st.vertex_offset + fv := by
  unfold allocate_face at h
  cases hl : for_range (allocate_face_vertex mesh) fv 0 st with
  | error e => rw [hl] at h; cases h
  | ok st2 =>
    rw [hl] at h
    simp only [bind, Except.bind, pure, Except.pure, Except.ok.injEq] at h
    have hP := for_range_ok_inv (allocate_face_vertex mesh)
      (fun i s => allocate_inv mesh (st.vertex_offset + i) s ∧ s.vertex_offset = st.vertex_offset)
      fv 0 st st2 hl ⟨by simpa using hinv, rfl⟩
      (fun i s s1 _ _ hp hb => by
        have hstep := allocate_face_vertex_inv mesh i (st.vertex_offset + i) s s1
          (by rw [hp.2]) hp.1 hb
        exact ⟨hstep.1, by rw [hstep.2, hp.2]⟩)
    simp only [Nat.zero_add] at hP
    subst h
    refine ⟨?_, by simp [hP.2]⟩
    simp only [hP.2]
    exact ⟨hP.1.le, hP.1.ibs, hP.1.vbs, hP.1.map⟩

theorem allocate_inv_init (mesh : mesh_t) :
    allocate_inv mesh 0
      { vertex_offset := 0, vertex_buffer_size := 0, index_buffer_size := 0, index_map := [] } := by
  refine ⟨Nat.zero_le _, rfl, ?_, ?_⟩
  · simp [index_tuples, first_seen_nil, u32]
  · intro key
    simp [index_tuples, first_seen_nil]

theorem allocate_shape_inv (mesh : mesh_t) (st : allocate_state)
    (h : allocate_shape mesh = Except.ok st) :
    allocate_inv mesh (face_vertex_count mesh) st := by
  unfold allocate_shape at h
  have hP := for_each_ok_inv (allocate_face mesh)
    (fun pre s => s.vertex_offset = pre.sum ∧ allocate_inv mesh pre.sum s)
    mesh.num_face_vertices [] _ st h ⟨rfl, allocate_inv_init mesh⟩
    (fun pre fv s s1 hp hb => by
      have hinv : allocate_inv mesh s.vertex_offset s := by rw [hp.1]; exact hp.2
      have hstep := allocate_face_inv mesh fv s s1 hinv hb
      have e : (pre ++ [fv]).sum = s1.vertex_offset := by
        rw [hstep.2, hp.1]; simp
      show s1.vertex_offset = (pre ++ [fv]).sum ∧ allocate_inv mesh (pre ++ [fv]).sum s1
      rw [e]
      exact ⟨rfl, hstep.1⟩)
  simpa [face_vertex_count] using hP.2

theorem allocate_face_total (mesh : mesh_t) (fv : Nat) (st : allocate_state)
    (hlen : st.vertex_offset + fv ≤ mesh.indices.length) :
    ∃ st1, allocate_face mesh fv st = Except.ok st1 ∧
      st1.vertex_offset = st.vertex_offset + fv := by
  obtain ⟨st2, hl, hP⟩ := for_range_total (allocate_face_vertex mesh)
    (fun _ s => s.vertex_offset = st.vertex_offset) fv 0 st rfl
    (fun i s _ hi hp => by
      have hlt : s.vertex_offset + i < mesh.indices.length := by rw [hp]; omega
      have hsub : subscript mesh.indices (s.vertex_offset + i)
          = Except.ok (mesh.indices.get ⟨s.vertex_offset + i, hlt⟩) := by
        rw [subscript_ok_iff]
        exact List.getElem?_eq_getElem hlt
      unfold allocate_face_vertex
      rw [hsub]
      simp only [bind, Except.bind, pure, Except.pure]
      refine ⟨_, rfl, ?_⟩
      split <;> exact hp)
  refine ⟨{ st2 with vertex_offset := st2.vertex_offset + fv }, ?_, by simp [hP]⟩
  unfold allocate_face
  rw [hl]
  rfl

theorem allocate_faces_total (mesh : mesh_t) (fvs : List Nat) :
    ∀ st : allocate_state, st.vertex_offset + fvs.sum ≤ mesh.indices.length →
    ∃ st1, for_each (allocate_face mesh) fvs st = Except.ok st1 := by
  induction fvs with
  | nil => intro st _; exact ⟨st, rfl⟩
  | cons fv rest ih =>
    intro st hlen
    simp only [List.sum_cons] at hlen
    obtain ⟨s1, hb, hoff⟩ := allocate_face_total mesh fv st (by omega)
    obtain ⟨st1, hr⟩ := ih s1 (by rw [hoff]; omega)
    exact ⟨st1, by simp only [for_each, hb]; exact hr⟩

theorem allocate_shape_total (mesh : mesh_t)
    (hlen : face_vertex_count mesh ≤ mesh.indices.length) :
    ∃ st, allocate_shape mesh = Except.ok st := by
  unfold allocate_shape
  exact allocate_faces_total mesh mesh.num_face_vertices _ (by simpa [face_vertex_count] using hlen)

end cg.world

/-! ## Pass 2 -/

namespace cg.world

open tinyobj

theorem fill_vertex_data_spec {F : Type} [Zero F] (vertex : vertex F) (attrib : attrib_t F)
    (idx : index_t) (computed_normal : float3 F) (material : material_t F) (r : cg.vertex F)
    (h : model.fill_vertex_data vertex attrib idx computed_normal material = Except.ok r) :
    vertex_data attrib idx computed_normal material r := by
  unfold model.fill_vertex_data at h
  simp only [bind, Except.bind, pure, Except.pure] at h
  cases hx : subscript_int attrib.vertices (vx idx.vertex_index) with
  | error e => rw [hx] at h; cases h
  | ok x =>
  cases hy : subscript_int attrib.vertices (vy idx.vertex_index) with
  | error e => rw [hx, hy] at h; cases h
  | ok y =>
  cases hz : subscript_int attrib.vertices (vz idx.vertex_index) with
  | error e => rw [hx, hy, hz] at h; cases h
  | ok z =>
  rw [hx, hy, hz] at h
  simp only at h
  by_cases hn : idx.normal_index < 0
  · by_cases ht : idx.texcoord_index < 0
    · simp only [hn, ht, if_true, Except.ok.injEq] at h
      subst h
      exact ⟨hx, hy, hz, fun _ => ⟨rfl, rfl, rfl⟩, fun c => absurd hn c,
        fun _ => ⟨rfl, rfl⟩, fun c => absurd ht c, ⟨rfl, rfl, rfl⟩, ⟨rfl, rfl, rfl⟩,
        ⟨rfl, rfl, rfl⟩⟩
    · simp only [hn, ht, if_true, if_false] at h
      cases htx : subscript_int attrib.texcoords (2 * idx.texcoord_index) with
      | error e => rw [htx] at h; cases h
      | ok tx =>
      cases hty : subscript_int attrib.texcoords (2 * idx.texcoord_index + 1) with
      | error e => rw [htx, hty] at h; cases h
      | ok ty =>
      rw [htx, hty] at h
      simp only [Except.ok.injEq] at h
      subst h
      exact ⟨hx, hy, hz, fun _ => ⟨rfl, rfl, rfl⟩, fun c => absurd hn c,
        fun c => absurd c ht, fun _ => ⟨htx, hty⟩, ⟨rfl, rfl, rfl⟩, ⟨rfl, rfl, rfl⟩,
        ⟨rfl, rfl, rfl⟩⟩
  · simp only [hn, if_false] at h
    cases hnx : subscript_int attrib.normals (vx idx.normal_index) with
    | error e => rw [hnx] at h; cases h
    | ok nx =>
    cases hny : subscript_int attrib.normals (vy idx.normal_index) with
    | error e => rw [hnx, hny] at h; cases h
    | ok ny =>
    cases hnz : subscript_int attrib.normals (vz idx.normal_index) with
    | error e => rw [hnx, hny, hnz] at h; cases h
    | ok nz =>
    rw [hnx, hny, hnz] at h
    simp only at h
    by_cases ht : idx.texcoord_index < 0
    · simp only [ht, if_true, Except.ok.injEq] at h
      subst h
      exact ⟨hx, hy, hz, fun c => absurd c hn, fun _ => ⟨hnx, hny, hnz⟩,
        fun _ => ⟨rfl, rfl⟩, fun c => absurd ht c, ⟨rfl, rfl, rfl⟩, ⟨rfl, rfl, rfl⟩,
        ⟨rfl, rfl, rfl⟩⟩
    · simp only [ht, if_false] at h
      cases htx : subscript_int attrib.texcoords (2 * idx.texcoord_index) with
      | error e => rw [htx] at h; cases h
      | ok tx =>
      cases hty : subscript_int attrib.texcoords (2 * idx.texcoord_index + 1) with
      | error e => rw [htx, hty] at h; cases h
      | ok ty =>
      rw [htx, hty] at h
      simp only [Except.ok.injEq] at h
      subst h
      exact ⟨hx, hy, hz, fun c => absurd c hn, fun _ => ⟨hnx, hny, hnz⟩,
        fun c => absurd c ht, fun _ => ⟨htx, hty⟩, ⟨rfl, rfl, rfl⟩, ⟨rfl, rfl, rfl⟩,
        ⟨rfl, rfl, rfl⟩⟩

end cg.world

namespace cg.world

open tinyobj

theorem item_ok_iff {T : Type} (r : resource T) (i : Nat) (x : T) :
    r.item i = Except.ok x ↔ r.data[i]? = some x := by
  unfold resource.item
  cases h : r.data[i]? with
  | none => simp
  | some y => simp

theorem item_assign_ok {T : Type} (r r1 : resource T) (i : Nat) (x : T)
    (h : r.item_assign i x = Except.ok r1) :
    i < r.data.length ∧ r1 = { r with data := r.data.set i x } := by
  unfold resource.item_assign at h
  cases hi : r.item i with
  | error e => rw [hi] at h; cases h
  | ok y =>
    rw [hi] at h
    simp only [Except.ok.injEq] at h
    exact ⟨(List.getElem?_eq_some_iff.mp ((item_ok_iff r i y).mp hi)).1, h.symm⟩

theorem fill_face_vertex_inv {F : Type} [Zero F] (L : Library F) (attrib : attrib_t F)
    (materials : List (material_t F)) (mesh : mesh_t) (vcount icount : Nat)
    (hvc : vcount < 2 ^ 32) (hic : icount < 2 ^ 32) (f fv v n : Nat) (normal : float3 F)
    (st st1 : fill_state F) (hf : mesh.num_face_vertices[f]? = some fv) (hv : v < fv)
    (hoff : st.index_offset = face_offset mesh f) (hn : n = face_offset mesh f + v)
    (hnormal : face_normal L attrib mesh (face_offset mesh f) = Except.ok normal)
    (hinv : fill_inv L attrib materials mesh vcount icount n st)
    (h : fill_face_vertex attrib materials mesh f normal v st = Except.ok st1) :
    fill_inv L attrib materials mesh vcount icount (n + 1) st1 ∧
      st1.index_offset = st.index_offset := by
  unfold fill_face_vertex at h
  rw [hoff, ← hn] at h
  cases hs : subscript mesh.indices n with
  | error e => rw [hs] at h; cases h
  | ok idx =>
  rw [hs] at h
  have hidx : mesh.indices[n]? = some idx := (subscript_ok_iff _ _ _).mp hs
  have hlt : n < mesh.indices.length := (List.getElem?_eq_some_iff.mp hidx).1
  have htup := index_tuples_succ mesh n idx hidx
  have hfs := first_seen_concat (index_tuples mesh n) (make_index_tuple idx)
  rw [← htup] at hfs
  simp only [bind, Except.bind, pure, Except.pure] at h
  by_cases hc : st.index_map.count (make_index_tuple idx) = 0
  · rw [if_pos hc] at h
    have hnone := (count_eq_zero_iff _ _).mp hc
    rw [hinv.map] at hnone
    have hnot : make_index_tuple idx ∉ first_seen (index_tuples mesh n) := by
      intro hm; rw [if_pos hm] at hnone; cases hnone
    rw [if_neg hnot] at hfs
    cases hitem : st.vertex_buffer.item st.vertex_buffer_id with
    | error e => rw [hitem] at h; cases h
    | ok vertex =>
    rw [hitem] at h; simp only at h
    cases hmid : subscript mesh.material_ids f with
    | error e => rw [hmid] at h; cases h
    | ok material_id =>
    rw [hmid] at h; simp only at h
    cases hmat : subscript_int materials material_id with
    | error e => rw [hmat] at h; cases h
    | ok material =>
    rw [hmat] at h; simp only at h
    cases hfvd : model.fill_vertex_data vertex attrib idx normal material with
    | error e => rw [hfvd] at h; cases h
    | ok vertex1 =>
    rw [hfvd] at h; simp only at h
    cases hvas : st.vertex_buffer.item_assign st.vertex_buffer_id vertex1 with
    | error e => rw [hvas] at h; cases h
    | ok vertex_buffer =>
    rw [hvas] at h; simp only at h
    have hget : (st.index_map.assign (make_index_tuple idx) st.vertex_buffer_id).get
        (make_index_tuple idx) = (st.vertex_buffer_id,
          st.index_map.assign (make_index_tuple idx) st.vertex_buffer_id) :=
      get_of_lookup _ _ _ (by rw [lookup_assign, if_pos rfl])
    rw [hget] at h; simp only at h
    cases hias : st.index_buffer.item_assign st.index_buffer_id st.vertex_buffer_id with
    | error e => rw [hias] at h; cases h
    | ok index_buffer =>
    rw [hias] at h
    simp only [Except.ok.injEq] at h
    obtain ⟨hvlt, hvb⟩ := item_assign_ok _ _ _ _ hvas
    obtain ⟨hilt, hib⟩ := item_assign_ok _ _ _ _ hias
    have hvd := fill_vertex_data_spec _ _ _ _ _ _ hfvd
    have hvid := hinv.vbid
    have hiid := hinv.ibid
    have hvlen := hinv.vb_len
    have hilen := hinv.ib_len
    subst h hvb hib
    have hu1 : u32 (st.vertex_buffer_id + 1) = st.vertex_buffer_id + 1 := u32_of_lt (by omega)
    have hu2 : u32 (st.index_buffer_id + 1) = st.index_buffer_id + 1 := u32_of_lt (by omega)
    refine ⟨⟨by omega, ?_, ?_, ?_, ?_, by omega, ?_, ?_, ?_, ?_⟩, hoff.symm⟩
    · show u32 (st.index_buffer_id + 1) = n + 1
      rw [hu2, hiid]
    · show u32 (st.vertex_buffer_id + 1) = (first_seen (index_tuples mesh (n + 1))).length
      rw [hu1, hvid, hfs, List.length_append, List.length_singleton]
    · simp only [List.length_set, hilen]
    · simp only [List.length_set, hvlen]
    · simp only [hfs, List.length_append, List.length_singleton]; omega
    · intro key
      simp only [lookup_assign, hfs, hinv.map, hvid]
      by_cases hk : key = make_index_tuple idx
      · subst hk
        simp [List.indexOf_append_of_not_mem hnot]
      · rw [if_neg hk]
        by_cases hm : key ∈ first_seen (index_tuples mesh n)
        · simp [hm, List.indexOf_append_of_mem hm]
        · simp [hm, hk]
    · intro p idx1 hp hidx1
      simp only [hfs]
      by_cases hpn : p = n
      · subst hpn
        have e : idx1 = idx := by rw [hidx] at hidx1; exact (Option.some.inj hidx1).symm
        subst e
        rw [hiid, List.getElem?_set_self (by omega), List.indexOf_append_of_not_mem hnot, hvid]
        simp
      · have hp1 : p < n := by omega
        have hmem : make_index_tuple idx1 ∈ first_seen (index_tuples mesh n) :=
          (mem_first_seen _ _).mpr (mem_index_tuples_of_lt mesh n p idx1 hp1 hidx1)
        rw [hiid, List.getElem?_set_ne (by omega), List.indexOf_append_of_mem hmem]
        exact hinv.ib p idx1 hp1 hidx1
    · intro f1 fv1 v1 idx1 hf1 hv1 hp hidx1 hfirst
      simp only [hfs]
      by_cases hpn : face_offset mesh f1 + v1 = n
      · have huniq := face_position_unique mesh f1 f fv1 fv v1 v hf1 hf hv1 hv (by omega)
        obtain ⟨e1, e2⟩ := huniq
        subst e1 e2
        rw [← hn, hidx] at hidx1
        have e : idx1 = idx := (Option.some.inj hidx1).symm
        subst e
        refine ⟨normal, material_id, material, vertex1, hnormal,
          (subscript_ok_iff _ _ _).mp hmid, hmat, ?_, hvd⟩
        rw [List.indexOf_append_of_not_mem hnot, ← hvid]
        simp [List.getElem?_set_self hvlt]
      · have hp1 : face_offset mesh f1 + v1 < n := by omega
        obtain ⟨nrm, mid, mat, r, h1, h2, h3, h4, h5⟩ :=
          hinv.vb f1 fv1 v1 idx1 hf1 hv1 hp1 hidx1 hfirst
        have hmem : make_index_tuple idx1 ∈ first_seen (index_tuples mesh n) :=
          (mem_first_seen _ _).mpr (mem_index_tuples_of_lt mesh n _ idx1 hp1 hidx1)
        refine ⟨nrm, mid, mat, r, h1, h2, h3, ?_, h5⟩
        rw [List.indexOf_append_of_mem hmem]
        have hlt2 := List.indexOf_lt_length.mpr hmem
        rw [List.getElem?_set_ne (by omega)]
        exact h4
  · rw [if_neg hc] at h
    have hsome : st.index_map.lookup (make_index_tuple idx) ≠ none :=
      fun hx => hc ((count_eq_zero_iff _ _).mpr hx)
    have hmap := hinv.map (make_index_tuple idx)
    have hmem : make_index_tuple idx ∈ first_seen (index_tuples mesh n) := by
      by_contra hm; rw [if_neg hm] at hmap; exact hsome hmap
    rw [if_pos hmem] at hmap hfs
    rw [get_of_lookup _ _ _ hmap] at h
    simp only at h
    cases hias : st.index_buffer.item_assign st.index_buffer_id
        (List.indexOf (make_index_tuple idx) (first_seen (index_tuples mesh n))) with
    | error e => rw [hias] at h; cases h
    | ok index_buffer =>
    rw [hias] at h
    simp only [Except.ok.injEq] at h
    obtain ⟨hilt, hib⟩ := item_assign_ok _ _ _ _ hias
    have hiid := hinv.ibid
    have hilen := hinv.ib_len
    subst h hib
    have hu2 : u32 (st.index_buffer_id + 1) = st.index_buffer_id + 1 := u32_of_lt (by omega)
    refine ⟨⟨by omega, ?_, ?_, ?_, hinv.vb_len, by omega, ?_, ?_, ?_, ?_⟩, rfl⟩
    · show u32 (st.index_buffer_id + 1) = n + 1
      rw [hu2, hiid]
    · show st.vertex_buffer_id = (first_seen (index_tuples mesh (n + 1))).length
      rw [hfs]; exact hinv.vbid
    · simp only [List.length_set, hilen]
    · rw [hfs]; exact hinv.vb_le
    · intro key
      rw [hfs]; exact hinv.map key
    · intro p idx1 hp hidx1
      simp only [hfs]
      by_cases hpn : p = n
      · subst hpn
        have e : idx1 = idx := by rw [hidx] at hidx1; exact (Option.some.inj hidx1).symm
        subst e
        rw [hiid, List.getElem?_set_self (by omega)]
      · have hp1 : p < n := by omega
        rw [hiid, List.getElem?_set_ne (by omega)]
        exact hinv.ib p idx1 hp1 hidx1
    · intro f1 fv1 v1 idx1 hf1 hv1 hp hidx1 hfirst
      simp only [hfs]
      by_cases hpn : face_offset mesh f1 + v1 = n
      · exfalso
        rw [hpn, hidx] at hidx1
        have e : idx1 = idx := (Option.some.inj hidx1).symm
        subst e
        rw [hpn] at hfirst
        exact hfirst ((mem_first_seen _ _).mp hmem)
      · exact hinv.vb f1 fv1 v1 idx1 hf1 hv1 (by omega) hidx1 hfirst

end cg.world

namespace cg.world

open tinyobj

theorem fill_face_inv {F : Type} [Zero F] (L : Library F) (attrib : attrib_t F)
    (materials : List (material_t F)) (mesh : mesh_t) (vcount icount : Nat)
    (hvc : vcount < 2 ^ 32) (hic : icount < 2 ^ 32) (f : Nat) (st st1 : fill_state F)
    (hoff : st.index_offset = face_offset mesh f)
    (hinv : fill_inv L attrib materials mesh vcount icount (face_offset mesh f) st)
    (h : fill_face L attrib materials mesh f st = Except.ok st1) :
    fill_inv L attrib materials mesh vcount icount (face_offset mesh (f + 1)) st1 ∧
      st1.index_offset = face_offset mesh (f + 1) := by
  unfold fill_face at h
  simp only [bind, Except.bind, pure, Except.pure] at h
  cases hfv : subscript mesh.num_face_vertices f with
  | error e => rw [hfv] at h; cases h
  | ok fv =>
  rw [hfv] at h; simp only at h
  rw [hoff] at h
  cases hnormal : face_normal L attrib mesh (face_offset mesh f) with
  | error e => rw [hnormal] at h; cases h
  | ok normal =>
  rw [hnormal] at h; simp only at h
  cases hl : for_range (fill_face_vertex attrib materials mesh f normal) fv 0 st with
  | error e => rw [hl] at h; cases h
  | ok st2 =>
  rw [hl] at h
  simp only [Except.ok.injEq] at h
  have hf : mesh.num_face_vertices[f]? = some fv := (subscript_ok_iff _ _ _).mp hfv
  have hP := for_range_ok_inv (fill_face_vertex attrib materials mesh f normal)
    (fun i s => fill_inv L attrib materials mesh vcount icount (face_offset mesh f + i) s ∧
      s.index_offset = face_offset mesh f)
    fv 0 st st2 hl ⟨by simpa using hinv, hoff⟩
    (fun i s s1 _ hi hp hb => by
      have hstep := fill_face_vertex_inv L attrib materials mesh vcount icount hvc hic f fv i
        (face_offset mesh f + i) normal s s1 hf (by omega) hp.2 rfl hnormal hp.1 hb
      exact ⟨hstep.1, by rw [hstep.2, hp.2]⟩)
  simp only [Nat.zero_add] at hP
  rw [face_offset_succ mesh f fv hf]
  subst h
  refine ⟨?_, by simp [hP.2]⟩
  exact ⟨hP.1.le, hP.1.ibid, hP.1.vbid, hP.1.ib_len, hP.1.vb_len, hP.1.ib_le, hP.1.vb_le,
    hP.1.map, hP.1.ib, hP.1.vb⟩

theorem fill_inv_init {F : Type} [Zero F] (L : Library F) (attrib : attrib_t F)
    (materials : List (material_t F)) (mesh : mesh_t)
    (vertex_buffer : resource (vertex F)) (index_buffer : resource Nat) :
    fill_inv L attrib materials mesh vertex_buffer.data.length index_buffer.data.length 0
      { index_offset := 0, vertex_buffer_id := 0, index_buffer_id := 0,
        vertex_buffer := vertex_buffer, index_buffer := index_buffer, index_map := [] } := by
  refine ⟨Nat.zero_le _, rfl, ?_, rfl, rfl, Nat.zero_le _, ?_, ?_, ?_, ?_⟩
  · simp [index_tuples, first_seen_nil]
  · simp [index_tuples, first_seen_nil]
  · intro key
    simp [index_tuples, first_seen_nil]
  · intro p idx hp _
    omega
  · intro f fv v idx _ _ hp _ _
    omega

theorem fill_shape_inv {F : Type} [Zero F] (L : Library F) (attrib : attrib_t F)
    (materials : List (material_t F)) (mesh : mesh_t)
    (vertex_buffer : resource (vertex F)) (index_buffer : resource Nat)
    (hvc : vertex_buffer.data.length < 2 ^ 32) (hic : index_buffer.data.length < 2 ^ 32)
    (st : fill_state F)
    (h : fill_shape L attrib materials mesh vertex_buffer index_buffer = Except.ok st) :
    fill_inv L attrib materials mesh vertex_buffer.data.length index_buffer.data.length
      (face_vertex_count mesh) st := by
  unfold fill_shape at h
  have hP := for_range_ok_inv (fill_face L attrib materials mesh)
    (fun f s => fill_inv L attrib materials mesh vertex_buffer.data.length
      index_buffer.data.length (face_offset mesh f) s ∧ s.index_offset = face_offset mesh f)
    mesh.num_face_vertices.length 0 _ st h
    ⟨by rw [face_offset_zero]; exact fill_inv_init L attrib materials mesh _ _,
      by rw [face_offset_zero]⟩
    (fun f s s1 _ _ hp hb =>
      fill_face_inv L attrib materials mesh _ _ hvc hic f s s1 hp.2 hp.1 hb)
  simp only [Nat.zero_add, face_offset_length] at hP
  exact hP.1

end cg.world

/-! ## The shape loops -/

namespace cg.world

open tinyobj

theorem allocate_buffers_shape_ok {F : Type} [Zero F] (shape : shape_t) (m m1 : model F)
    (h : allocate_buffers_shape shape m = Except.ok m1) :
    ∃ ast, allocate_shape shape.mesh = Except.ok ast ∧
      m1.vertex_buffers =
        m.vertex_buffers ++ [resource.mk1 sizeof_vertex ast.vertex_buffer_size] ∧
      m1.index_buffers =
        m.index_buffers ++ [resource.mk1 sizeof_unsigned_int ast.index_buffer_size] ∧
      m1.textures = m.textures := by
  unfold allocate_buffers_shape at h
  simp only [bind, Except.bind, pure, Except.pure] at h
  cases ha : allocate_shape shape.mesh with
  | error e => rw [ha] at h; cases h
  | ok ast =>
    rw [ha] at h
    simp only [Except.ok.injEq] at h
    subst h
    exact ⟨ast, rfl, rfl, rfl, rfl⟩

theorem allocate_shapes_spec {F : Type} [Zero F] (shapes : List shape_t) :
    ∀ (m m1 : model F), for_each allocate_buffers_shape shapes m = Except.ok m1 →
    m1.textures = m.textures ∧
    m1.vertex_buffers.length = m.vertex_buffers.length + shapes.length ∧
    m1.index_buffers.length = m.index_buffers.length + shapes.length ∧
    (∀ i, i < m.vertex_buffers.length → m1.vertex_buffers[i]? = m.vertex_buffers[i]?) ∧
    (∀ i, i < m.index_buffers.length → m1.index_buffers[i]? = m.index_buffers[i]?) ∧
    (∀ (s : Nat) (shape : shape_t), shapes[s]? = some shape →
      ∃ ast, allocate_shape shape.mesh = Except.ok ast ∧
      m1.vertex_buffers[m.vertex_buffers.length + s]? =
        some (resource.mk1 sizeof_vertex ast.vertex_buffer_size) ∧
      m1.index_buffers[m.index_buffers.length + s]? =
        some (resource.mk1 sizeof_unsigned_int ast.index_buffer_size)) := by
  induction shapes with
  | nil =>
    intro m m1 h
    simp only [for_each, Except.ok.injEq] at h
    subst h
    refine ⟨rfl, rfl, rfl, fun _ _ => rfl, fun _ _ => rfl, ?_⟩
    intro s shape hs
    simp at hs
  | cons sh rest ih =>
    intro m m1 h
    simp only [for_each] at h
    cases hb : allocate_buffers_shape sh m with
    | error e => rw [hb] at h; cases h
    | ok m0 =>
      rw [hb] at h
      obtain ⟨ast, ha, hvb, hib, htex⟩ := allocate_buffers_shape_ok sh m m0 hb
      obtain ⟨i1, i2, i3, i4, i5, i6⟩ := ih m0 m1 h
      have hvl : m0.vertex_buffers.length = m.vertex_buffers.length + 1 := by simp [hvb]
      have hil : m0.index_buffers.length = m.index_buffers.length + 1 := by simp [hib]
      refine ⟨by rw [i1, htex], by rw [i2, hvl, List.length_cons]; omega,
        by rw [i3, hil, List.length_cons]; omega, ?_, ?_, ?_⟩
      · intro i hi
        rw [i4 i (by omega), hvb, List.getElem?_append_left hi]
      · intro i hi
        rw [i5 i (by omega), hib, List.getElem?_append_left hi]
      · intro s shape hs
        cases s with
        | zero =>
          simp only [List.getElem?_cons_zero, Option.some.injEq] at hs
          subst hs
          refine ⟨ast, ha, ?_, ?_⟩
          · rw [Nat.add_zero, i4 _ (by omega), hvb]
            simp
          · rw [Nat.add_zero, i5 _ (by omega), hib]
            simp
        | succ s =>
          simp only [List.getElem?_cons_succ] at hs
          obtain ⟨ast1, ha1, h1, h2⟩ := i6 s shape hs
          refine ⟨ast1, ha1, ?_, ?_⟩
          · rw [hvl] at h1
            rw [← h1]; congr 1; omega
          · rw [hil] at h2
            rw [← h2]; congr 1; omega

theorem allocate_buffers_spec {F : Type} [Zero F] (shapes : List shape_t) (m1 : model F)
    (h : (model.empty : model F).allocate_buffers shapes = Except.ok m1) :
    m1.vertex_buffers.length = shapes.length ∧
    m1.index_buffers.length = shapes.length ∧
    m1.textures = List.replicate shapes.length "" ∧
    (∀ (s : Nat) (shape : shape_t), shapes[s]? = some shape →
      ∃ ast, allocate_shape shape.mesh = Except.ok ast ∧
      m1.vertex_buffers[s]? = some (resource.mk1 sizeof_vertex ast.vertex_buffer_size) ∧
      m1.index_buffers[s]? =
        some (resource.mk1 sizeof_unsigned_int ast.index_buffer_size)) := by
  unfold model.allocate_buffers at h
  simp only [bind, Except.bind, pure, Except.pure] at h
  cases hl : for_each allocate_buffers_shape shapes (model.empty : model F) with
  | error e => rw [hl] at h; cases h
  | ok m0 =>
    rw [hl] at h
    simp only [Except.ok.injEq] at h
    obtain ⟨i1, i2, i3, _, _, i6⟩ := allocate_shapes_spec shapes model.empty m0 hl
    subst h
    simp only [model.empty, List.length_nil, Nat.zero_add] at i1 i2 i3 i6
    refine ⟨i2, i3, ?_, i6⟩
    simp [i1, resize_paths]

theorem allocate_buffers_total {F : Type} [Zero F] (shapes : List shape_t)
    (hlen : ∀ shape ∈ shapes, face_vertex_count shape.mesh ≤ shape.mesh.indices.length) :
    ∀ m : model F, ∃ m1, m.allocate_buffers shapes = Except.ok m1 := by
  have key : ∀ (shs : List shape_t),
      (∀ shape ∈ shs, face_vertex_count shape.mesh ≤ shape.mesh.indices.length) →
      ∀ m : model F, ∃ m1, for_each allocate_buffers_shape shs m = Except.ok m1 := by
    intro shs
    induction shs with
    | nil => intro _ m; exact ⟨m, rfl⟩
    | cons sh rest ih =>
      intro hall m
      obtain ⟨ast, ha⟩ := allocate_shape_total sh.mesh (hall sh (List.mem_cons_self _ _))
      have hb : ∃ m0, allocate_buffers_shape sh m = Except.ok m0 := by
        unfold allocate_buffers_shape
        rw [ha]
        exact ⟨_, rfl⟩
      obtain ⟨m0, hb⟩ := hb
      obtain ⟨m1, hr⟩ := ih (fun shape hm => hall shape (List.mem_cons_of_mem _ hm)) m0
      exact ⟨m1, by simp only [for_each, hb]; exact hr⟩
  intro m
  obtain ⟨m0, h0⟩ := key shapes hlen m
  unfold model.allocate_buffers
  rw [h0]
  exact ⟨_, rfl⟩

end cg.world

namespace cg.world

open tinyobj

theorem assign_texture_ok (textures textures1 : List String) (s : Nat) (path : Option String)
    (h : assign_texture textures s path = Except.ok textures1) :
    textures1.length = textures.length ∧
    (∀ i, i ≠ s → textures1[i]? = textures[i]?) ∧
    textures1[s]? = texture_after path textures[s]? := by
  unfold assign_texture at h
  cases path with
  | none =>
    simp only [Except.ok.injEq] at h
    subst h
    exact ⟨rfl, fun _ _ => rfl, rfl⟩
  | some p =>
    simp only at h
    cases hs : subscript textures s with
    | error e => rw [hs] at h; cases h
    | ok old =>
      rw [hs] at h
      simp only [Except.ok.injEq] at h
      subst h
      have hlt := (List.getElem?_eq_some_iff.mp ((subscript_ok_iff _ _ _).mp hs)).1
      refine ⟨by simp, ?_, ?_⟩
      · intro i hi
        rw [List.getElem?_set_ne (by omega)]
      · rw [List.getElem?_set_self hlt]
        rfl

theorem fill_buffers_shape_inv {F : Type} [Zero F] (L : Library F) (shapes : List shape_t)
    (attrib : attrib_t F) (materials : List (material_t F)) (base_folder : String)
    (m : model F) (s : Nat) (m1 m2 : model F)
    (hinv : fill_buffers_inv L shapes attrib materials base_folder m s m1)
    (h : fill_buffers_shape L shapes attrib materials base_folder s m1 = Except.ok m2) :
    fill_buffers_inv L shapes attrib materials base_folder m (s + 1) m2 := by
  unfold fill_buffers_shape at h
  simp only [bind, Except.bind, pure, Except.pure] at h
  cases hvb : subscript m1.vertex_buffers s with
  | error e => rw [hvb] at h; cases h
  | ok vertex_buffer =>
  rw [hvb] at h; simp only at h
  cases hib : subscript m1.index_buffers s with
  | error e => rw [hib] at h; cases h
  | ok index_buffer =>
  rw [hib] at h; simp only at h
  cases hsh : subscript shapes s with
  | error e => rw [hsh] at h; cases h
  | ok shape =>
  rw [hsh] at h; simp only at h
  cases hfill : fill_shape L attrib materials shape.mesh vertex_buffer index_buffer with
  | error e => rw [hfill] at h; cases h
  | ok st =>
  rw [hfill] at h; simp only at h
  cases hres : resolve_texture L materials base_folder shape.mesh with
  | error e => rw [hres] at h; cases h
  | ok path =>
  rw [hres] at h; simp only at h
  cases htex : assign_texture m1.textures s path with
  | error e => rw [htex] at h; cases h
  | ok textures =>
  rw [htex] at h
  simp only [Except.ok.injEq] at h
  subst h
  rw [subscript_ok_iff] at hvb hib hsh
  have hvlt := (List.getElem?_eq_some_iff.mp hvb).1
  have hilt := (List.getElem?_eq_some_iff.mp hib).1
  obtain ⟨t1, t2, t3⟩ := assign_texture_ok _ _ _ _ htex
  refine ⟨by simp [hinv.vb_len], by simp [hinv.ib_len], by simp [t1, hinv.tex_len], ?_, ?_, ?_,
    ?_⟩
  · intro i hi
    show (m1.vertex_buffers.set s st.vertex_buffer)[i]? = _
    rw [List.getElem?_set_ne (by omega)]
    exact hinv.vb_rest i (by omega)
  · intro i hi
    show (m1.index_buffers.set s st.index_buffer)[i]? = _
    rw [List.getElem?_set_ne (by omega)]
    exact hinv.ib_rest i (by omega)
  · intro i hi
    show textures[i]? = _
    rw [t2 i (by omega)]
    exact hinv.tex_rest i (by omega)
  · intro i hi
    by_cases his : i = s
    · subst his
      refine ⟨shape, vertex_buffer, index_buffer, st, path, hsh, ?_, ?_, hfill, hres, ?_, ?_,
        ?_⟩
      · rw [← hinv.vb_rest i (Nat.le_refl i)]; exact hvb
      · rw [← hinv.ib_rest i (Nat.le_refl i)]; exact hib
      · show (m1.vertex_buffers.set i st.vertex_buffer)[i]? = _
        rw [List.getElem?_set_self hvlt]
      · show (m1.index_buffers.set i st.index_buffer)[i]? = _
        rw [List.getElem?_set_self hilt]
      · show textures[i]? = _
        rw [t3, hinv.tex_rest i (Nat.le_refl i)]
    · obtain ⟨sh0, vb0, ib0, st0, path0, h1, h2, h3, h5, h6, h7, h8, h9⟩ :=
        hinv.filled i (by omega)
      refine ⟨sh0, vb0, ib0, st0, path0, h1, h2, h3, h5, h6, ?_, ?_, ?_⟩
      · show (m1.vertex_buffers.set s st.vertex_buffer)[i]? = _
        rw [List.getElem?_set_ne (by omega)]; exact h7
      · show (m1.index_buffers.set s st.index_buffer)[i]? = _
        rw [List.getElem?_set_ne (by omega)]; exact h8
      · show textures[i]? = _
        rw [t2 i his]; exact h9

theorem fill_buffers_spec {F : Type} [Zero F] (L : Library F) (shapes : List shape_t)
    (attrib : attrib_t F) (materials : List (material_t F)) (base_folder : String)
    (m m2 : model F)
    (h : m.fill_buffers L shapes attrib materials base_folder = Except.ok m2) :
    fill_buffers_inv L shapes attrib materials base_folder m shapes.length m2 := by
  unfold model.fill_buffers at h
  have hP := for_range_ok_inv (fill_buffers_shape L shapes attrib materials base_folder)
    (fun s m1 => fill_buffers_inv L shapes attrib materials base_folder m s m1)
    shapes.length 0 m m2 h
    ⟨rfl, rfl, rfl, fun _ _ => rfl, fun _ _ => rfl, fun _ _ => rfl,
      fun i hi => absurd hi (Nat.not_lt_zero i)⟩
    (fun s m0 m1 _ _ hp hb =>
      fill_buffers_shape_inv L shapes attrib materials base_folder m s m0 m1 hp hb)
  simpa using hP

end cg.world

/-! ## A completed load -/

namespace cg.world

open tinyobj

theorem length_mk1 {T : Type} [Inhabited T] (sizeof_T size : Nat) :
    (resource.mk1 sizeof_T size : resource T).data.length = size := by
  simp [resource.mk1]

theorem u32_lt (n : Nat) : u32 n < 2 ^ 32 := by
  unfold u32
  exact Nat.mod_lt _ (by norm_num)

theorem eq_of_le_u32 {n : Nat} (h : n ≤ u32 n) : n < 2 ^ 32 ∧ u32 n = n := by
  have h1 := u32_lt n
  have h2 : n < 2 ^ 32 := by omega
  exact ⟨h2, u32_of_lt h2⟩

theorem load_spec {F : Type} [Zero F] (L : Library F) (shapes : List shape_t)
    (attrib : attrib_t F) (materials : List (material_t F)) (base_folder : String)
    (m1 m2 : model F)
    (ha : (model.empty : model F).allocate_buffers shapes = Except.ok m1)
    (hf : m1.fill_buffers L shapes attrib materials base_folder = Except.ok m2) :
    m2.vertex_buffers.length = shapes.length ∧
    m2.index_buffers.length = shapes.length ∧
    m2.textures.length = shapes.length ∧
    ∀ (s : Nat) (shape : shape_t), shapes[s]? = some shape →
      ∃ vertex_buffer index_buffer texture,
        m2.vertex_buffers[s]? = some vertex_buffer ∧
        m2.index_buffers[s]? = some index_buffer ∧
        m2.textures[s]? = some texture ∧
        shape_loaded L attrib materials base_folder shape.mesh vertex_buffer index_buffer
          texture := by
  obtain ⟨a1, a2, a3, a4⟩ := allocate_buffers_spec shapes m1 ha
  have hinv := fill_buffers_spec L shapes attrib materials base_folder m1 m2 hf
  refine ⟨by rw [hinv.vb_len, a1], by rw [hinv.ib_len, a2], by rw [hinv.tex_len, a3]; simp, ?_⟩
  intro s shape hs
  have hslt := (List.getElem?_eq_some_iff.mp hs).1
  obtain ⟨sh0, vb0, ib0, st, path, h1, h2, h3, h5, h6, h7, h8, h9⟩ :=
    hinv.filled s hslt
  rw [hs] at h1
  have e : sh0 = shape := (Option.some.inj h1).symm
  subst e
  obtain ⟨ast, b1, b2, b3⟩ := a4 s sh0 hs
  rw [h2] at b2
  rw [h3] at b3
  have e2 : vb0 = resource.mk1 sizeof_vertex ast.vertex_buffer_size := Option.some.inj b2
  have e3 : ib0 = resource.mk1 sizeof_unsigned_int ast.index_buffer_size := Option.some.inj b3
  have e4 : m2.textures[s]? = some (path.getD "") := by
    rw [h9, a3, List.getElem?_replicate, if_pos hslt]
    cases path <;> rfl
  have ainv := allocate_shape_inv sh0.mesh ast b1
  have hvl : vb0.data.length = u32 (first_seen
      (index_tuples sh0.mesh (face_vertex_count sh0.mesh))).length := by
    rw [e2, length_mk1, ainv.vbs]
  have hil : ib0.data.length = u32 (face_vertex_count sh0.mesh) := by
    rw [e3, length_mk1, ainv.ibs]
  have finv := fill_shape_inv L attrib materials sh0.mesh vb0 ib0
    (by rw [hvl]; exact u32_lt _) (by rw [hil]; exact u32_lt _) st h5
  have hile := finv.ib_le
  rw [hil] at hile
  obtain ⟨c1, c2⟩ := eq_of_le_u32 hile
  have hvle := finv.vb_le
  rw [hvl] at hvle
  obtain ⟨_, c4⟩ := eq_of_le_u32 hvle
  refine ⟨st.vertex_buffer, st.index_buffer, path.getD "", h7, h8, e4, ?_⟩
  refine ⟨c1, finv.le, by rw [finv.ib_len, hil, c2], by rw [finv.vb_len, hvl, c4], finv.ib,
    ?_, ⟨path, h6, rfl⟩⟩
  intro f fv v idx hfv hv hidx hfirst
  exact finv.vb f fv v idx hfv hv (face_position_lt_count sh0.mesh f fv v hfv hv) hidx hfirst

end cg.world

namespace cg.world

open tinyobj

theorem make_index_tuple_inj (a b : index_t) (h : make_index_tuple a = make_index_tuple b) :
    a = b := by
  cases a
  cases b
  simp only [make_index_tuple, index_tuple.mk.injEq] at h
  simp [h.1, h.2.1, h.2.2]

theorem face_position_exists (mesh : mesh_t) (p : Nat) :
    ∀ k, k ≤ mesh.num_face_vertices.length → p < face_offset mesh k →
    ∃ f fv v, mesh.num_face_vertices[f]? = some fv ∧ v < fv ∧ p = face_offset mesh f + v := by
  intro k
  induction k with
  | zero =>
    intro _ hp
    rw [face_offset_zero] at hp
    omega
  | succ k ih =>
    intro hk hp
    have hlt : k < mesh.num_face_vertices.length := by omega
    have hfv : mesh.num_face_vertices[k]? = some (mesh.num_face_vertices.get ⟨k, hlt⟩) :=
      List.getElem?_eq_getElem hlt
    rw [face_offset_succ mesh k _ hfv] at hp
    by_cases hp1 : p < face_offset mesh k
    · exact ih (by omega) hp1
    · exact ⟨k, _, p - face_offset mesh k, hfv, by omega, by omega⟩

theorem first_occurrence_exists (mesh : mesh_t) (p : Nat) (idx : index_t)
    (hidx : mesh.indices[p]? = some idx) :
    ∃ p0, p0 ≤ p ∧ mesh.indices[p0]? = some idx ∧
      make_index_tuple idx ∉ index_tuples mesh p0 := by
  classical
  have hex : ∃ q, mesh.indices[q]? = some idx := ⟨p, hidx⟩
  refine ⟨Nat.find hex, Nat.find_min' hex hidx, Nat.find_spec hex, ?_⟩
  intro hmem
  unfold index_tuples at hmem
  obtain ⟨idx1, hm1, he⟩ := List.mem_map.mp hmem
  obtain ⟨q, hq⟩ := List.getElem?_of_mem hm1
  have hqlt : q < Nat.find hex := by
    have h1 := (List.getElem?_eq_some_iff.mp hq).1
    simp only [List.length_take] at h1
    omega
  rw [List.getElem?_take_of_lt hqlt] at hq
  have e : idx1 = idx := make_index_tuple_inj _ _ he
  rw [e] at hq
  exact Nat.find_min hex hqlt hq

theorem loaded_slot {F : Type} [Zero F] (L : Library F) (attrib : attrib_t F)
    (materials : List (material_t F)) (base_folder : String) (mesh : mesh_t)
    (vertex_buffer : resource (vertex F)) (index_buffer : resource Nat) (texture : String)
    (hl : shape_loaded L attrib materials base_folder mesh vertex_buffer index_buffer texture)
    (p : Nat) (idx : index_t) (hp : p < face_vertex_count mesh)
    (hidx : mesh.indices[p]? = some idx) :
    index_buffer.item p = Except.ok
      ((first_seen (index_tuples mesh (face_vertex_count mesh))).indexOf (make_index_tuple idx)) ∧
    (first_seen (index_tuples mesh (face_vertex_count mesh))).indexOf (make_index_tuple idx)
      < vertex_buffer.data.length := by
  refine ⟨(item_ok_iff _ _ _).mpr (hl.ib p idx hp hidx), ?_⟩
  rw [hl.vb_len]
  exact List.indexOf_lt_length.mpr
    ((mem_first_seen _ _).mpr (mem_index_tuples_of_lt mesh _ p idx hp hidx))

theorem loaded_record {F : Type} [Zero F] (L : Library F) (attrib : attrib_t F)
    (materials : List (material_t F)) (base_folder : String) (mesh : mesh_t)
    (vertex_buffer : resource (vertex F)) (index_buffer : resource Nat) (texture : String)
    (hl : shape_loaded L attrib materials base_folder mesh vertex_buffer index_buffer texture)
    (p : Nat) (idx : index_t) (hp : p < face_vertex_count mesh)
    (hidx : mesh.indices[p]? = some idx) :
    ∃ f fv v normal material_id material slot r,
      mesh.num_face_vertices[f]? = some fv ∧ v < fv ∧ face_offset mesh f + v ≤ p ∧
      mesh.indices[face_offset mesh f + v]? = some idx ∧
      make_index_tuple idx ∉ index_tuples mesh (face_offset mesh f + v) ∧
      face_normal L attrib mesh (face_offset mesh f) = Except.ok normal ∧
      mesh.material_ids[f]? = some material_id ∧
      subscript_int materials material_id = Except.ok material ∧
      index_buffer.item p = Except.ok slot ∧
      vertex_buffer.item slot = Except.ok r ∧
      vertex_data attrib idx normal material r := by
  obtain ⟨p0, hp0, hidx0, hfirst⟩ := first_occurrence_exists mesh p idx hidx
  obtain ⟨f, fv, v, hfv, hv, hdec⟩ := face_position_exists mesh p0
    mesh.num_face_vertices.length (Nat.le_refl _)
    (by rw [face_offset_length]; omega)
  subst hdec
  obtain ⟨normal, material_id, material, r, h1, h2, h3, h4, h5⟩ :=
    hl.vb f fv v idx hfv hv hidx0 hfirst
  exact ⟨f, fv, v, normal, material_id, material, _, r, hfv, hv, hp0, hidx0, hfirst, h1, h2,
    h3, (loaded_slot L attrib materials base_folder mesh _ _ _ hl p idx hp hidx).1,
    (item_ok_iff _ _ _).mpr h4, h5⟩

end cg.world

/-! ## Buffer sizing -/

namespace cg.world

open tinyobj

theorem index_fields_inj (a b : index_t)
    (h : (a.vertex_index, a.normal_index, a.texcoord_index)
      = (b.vertex_index, b.normal_index, b.texcoord_index)) : a = b := by
  cases a
  cases b
  simp only [Prod.mk.injEq] at h
  simp [h.1, h.2.1, h.2.2]

theorem card_index_tuples (mesh : mesh_t) :
    (index_tuples mesh (face_vertex_count mesh)).toFinset.card = distinct_tuple_count mesh := by
  have key : ∀ {β : Type} [DecidableEq β] (f : index_t → β) (l : List index_t),
      Function.Injective f → (l.map f).toFinset.card = l.toFinset.card := by
    intro β _ f l hf
    have e : (l.map f).toFinset = l.toFinset.image f := by
      ext x
      simp
    rw [e, Finset.card_image_of_injective _ hf]
  unfold index_tuples distinct_tuple_count
  rw [key _ _ (fun a b h => make_index_tuple_inj a b h),
    key _ _ (fun a b h => index_fields_inj a b h)]

theorem allocate_sizes {F : Type} [Zero F] (shapes : List shape_t) (m1 : model F)
    (h : (model.empty : model F).allocate_buffers shapes = Except.ok m1)
    (s : Nat) (shape : shape_t) (hs : shapes[s]? = some shape) :
    ∃ vertex_buffer index_buffer,
      m1.vertex_buffers[s]? = some vertex_buffer ∧
      m1.index_buffers[s]? = some index_buffer ∧
      index_buffer.get_number_of_elements = face_vertex_count shape.mesh % 2 ^ 32 ∧
      vertex_buffer.get_number_of_elements = distinct_tuple_count shape.mesh % 2 ^ 32 := by
  obtain ⟨_, _, _, a4⟩ := allocate_buffers_spec shapes m1 h
  obtain ⟨ast, b1, b2, b3⟩ := a4 s shape hs
  have ainv := allocate_shape_inv shape.mesh ast b1
  refine ⟨_, _, b2, b3, ?_, ?_⟩
  · simp only [resource.get_number_of_elements, length_mk1, ainv.ibs, u32]
  · simp only [resource.get_number_of_elements, length_mk1, ainv.vbs, u32,
      length_first_seen, card_index_tuples]

theorem face_vertex_count_triangles (n : Nat) :
    face_vertex_count (sample.triangles n).mesh = 3 * n := by
  simp [face_vertex_count, sample.triangles, Nat.mul_comm]

theorem length_indices_triangles (n : Nat) :
    (sample.triangles n).mesh.indices.length = 3 * n := by
  simp [sample.triangles]

end cg.world

/-! ## Normals -/

namespace cg.world

open tinyobj

theorem pool_position_of_subscripts {F : Type} (attrib : attrib_t F) (vi : Int) (x y z : F)
    (hx : subscript_int attrib.vertices (vx vi) = Except.ok x)
    (hy : subscript_int attrib.vertices (vy vi) = Except.ok y)
    (hz : subscript_int attrib.vertices (vz vi) = Except.ok z) :
    pool_position attrib vi = some ⟨x, y, z⟩ := by
  rw [subscript_int_ok_iff] at hx hy hz
  unfold vx at hx
  unfold vy at hy
  unfold vz at hz
  have h0 : 0 ≤ vi := by omega
  unfold pool_position
  rw [if_pos h0, hx.2.2, hy.2.2, hz.2.2]

theorem compute_normal_spec {F : Type} (L : Library F) (attrib : attrib_t F) (mesh : mesh_t)
    (index_offset : Nat) (normal : float3 F)
    (h : model.compute_normal L attrib mesh index_offset = Except.ok normal) :
    ∃ a_id b_id c_id a b c,
      mesh.indices[index_offset]? = some a_id ∧
      mesh.indices[index_offset + 1]? = some b_id ∧
      mesh.indices[index_offset + 2]? = some c_id ∧
      pool_position attrib a_id.vertex_index = some a ∧
      pool_position attrib b_id.vertex_index = some b ∧
      pool_position attrib c_id.vertex_index = some c ∧
      normal = L.normalize (L.cross (L.sub b a) (L.sub c a)) := by
  unfold model.compute_normal at h
  simp only [bind, Except.bind, pure, Except.pure] at h
  cases ha : subscript mesh.indices index_offset with
  | error e => rw [ha] at h; cases h
  | ok a_id =>
  rw [ha] at h; simp only at h
  cases hb : subscript mesh.indices (index_offset + 1) with
  | error e => rw [hb] at h; cases h
  | ok b_id =>
  rw [hb] at h; simp only at h
  cases hc : subscript mesh.indices (index_offset + 2) with
  | error e => rw [hc] at h; cases h
  | ok c_id =>
  rw [hc] at h; simp only at h
  cases hax : subscript_int attrib.vertices (vx a_id.vertex_index) with
  | error e => rw [hax] at h; cases h
  | ok ax =>
  rw [hax] at h; simp only at h
  cases hay : subscript_int attrib.vertices (vy a_id.vertex_index) with
  | error e => rw [hay] at h; cases h
  | ok ay =>
  rw [hay] at h; simp only at h
  cases haz : subscript_int attrib.vertices (vz a_id.vertex_index) with
  | error e => rw [haz] at h; cases h
  | ok az =>
  rw [haz] at h; simp only at h
  cases hbx : subscript_int attrib.vertices (vx b_id.vertex_index) with
  | error e => rw [hbx] at h; cases h
  | ok bx =>
  rw [hbx] at h; simp only at h
  cases hby : subscript_int attrib.vertices (vy b_id.vertex_index) with
  | error e => rw [hby] at h; cases h
  | ok b_y =>
  rw [hby] at h; simp only at h
  cases hbz : subscript_int attrib.vertices (vz b_id.vertex_index) with
  | error e => rw [hbz] at h; cases h
  | ok bz =>
  rw [hbz] at h; simp only at h
  cases hcx : subscript_int attrib.vertices (vx c_id.vertex_index) with
  | error e => rw [hcx] at h; cases h
  | ok cx =>
  rw [hcx] at h; simp only at h
  cases hcy : subscript_int attrib.vertices (vy c_id.vertex_index) with
  | error e => rw [hcy] at h; cases h
  | ok cy =>
  rw [hcy] at h; simp only at h
  cases hcz : subscript_int attrib.vertices (vz c_id.vertex_index) with
  | error e => rw [hcz] at h; cases h
  | ok cz =>
  rw [hcz] at h
  simp only [Except.ok.injEq] at h
  exact ⟨a_id, b_id, c_id, ⟨ax, ay, az⟩, ⟨bx, b_y, bz⟩, ⟨cx, cy, cz⟩,
    (subscript_ok_iff _ _ _).mp ha, (subscript_ok_iff _ _ _).mp hb,
    (subscript_ok_iff _ _ _).mp hc,
    pool_position_of_subscripts attrib _ _ _ _ hax hay haz,
    pool_position_of_subscripts attrib _ _ _ _ hbx hby hbz,
    pool_position_of_subscripts attrib _ _ _ _ hcx hcy hcz, h.symm⟩

theorem face_normal_computed {F : Type} (L : Library F) (attrib : attrib_t F) (mesh : mesh_t)
    (index_offset : Nat) (first : index_t) (normal : float3 F)
    (hfirst : mesh.indices[index_offset]? = some first) (hneg : first.normal_index < 0)
    (h : face_normal L attrib mesh index_offset = Except.ok normal) :
    model.compute_normal L attrib mesh index_offset = Except.ok normal := by
  unfold face_normal at h
  rw [(subscript_ok_iff _ _ _).mpr hfirst] at h
  simp only [bind, Except.bind] at h
  rw [if_pos hneg] at h
  exact h

end cg.world

namespace cg.world

open tinyobj

theorem loaded_slot_first {F : Type} [Zero F] (L : Library F) (attrib : attrib_t F)
    (materials : List (material_t F)) (base_folder : String) (mesh : mesh_t)
    (vertex_buffer : resource (vertex F)) (index_buffer : resource Nat) (texture : String)
    (hl : shape_loaded L attrib materials base_folder mesh vertex_buffer index_buffer texture)
    (slot : Nat) (hslot : slot < vertex_buffer.data.length) :
    ∃ f fv v idx, mesh.num_face_vertices[f]? = some fv ∧ v < fv ∧
      mesh.indices[face_offset mesh f + v]? = some idx ∧
      make_index_tuple idx ∉ index_tuples mesh (face_offset mesh f + v) ∧
      index_buffer.item (face_offset mesh f + v) = Except.ok slot := by
  rw [hl.vb_len] at hslot
  have hmem : (first_seen (index_tuples mesh (face_vertex_count mesh))).get ⟨slot, hslot⟩
      ∈ index_tuples mesh (face_vertex_count mesh) :=
    (mem_first_seen _ _).mp (List.get_mem _ _ _)
  unfold index_tuples at hmem
  obtain ⟨idx, hm1, he⟩ := List.mem_map.mp hmem
  obtain ⟨q, hq⟩ := List.getElem?_of_mem hm1
  have hqlt : q < face_vertex_count mesh := by
    have h1 := (List.getElem?_eq_some_iff.mp hq).1
    simp only [List.length_take] at h1
    omega
  rw [List.getElem?_take_of_lt hqlt] at hq
  obtain ⟨p0, hp0, hidx0, hfirst⟩ := first_occurrence_exists mesh q idx hq
  obtain ⟨f, fv, v, hfv, hv, hdec⟩ := face_position_exists mesh p0
    mesh.num_face_vertices.length (Nat.le_refl _)
    (by rw [face_offset_length]; omega)
  subst hdec
  refine ⟨f, fv, v, idx, hfv, hv, hidx0, hfirst, ?_⟩
  rw [(loaded_slot L attrib materials base_folder mesh _ _ _ hl _ idx (by omega) hidx0).1, he]
  congr 1
  exact List.indexOf_getElem (nodup_first_seen _) slot hslot

end cg.world

namespace cg.world

open tinyobj

theorem resolve_texture_spec {F : Type} (L : Library F) (materials : List (material_t F))
    (base_folder : String) (mesh : mesh_t) (path : Option String)
    (h : resolve_texture L materials base_folder mesh = Except.ok path) :
    ∃ material_id material, mesh.material_ids[0]? = some material_id ∧ 0 ≤ material_id ∧
      materials[material_id.toNat]? = some material ∧
      path = if material.diffuse_texname = "" then none
        else some (L.path_append base_folder material.diffuse_texname) := by
  unfold resolve_texture at h
  simp only [bind, Except.bind, pure, Except.pure] at h
  cases hid : subscript mesh.material_ids 0 with
  | error e => rw [hid] at h; cases h
  | ok material_id =>
  rw [hid] at h; simp only at h
  cases hmat : subscript_int materials material_id with
  | error e => rw [hmat] at h; cases h
  | ok material =>
  rw [hmat] at h; simp only at h
  have hm := (subscript_int_ok_iff _ _ _).mp hmat
  refine ⟨material_id, material, (subscript_ok_iff _ _ _).mp hid, hm.1, hm.2.2, ?_⟩
  by_cases he : material.diffuse_texname = ""
  · have hb : material.diffuse_texname.isEmpty = true := (String.isEmpty_iff _).mpr he
    rw [if_pos he]
    simp only [hb, Bool.not_true, Bool.false_eq_true, if_false, Except.ok.injEq] at h
    exact h.symm
  · have hb : material.diffuse_texname.isEmpty = false := by
      cases hc : material.diffuse_texname.isEmpty with
      | false => rfl
      | true => exact absurd ((String.isEmpty_iff _).mp hc) he
    rw [if_neg he]
    simp only [hb, Bool.not_false, if_true, Except.ok.injEq] at h
    exact h.symm

end cg.world

/-! ## Colours -/

namespace cg

theorem clamp_eq_min_max (v : ℚ) : clamp (v * 255) 0 255 = min (max (255 * v) 0) 255 := by
  unfold clamp
  rw [mul_comm v 255]
  by_cases h1 : 255 * v < 0
  · rw [if_pos h1, max_eq_right (le_of_lt h1), min_eq_left (by norm_num)]
  · rw [if_neg h1, max_eq_left (not_lt.mp h1)]
    by_cases h2 : 255 < 255 * v
    · rw [if_pos h2, min_eq_right (le_of_lt h2)]
    · rw [if_neg h2, min_eq_left (not_lt.mp h2)]

theorem clamp_bounds (v : ℚ) : 0 ≤ clamp (v * 255) 0 255 ∧ clamp (v * 255) 0 255 ≤ 255 := by
  unfold clamp
  by_cases h1 : v * 255 < 0
  · rw [if_pos h1]; norm_num
  · rw [if_neg h1]
    by_cases h2 : 255 < v * 255
    · rw [if_pos h2]; norm_num
    · rw [if_neg h2]; exact ⟨not_lt.mp h1, not_lt.mp h2⟩

theorem static_cast_uint8_of_nonneg (v : ℚ) (h : 0 ≤ v) :
    ((static_cast_uint8 v : Nat) : ℚ) = ((⌊v⌋ : Int) : ℚ) := by
  unfold static_cast_uint8 trunc
  rw [if_pos h]
  have hf : 0 ≤ ⌊v⌋ := Int.floor_nonneg.mpr h
  have e : ((⌊v⌋.toNat : Nat) : Int) = ⌊v⌋ := Int.toNat_of_nonneg hf
  exact_mod_cast congrArg (fun z : Int => (z : ℚ)) e

theorem channel_le_255 (v : ℚ) : static_cast_uint8 (clamp (v * 255) 0 255) ≤ 255 := by
  obtain ⟨h0, h1⟩ := clamp_bounds v
  have h2 := static_cast_uint8_of_nonneg _ h0
  have h3 : ((⌊clamp (v * 255) 0 255⌋ : Int) : ℚ) ≤ clamp (v * 255) 0 255 := Int.floor_le _
  have h4 : ((static_cast_uint8 (clamp (v * 255) 0 255) : Nat) : ℚ) ≤ 255 := by
    rw [h2]; exact le_trans h3 h1
  exact_mod_cast h4

theorem channel_of_one_le (v : ℚ) (h : 1 ≤ v) :
    static_cast_uint8 (clamp (v * 255) 0 255) = 255 := by
  have hc : clamp (v * 255) 0 255 = 255 := by
    unfold clamp
    have h1 : ¬ v * 255 < 0 := by linarith
    rw [if_neg h1]
    by_cases h2 : 255 < v * 255
    · rw [if_pos h2]
    · rw [if_neg h2]; linarith
  rw [hc]
  unfold static_cast_uint8 trunc
  rw [if_pos (by norm_num)]
  have : ⌊(255 : ℚ)⌋ = 255 := by exact_mod_cast Int.floor_intCast (255 : Int)
  rw [this]
  rfl

theorem channel_of_nonpos (v : ℚ) (h : v ≤ 0) :
    static_cast_uint8 (clamp (v * 255) 0 255) = 0 := by
  have hc : clamp (v * 255) 0 255 = 0 := by
    unfold clamp
    by_cases h1 : v * 255 < 0
    · rw [if_pos h1]
    · rw [if_neg h1]
      have h2 : ¬ (255 : ℚ) < v * 255 := by linarith
      rw [if_neg h2]; linarith
  rw [hc]
  unfold static_cast_uint8 trunc
  simp

theorem channel_round_trip (v : ℚ) (h0 : 0 ≤ v) (h1 : v ≤ 1) :
    |((static_cast_uint8 (clamp (v * 255) 0 255) : Nat) : ℚ) / 255 - v| < 1 / 255 := by
  have hc : clamp (v * 255) 0 255 = v * 255 := by
    unfold clamp
    have a1 : ¬ v * 255 < 0 := by linarith
    have a2 : ¬ (255 : ℚ) < v * 255 := by linarith
    rw [if_neg a1, if_neg a2]
  rw [hc, static_cast_uint8_of_nonneg _ (by linarith)]
  have hl : ((⌊v * 255⌋ : Int) : ℚ) ≤ v * 255 := Int.floor_le _
  have hu : v * 255 < ((⌊v * 255⌋ : Int) : ℚ) + 1 := Int.lt_floor_add_one _
  rw [abs_lt]
  constructor
  · linarith
  · linarith

end cg

/-! ## First-seen ranks -/

namespace cg.world

open tinyobj

theorem not_mem_take_indexOf (keys : List index_tuple) (key : index_tuple) :
    key ∉ keys.take (keys.indexOf key) := by
  induction keys with
  | nil => simp
  | cons a t ih =>
    by_cases h : a = key
    · rw [List.indexOf_cons_eq _ h]
      simp
    · rw [List.indexOf_cons_ne _ h, List.take_succ_cons]
      intro hm
      rcases List.mem_cons.mp hm with h1 | h1
      · exact h h1.symm
      · exact ih h1

theorem indexOf_le_of_getElem (keys : List index_tuple) (key : index_tuple) :
    ∀ j, keys[j]? = some key → keys.indexOf key ≤ j := by
  induction keys with
  | nil => intro j hj; simp at hj
  | cons a t ih =>
    intro j hj
    by_cases h : a = key
    · rw [List.indexOf_cons_eq _ h]
      exact Nat.zero_le j
    · rw [List.indexOf_cons_ne _ h]
      cases j with
      | zero =>
        simp only [List.getElem?_cons_zero, Option.some.injEq] at hj
        exact absurd hj h
      | succ j =>
        simp only [List.getElem?_cons_succ] at hj
        exact Nat.succ_le_succ (ih j hj)

theorem mem_take_iff_indexOf_lt (keys : List index_tuple) (key : index_tuple) (i : Nat) :
    key ∈ keys.take i ↔ key ∈ keys ∧ keys.indexOf key < i := by
  constructor
  · intro hm
    refine ⟨List.mem_of_mem_take hm, ?_⟩
    obtain ⟨j, hj⟩ := List.getElem?_of_mem hm
    have hjlt : j < i := by
      have h1 := (List.getElem?_eq_some_iff.mp hj).1
      simp only [List.length_take] at h1
      omega
    rw [List.getElem?_take_of_lt hjlt] at hj
    exact Nat.lt_of_le_of_lt (indexOf_le_of_getElem keys key j hj) hjlt
  · intro ⟨hm, hlt⟩
    have hlen : keys.indexOf key < keys.length := List.indexOf_lt_length.mpr hm
    have hget : keys[keys.indexOf key]? = some key := by
      rw [List.getElem?_eq_getElem hlen]
      exact congrArg some (List.indexOf_get hlen)
    rw [← List.getElem?_take_of_lt hlt] at hget
    exact List.getElem?_mem hget

theorem first_seen_append (l m : List index_tuple) :
    ∃ r, first_seen (l ++ m) = first_seen l ++ r := by
  induction m using List.reverseRecOn with
  | nil => exact ⟨[], by simp⟩
  | append_singleton m k ih =>
    obtain ⟨r, hr⟩ := ih
    rw [← List.append_assoc, first_seen_concat, hr]
    by_cases hk : k ∈ first_seen l ++ r
    · exact ⟨r, by rw [if_pos hk]⟩
    · exact ⟨r ++ [k], by rw [if_neg hk, List.append_assoc]⟩

theorem indexOf_first_seen (keys : List index_tuple) (key : index_tuple) (hm : key ∈ keys) :
    (first_seen keys).indexOf key = (first_seen (keys.take (keys.indexOf key))).length := by
  have hlen : keys.indexOf key < keys.length := List.indexOf_lt_length.mpr hm
  have hget : keys[keys.indexOf key]? = some key := by
    rw [List.getElem?_eq_getElem hlen]
    exact congrArg some (List.indexOf_get hlen)
  have hnot : key ∉ first_seen (keys.take (keys.indexOf key)) :=
    fun h => not_mem_take_indexOf keys key ((mem_first_seen _ _).mp h)
  have hsplit : keys = keys.take (keys.indexOf key + 1) ++ keys.drop (keys.indexOf key + 1) :=
    (List.take_append_drop _ _).symm
  have htake : keys.take (keys.indexOf key + 1) = keys.take (keys.indexOf key) ++ [key] := by
    rw [List.take_succ, hget]; rfl
  obtain ⟨r, hr⟩ := first_seen_append (keys.take (keys.indexOf key + 1))
    (keys.drop (keys.indexOf key + 1))
  rw [← hsplit, htake, first_seen_concat, if_neg hnot] at hr
  rw [hr, List.indexOf_append_of_mem (by simp), List.indexOf_append_of_not_mem hnot]
  simp

theorem first_seen_rank (keys : List index_tuple) (key : index_tuple) (hm : key ∈ keys) :
    (first_seen keys).indexOf key =
      (keys.toFinset.filter (fun k => keys.indexOf k < keys.indexOf key)).card := by
  rw [indexOf_first_seen keys key hm, length_first_seen]
  congr 1
  ext k
  simp only [List.mem_toFinset, Finset.mem_filter]
  exact mem_take_iff_indexOf_lt keys k _

theorem loaded_slot_key {F : Type} [Zero F] (L : Library F) (attrib : attrib_t F)
    (materials : List (material_t F)) (base_folder : String) (mesh : mesh_t)
    (vertex_buffer : resource (vertex F)) (index_buffer : resource Nat) (texture : String)
    (hl : shape_loaded L attrib materials base_folder mesh vertex_buffer index_buffer texture)
    (p : Nat) (key : index_tuple)
    (hkey : (index_tuples mesh (face_vertex_count mesh))[p]? = some key) :
    index_buffer.data[p]? = some
      ((first_seen (index_tuples mesh (face_vertex_count mesh))).indexOf key) := by
  have hp : p < face_vertex_count mesh := by
    have h1 := (List.getElem?_eq_some_iff.mp hkey).1
    rw [length_index_tuples mesh _ hl.le] at h1
    exact h1
  have hpl : p < mesh.indices.length := Nat.lt_of_lt_of_le hp hl.le
  have hidx : mesh.indices[p]? = some (mesh.indices.get ⟨p, hpl⟩) :=
    List.getElem?_eq_getElem hpl
  have h2 := index_tuples_getElem mesh _ p _ hp hidx
  rw [hkey] at h2
  rw [Option.some.inj h2]
  exact hl.ib p _ hp hidx

end cg.world

namespace cg.world

open tinyobj

theorem first_seen_quad (k0 k1 k2 k3 : index_tuple) (h01 : k0 ≠ k1) (h02 : k0 ≠ k2)
    (h03 : k0 ≠ k3) (h12 : k1 ≠ k2) (h13 : k1 ≠ k3) (h23 : k2 ≠ k3) :
    first_seen [k0, k1, k2, k0, k2, k3] = [k0, k1, k2, k3] := by
  simp [first_seen, h01, h02, h03, h12, h13, h23, Ne.symm h01, Ne.symm h02, Ne.symm h03,
    Ne.symm h12, Ne.symm h13, Ne.symm h23]

theorem indexOf_quad (k0 k1 k2 k3 : index_tuple) (h01 : k0 ≠ k1) (h02 : k0 ≠ k2)
    (h03 : k0 ≠ k3) (h12 : k1 ≠ k2) (h13 : k1 ≠ k3) (h23 : k2 ≠ k3) :
    [k0, k1, k2, k3].indexOf k0 = 0 ∧ [k0, k1, k2, k3].indexOf k1 = 1 ∧
    [k0, k1, k2, k3].indexOf k2 = 2 ∧ [k0, k1, k2, k3].indexOf k3 = 3 := by
  simp [List.indexOf_cons, h01, h02, h03, h12, h13, h23, Ne.symm h01, Ne.symm h02,
    Ne.symm h03, Ne.symm h12, Ne.symm h13, Ne.symm h23]

end cg.world

/-! ## The local variables of the two passes after a completed load -/

namespace cg.world

open tinyobj

theorem load_states {F : Type} [Zero F] (L : Library F) (shapes : List shape_t)
    (attrib : attrib_t F) (materials : List (material_t F)) (base_folder : String)
    (m1 m2 : model F)
    (ha : (model.empty : model F).allocate_buffers shapes = Except.ok m1)
    (hf : m1.fill_buffers L shapes attrib materials base_folder = Except.ok m2)
    (s : Nat) (shape : shape_t) (hs : shapes[s]? = some shape) :
    ∃ ast st path,
      allocate_shape shape.mesh = Except.ok ast ∧
      fill_shape L attrib materials shape.mesh
        (resource.mk1 sizeof_vertex ast.vertex_buffer_size)
        (resource.mk1 sizeof_unsigned_int ast.index_buffer_size) = Except.ok st ∧
      resolve_texture L materials base_folder shape.mesh = Except.ok path ∧
      m2.vertex_buffers[s]? = some st.vertex_buffer ∧
      m2.index_buffers[s]? = some st.index_buffer ∧
      m2.textures[s]? = some (path.getD "") := by
  obtain ⟨_, _, a3, a4⟩ := allocate_buffers_spec shapes m1 ha
  have hinv := fill_buffers_spec L shapes attrib materials base_folder m1 m2 hf
  have hslt := (List.getElem?_eq_some_iff.mp hs).1
  obtain ⟨sh0, vb0, ib0, st, path, h1, h2, h3, h5, h6, h7, h8, h9⟩ :=
    hinv.filled s hslt
  rw [hs] at h1
  have e : sh0 = shape := (Option.some.inj h1).symm
  subst e
  obtain ⟨ast, b1, b2, b3⟩ := a4 s sh0 hs
  rw [h2] at b2
  rw [h3] at b3
  have e2 : vb0 = resource.mk1 sizeof_vertex ast.vertex_buffer_size := Option.some.inj b2
  have e3 : ib0 = resource.mk1 sizeof_unsigned_int ast.index_buffer_size := Option.some.inj b3
  have e4 : m2.textures[s]? = some (path.getD "") := by
    rw [h9, a3, List.getElem?_replicate, if_pos hslt]
    cases path <;> rfl
  subst e2 e3
  exact ⟨ast, st, path, b1, h5, h6, h7, h8, e4⟩

theorem loaded_first_slot {F : Type} [Zero F] (L : Library F) (attrib : attrib_t F)
    (materials : List (material_t F)) (base_folder : String) (mesh : mesh_t)
    (vertex_buffer : resource (vertex F)) (index_buffer : resource Nat) (texture : String)
    (hl : shape_loaded L attrib materials base_folder mesh vertex_buffer index_buffer texture)
    (hpos : 0 < face_vertex_count mesh) : index_buffer.item 0 = Except.ok 0 := by
  have hlt : 0 < mesh.indices.length := Nat.lt_of_lt_of_le hpos hl.le
  have hidx : mesh.indices[0]? = some (mesh.indices.get ⟨0, hlt⟩) :=
    List.getElem?_eq_getElem hlt
  rw [(loaded_slot L attrib materials base_folder mesh _ _ _ hl 0 _ hpos hidx).1]
  congr 1
  have hmem := mem_index_tuples_of_lt mesh (face_vertex_count mesh) 0 _ hpos hidx
  have h0 := indexOf_le_of_getElem _ _ 0
    (index_tuples_getElem mesh (face_vertex_count mesh) 0 _ hpos hidx)
  rw [indexOf_first_seen _ _ hmem, Nat.le_zero.mp h0]
  simp [first_seen_nil]

end cg.world

/-! ## Kinds of faults -/

theorem for_range_error_inv {σ : Type} (body : Nat → σ → Except Fault σ) (P : Nat → σ → Prop)
    (n : Nat) : ∀ (v : Nat) (st : σ) (e : Fault), for_range body n v st = Except.error e →
    P v st →
    (∀ i s s1, v ≤ i → i < v + n → P i s → body i s = Except.ok s1 → P (i + 1) s1) →
    ∃ i s, v ≤ i ∧ i < v + n ∧ P i s ∧ body i s = Except.error e := by
  induction n with
  | zero =>
    intro v st e h _ _
    simp only [for_range] at h
    cases h
  | succ n ih =>
    intro v st e h h0 hstep
    simp only [for_range] at h
    cases hb : body v st with
    | error e1 =>
      rw [hb] at h
      simp only [Except.error.injEq] at h
      subst h
      exact ⟨v, st, Nat.le_refl v, by omega, h0, hb⟩
    | ok s1 =>
      rw [hb] at h
      have h1 : P (v + 1) s1 := hstep v st s1 (Nat.le_refl v) (by omega) h0 hb
      obtain ⟨i, s, hi1, hi2, hp, he⟩ := ih (v + 1) s1 e h h1
        (fun i s s2 hi hlt hp hbody => hstep i s s2 (by omega) (by omega) hp hbody)
      exact ⟨i, s, by omega, by omega, hp, he⟩

theorem for_range_ok_or {σ : Type} (body : Nat → σ → Except Fault σ) (P : Nat → σ → Prop)
    (e0 : Fault) (n : Nat) : ∀ (v : Nat) (st : σ), P v st →
    (∀ i s, v ≤ i → i < v + n → P i s →
      (∃ s1, body i s = Except.ok s1 ∧ P (i + 1) s1) ∨ body i s = Except.error e0) →
    (∃ st1, for_range body n v st = Except.ok st1 ∧ P (v + n) st1) ∨
      for_range body n v st = Except.error e0 := by
  induction n with
  | zero =>
    intro v st h0 _
    exact Or.inl ⟨st, rfl, by simpa using h0⟩
  | succ n ih =>
    intro v st h0 hstep
    rcases hstep v st (Nat.le_refl v) (by omega) h0 with ⟨s1, hb, h1⟩ | hb
    · rcases ih (v + 1) s1 h1 (fun i s hi hlt hp => hstep i s (by omega) (by omega) hp) with
        ⟨st1, hr, h2⟩ | hr
      · refine Or.inl ⟨st1, ?_, ?_⟩
        · simp only [for_range, hb]
          exact hr
        · have e : v + 1 + n = v + (n + 1) := by omega
          rw [e] at h2
          exact h2
      · refine Or.inr ?_
        simp only [for_range, hb]
        exact hr
    · refine Or.inr ?_
      simp only [for_range, hb]

theorem subscript_error {α : Type} (xs : List α) (i : Nat) (e : Fault)
    (h : subscript xs i = Except.error e) : e = Fault.bad_subscript := by
  unfold subscript at h
  cases hx : xs[i]? with
  | none => rw [hx] at h; exact (Except.error.inj h).symm
  | some x => rw [hx] at h; cases h

theorem subscript_int_error {α : Type} (xs : List α) (i : Int) (e : Fault)
    (h : subscript_int xs i = Except.error e) : e = Fault.bad_subscript := by
  unfold subscript_int at h
  by_cases hr : 0 ≤ i ∧ i ≤ INT_MAX
  · rw [if_pos hr] at h
    exact subscript_error _ _ _ h
  · rw [if_neg hr] at h
    exact (Except.error.inj h).symm

theorem subscript_total {α : Type} (xs : List α) (i : Nat) (h : i < xs.length) :
    subscript xs i = Except.ok (xs.get ⟨i, h⟩) := by
  rw [subscript_ok_iff]
  exact List.getElem?_eq_getElem h

theorem subscript_int_total {α : Type} (xs : List α) (i : Int) (h0 : 0 ≤ i)
    (h1 : i ≤ INT_MAX) (h2 : i < xs.length) : ∃ x, subscript_int xs i = Except.ok x := by
  have hlt : i.toNat < xs.length := by omega
  exact ⟨xs.get ⟨i.toNat, hlt⟩,
    (subscript_int_ok_iff _ _ _).mpr ⟨h0, h1, List.getElem?_eq_getElem hlt⟩⟩

namespace cg.world

open tinyobj

theorem item_error {T : Type} (r : resource T) (i : Nat) (e : Fault)
    (h : r.item i = Except.error e) : e = Fault.out_of_range ∧ r.data.length ≤ i := by
  unfold resource.item at h
  cases hx : r.data[i]? with
  | none =>
    rw [hx] at h
    exact ⟨(Except.error.inj h).symm, List.getElem?_eq_none_iff.mp hx⟩
  | some x => rw [hx] at h; cases h

theorem item_total {T : Type} (r : resource T) (i : Nat) (h : i < r.data.length) :
    r.item i = Except.ok (r.data.get ⟨i, h⟩) := by
  rw [item_ok_iff]
  exact List.getElem?_eq_getElem h

theorem item_assign_total {T : Type} (r : resource T) (i : Nat) (x : T)
    (h : i < r.data.length) :
    r.item_assign i x = Except.ok { r with data := r.data.set i x } := by
  unfold resource.item_assign
  rw [item_total r i h]

theorem item_assign_error {T : Type} (r : resource T) (i : Nat) (x : T) (e : Fault)
    (h : r.item_assign i x = Except.error e) : e = Fault.out_of_range ∧ r.data.length ≤ i := by
  unfold resource.item_assign at h
  cases hi : r.item i with
  | ok y => rw [hi] at h; cases h
  | error e1 =>
    rw [hi] at h
    simp only [Except.error.injEq] at h
    subst h
    exact item_error r i e1 hi

end cg.world

namespace cg.world

open tinyobj

theorem fill_vertex_data_error {F : Type} [Zero F] (vertex : vertex F) (attrib : attrib_t F)
    (idx : index_t) (computed_normal : float3 F) (material : material_t F) (e : Fault)
    (h : model.fill_vertex_data vertex attrib idx computed_normal material = Except.error e) :
    e = Fault.bad_subscript := by
  unfold model.fill_vertex_data at h
  simp only [bind, Except.bind, pure, Except.pure] at h
  repeat' split at h
  all_goals
    cases h <;> exact subscript_int_error _ _ _ (by assumption)

theorem compute_normal_error {F : Type} (L : Library F) (attrib : attrib_t F) (mesh : mesh_t)
    (index_offset : Nat) (e : Fault)
    (h : model.compute_normal L attrib mesh index_offset = Except.error e) :
    e = Fault.bad_subscript := by
  unfold model.compute_normal at h
  simp only [bind, Except.bind, pure, Except.pure] at h
  repeat' split at h
  all_goals
    cases h <;> first
      | exact subscript_int_error _ _ _ (by assumption)
      | exact subscript_error _ _ _ (by assumption)

theorem face_normal_error {F : Type} (L : Library F) (attrib : attrib_t F) (mesh : mesh_t)
    (index_offset : Nat) (e : Fault)
    (h : face_normal L attrib mesh index_offset = Except.error e) :
    e = Fault.bad_subscript := by
  unfold face_normal at h
  simp only [bind, Except.bind, pure, Except.pure] at h
  repeat' split at h
  all_goals first
    | exact compute_normal_error _ _ _ _ _ h
    | (cases h <;> exact subscript_error _ _ _ (by assumption))

theorem resolve_texture_error {F : Type} (L : Library F) (materials : List (material_t F))
    (base_folder : String) (mesh : mesh_t) (e : Fault)
    (h : resolve_texture L materials base_folder mesh = Except.error e) :
    e = Fault.bad_subscript := by
  unfold resolve_texture at h
  simp only [bind, Except.bind, pure, Except.pure] at h
  repeat' split at h
  all_goals
    cases h <;> first
      | exact subscript_int_error _ _ _ (by assumption)
      | exact subscript_error _ _ _ (by assumption)

theorem assign_texture_error (textures : List String) (s : Nat) (path : Option String)
    (e : Fault) (h : assign_texture textures s path = Except.error e) :
    e = Fault.bad_subscript := by
  unfold assign_texture at h
  repeat' split at h
  all_goals
    cases h <;> exact subscript_error _ _ _ (by assumption)

end cg.world

/-! ## Valid subscripts -/

namespace cg.world

open tinyobj

theorem pool_subscripts_total {F : Type} (pool : List F) (i : Int) (h0 : 0 ≤ i)
    (h1 : 3 * i + 2 < pool.length) (h2 : 3 * i + 2 ≤ INT_MAX) :
    ∃ x y z, subscript_int pool (vx i) = Except.ok x ∧
      subscript_int pool (vy i) = Except.ok y ∧ subscript_int pool (vz i) = Except.ok z := by
  obtain ⟨x, hx⟩ := subscript_int_total pool (vx i) (by unfold vx; omega) (by unfold vx; omega)
    (by unfold vx; omega)
  obtain ⟨y, hy⟩ := subscript_int_total pool (vy i) (by unfold vy; omega) (by unfold vy; omega)
    (by unfold vy; omega)
  obtain ⟨z, hz⟩ := subscript_int_total pool (vz i) (by unfold vz; omega) (by unfold vz; omega)
    (by unfold vz; omega)
  exact ⟨x, y, z, hx, hy, hz⟩

theorem fill_vertex_data_total {F : Type} [Zero F] (vertex : vertex F) (attrib : attrib_t F)
    (idx : index_t) (computed_normal : float3 F) (material : material_t F)
    (hv : 0 ≤ idx.vertex_index ∧ 3 * idx.vertex_index + 2 < attrib.vertices.length)
    (hn : 0 ≤ idx.normal_index → 3 * idx.normal_index + 2 < attrib.normals.length)
    (ht : 0 ≤ idx.texcoord_index → 2 * idx.texcoord_index + 1 < attrib.texcoords.length)
    (hm : 3 * idx.vertex_index + 2 ≤ INT_MAX ∧ 3 * idx.normal_index + 2 ≤ INT_MAX ∧
      2 * idx.texcoord_index + 1 ≤ INT_MAX) :
    ∃ r, model.fill_vertex_data vertex attrib idx computed_normal material = Except.ok r := by
  obtain ⟨x, y, z, hx, hy, hz⟩ := pool_subscripts_total attrib.vertices idx.vertex_index
    hv.1 hv.2 hm.1
  unfold model.fill_vertex_data
  simp only [bind, Except.bind, pure, Except.pure, hx, hy, hz]
  by_cases hni : idx.normal_index < 0
  · by_cases hti : idx.texcoord_index < 0
    · simp only [hni, hti, if_true]
      exact ⟨_, rfl⟩
    · obtain ⟨tx, htx⟩ := subscript_int_total attrib.texcoords (2 * idx.texcoord_index)
        (by omega) (by omega) (by have := ht (by omega); omega)
      obtain ⟨ty, hty⟩ := subscript_int_total attrib.texcoords (2 * idx.texcoord_index + 1)
        (by omega) (by omega) (by have := ht (by omega); omega)
      simp only [hni, hti, if_true, if_false, htx, hty]
      exact ⟨_, rfl⟩
  · obtain ⟨nx, ny, nz, hnx, hny, hnz⟩ := pool_subscripts_total attrib.normals
      idx.normal_index (by omega) (hn (by omega)) hm.2.1
    by_cases hti : idx.texcoord_index < 0
    · simp only [hni, hti, if_true, if_false, hnx, hny, hnz]
      exact ⟨_, rfl⟩
    · obtain ⟨tx, htx⟩ := subscript_int_total attrib.texcoords (2 * idx.texcoord_index)
        (by omega) (by omega) (by have := ht (by omega); omega)
      obtain ⟨ty, hty⟩ := subscript_int_total attrib.texcoords (2 * idx.texcoord_index + 1)
        (by omega) (by omega) (by have := ht (by omega); omega)
      simp only [hni, hti, if_false, hnx, hny, hnz, htx, hty]
      exact ⟨_, rfl⟩

theorem compute_normal_total {F : Type} (L : Library F) (attrib : attrib_t F) (mesh : mesh_t)
    (index_offset : Nat) (hlen : index_offset + 2 < mesh.indices.length)
    (hv : ∀ idx ∈ mesh.indices,
      0 ≤ idx.vertex_index ∧ 3 * idx.vertex_index + 2 < attrib.vertices.length ∧
      3 * idx.vertex_index + 2 ≤ INT_MAX) :
    ∃ normal, model.compute_normal L attrib mesh index_offset = Except.ok normal := by
  have ha := subscript_total mesh.indices index_offset (by omega)
  have hb := subscript_total mesh.indices (index_offset + 1) (by omega)
  have hc := subscript_total mesh.indices (index_offset + 2) hlen
  have va := hv _ (List.get_mem mesh.indices index_offset (by omega))
  have vb := hv _ (List.get_mem mesh.indices (index_offset + 1) (by omega))
  have vc := hv _ (List.get_mem mesh.indices (index_offset + 2) hlen)
  obtain ⟨ax, ay, az, hax, hay, haz⟩ := pool_subscripts_total attrib.vertices _ va.1 va.2.1 va.2.2
  obtain ⟨bx, b_y, bz, hbx, hby, hbz⟩ :=
    pool_subscripts_total attrib.vertices _ vb.1 vb.2.1 vb.2.2
  obtain ⟨cx, cy, cz, hcx, hcy, hcz⟩ :=
    pool_subscripts_total attrib.vertices _ vc.1 vc.2.1 vc.2.2
  unfold model.compute_normal
  simp only [bind, Except.bind, pure, Except.pure, ha, hb, hc, hax, hay, haz, hbx, hby, hbz,
    hcx, hcy, hcz]
  exact ⟨_, rfl⟩

end cg.world

/-! ## One face-vertex of pass 2 -/

namespace cg.world

open tinyobj

theorem fill_face_vertex_ok_or {F : Type} [Zero F] (attrib : attrib_t F)
    (materials : List (material_t F)) (mesh : mesh_t) (f : Nat) (normal : float3 F) (v : Nat)
    (st : fill_state F) (idx : index_t) (material_id : Int)
    (hidx : subscript mesh.indices (st.index_offset + v) = Except.ok idx)
    (hv : 0 ≤ idx.vertex_index ∧ 3 * idx.vertex_index + 2 < attrib.vertices.length)
    (hn : 0 ≤ idx.normal_index → 3 * idx.normal_index + 2 < attrib.normals.length)
    (ht : 0 ≤ idx.texcoord_index → 2 * idx.texcoord_index + 1 < attrib.texcoords.length)
    (hm : 3 * idx.vertex_index + 2 ≤ INT_MAX ∧ 3 * idx.normal_index + 2 ≤ INT_MAX ∧
      2 * idx.texcoord_index + 1 ≤ INT_MAX)
    (hmid : subscript mesh.material_ids f = Except.ok material_id)
    (hmat : 0 ≤ material_id ∧ material_id < materials.length ∧ material_id ≤ INT_MAX) :
    (∃ st1, fill_face_vertex attrib materials mesh f normal v st = Except.ok st1 ∧
      st1.index_offset = st.index_offset) ∨
    fill_face_vertex attrib materials mesh f normal v st = Except.error Fault.out_of_range := by
  obtain ⟨material, hmt⟩ := subscript_int_total materials material_id hmat.1 hmat.2.2 hmat.2.1
  unfold fill_face_vertex
  simp only [bind, Except.bind, pure, Except.pure, hidx]
  by_cases hc : st.index_map.count (make_index_tuple idx) = 0
  · simp only [hc, if_true]
    cases hitem : st.vertex_buffer.item st.vertex_buffer_id with
    | error e =>
      rw [(item_error _ _ _ hitem).1]
      exact Or.inr rfl
    | ok vertex =>
      obtain ⟨vertex1, hfvd⟩ := fill_vertex_data_total vertex attrib idx normal material
        hv hn ht hm
      simp only [hmid, hmt, hfvd]
      cases hvas : st.vertex_buffer.item_assign st.vertex_buffer_id vertex1 with
      | error e =>
        rw [(item_assign_error _ _ _ _ hvas).1]
        exact Or.inr rfl
      | ok vertex_buffer =>
        simp only
        split
        · rename_i e he
          rw [(item_assign_error _ _ _ _ he).1]
          exact Or.inr rfl
        · exact Or.inl ⟨_, rfl, rfl⟩
  · simp only [hc, if_false]
    split
    · rename_i e he
      rw [(item_assign_error _ _ _ _ he).1]
      exact Or.inr rfl
    · exact Or.inl ⟨_, rfl, rfl⟩

theorem fill_face_vertex_error {F : Type} [Zero F] (attrib : attrib_t F)
    (materials : List (material_t F)) (mesh : mesh_t) (f : Nat) (normal : float3 F) (v : Nat)
    (st : fill_state F) (e : Fault)
    (hvb : ∀ idx, subscript mesh.indices (st.index_offset + v) = Except.ok idx →
      st.index_map.count (make_index_tuple idx) = 0 →
      st.vertex_buffer_id < st.vertex_buffer.data.length)
    (hib : st.index_buffer_id < st.index_buffer.data.length)
    (h : fill_face_vertex attrib materials mesh f normal v st = Except.error e) :
    e = Fault.bad_subscript := by
  unfold fill_face_vertex at h
  simp only [bind, Except.bind, pure, Except.pure] at h
  cases hs : subscript mesh.indices (st.index_offset + v) with
  | error e1 =>
    rw [hs] at h
    cases h
    exact subscript_error _ _ _ hs
  | ok idx =>
  rw [hs] at h
  simp only at h
  by_cases hc : st.index_map.count (make_index_tuple idx) = 0
  · have hlt := hvb idx hs hc
    simp only [hc, if_true, item_total _ _ hlt] at h
    cases hmid : subscript mesh.material_ids f with
    | error e1 =>
      rw [hmid] at h
      cases h
      exact subscript_error _ _ _ hmid
    | ok material_id =>
    rw [hmid] at h
    simp only at h
    cases hmat : subscript_int materials material_id with
    | error e1 =>
      rw [hmat] at h
      cases h
      exact subscript_int_error _ _ _ hmat
    | ok material =>
    rw [hmat] at h
    simp only at h
    cases hfvd : model.fill_vertex_data (st.vertex_buffer.data.get ⟨st.vertex_buffer_id, hlt⟩)
        attrib idx normal material with
    | error e1 =>
      rw [hfvd] at h
      cases h
      exact fill_vertex_data_error _ _ _ _ _ _ hfvd
    | ok vertex1 =>
    rw [hfvd] at h
    simp only [item_assign_total _ _ _ hlt] at h
    rw [item_assign_total _ _ _ hib] at h
    cases h
  · simp only [hc, if_false] at h
    rw [item_assign_total _ _ _ hib] at h
    cases h

end cg.world

/-! ## One face of pass 2 -/

namespace cg.world

open tinyobj

theorem length_first_seen_mono (mesh : mesh_t) (a b : Nat) (h : a ≤ b) :
    (first_seen (index_tuples mesh a)).length ≤ (first_seen (index_tuples mesh b)).length := by
  have e : index_tuples mesh b = index_tuples mesh a ++ (index_tuples mesh b).drop a := by
    rw [← index_tuples_take mesh b a h, List.take_append_drop]
  obtain ⟨r, hr⟩ := first_seen_append (index_tuples mesh a) ((index_tuples mesh b).drop a)
  rw [e, hr, List.length_append]
  omega

theorem face_normal_total {F : Type} (L : Library F) (attrib : attrib_t F)
    (materials : List (material_t F)) (mesh : mesh_t) (f fv : Nat)
    (hval : mesh_valid attrib materials mesh) (hf : mesh.num_face_vertices[f]? = some fv) :
    ∃ normal, face_normal L attrib mesh (face_offset mesh f) = Except.ok normal := by
  obtain ⟨⟨_, hlen, _, _, hthree, hidx⟩, hpos, _, hmax⟩ := hval
  have hfv : 1 ≤ fv := hpos fv (List.getElem?_mem hf)
  have hcount := face_position_lt_count mesh f fv 0 hf (by omega)
  have hlt : face_offset mesh f < mesh.indices.length := by omega
  unfold face_normal
  simp only [bind, Except.bind, pure, Except.pure, subscript_total _ _ hlt]
  by_cases hneg : (mesh.indices.get ⟨face_offset mesh f, hlt⟩).normal_index < 0
  · rw [if_pos hneg]
    have hfn : first_normal_negative mesh f := by
      unfold first_normal_negative
      rw [List.getElem?_eq_getElem hlt]
      exact hneg
    have h3 := hthree f (List.getElem?_eq_some_iff.mp hf).1 hfn
    have hget : mesh.num_face_vertices.getD f 0 = fv := by
      rw [List.getD_eq_getElem?_getD, hf]
      rfl
    rw [hget] at h3
    have hcount2 := face_position_lt_count mesh f fv 2 hf (by omega)
    exact compute_normal_total L attrib mesh _ (by omega)
      (fun idx hmem => ⟨(hidx idx hmem).1.1, (hidx idx hmem).1.2, (hmax idx hmem).1⟩)
  · rw [if_neg hneg]
    exact ⟨_, rfl⟩

theorem fill_face_ok_or {F : Type} [Zero F] (L : Library F) (attrib : attrib_t F)
    (materials : List (material_t F)) (mesh : mesh_t) (f : Nat) (st : fill_state F)
    (hval : mesh_valid attrib materials mesh) (hf : f < mesh.num_face_vertices.length)
    (hoff : st.index_offset = face_offset mesh f) :
    (∃ st1, fill_face L attrib materials mesh f st = Except.ok st1 ∧
      st1.index_offset = face_offset mesh (f + 1)) ∨
    fill_face L attrib materials mesh f st = Except.error Fault.out_of_range := by
  have hfv : mesh.num_face_vertices[f]? = some (mesh.num_face_vertices.get ⟨f, hf⟩) :=
    List.getElem?_eq_getElem hf
  obtain ⟨normal, hnormal⟩ := face_normal_total L attrib materials mesh f _ hval hfv
  obtain ⟨⟨_, hlen, hmids, hmat, _, hidx⟩, _, hmatmax, hmax⟩ := hval
  have hmlt : f < mesh.material_ids.length := by omega
  have hloop := for_range_ok_or (fill_face_vertex attrib materials mesh f normal)
    (fun _ s => s.index_offset = face_offset mesh f) Fault.out_of_range
    (mesh.num_face_vertices.get ⟨f, hf⟩) 0 st hoff
    (fun i s _ hi hp => by
      have hcount := face_position_lt_count mesh f _ i hfv (by omega)
      have hlt : s.index_offset + i < mesh.indices.length := by rw [hp]; omega
      have hmem := List.get_mem mesh.indices (s.index_offset + i) hlt
      have hmm := List.get_mem mesh.material_ids f hmlt
      rcases fill_face_vertex_ok_or attrib materials mesh f normal i s _ _
        (subscript_total _ _ hlt) (hidx _ hmem).1 (hidx _ hmem).2.1 (hidx _ hmem).2.2
        (hmax _ hmem) (subscript_total _ _ hmlt)
        ⟨(hmat _ hmm).1, (hmat _ hmm).2, hmatmax _ hmm⟩ with ⟨s1, h1, h2⟩ | h1
      · exact Or.inl ⟨s1, h1, h2.trans hp⟩
      · exact Or.inr h1)
  unfold fill_face
  simp only [bind, Except.bind, pure, Except.pure, subscript_total _ _ hf, hoff, hnormal]
  rcases hloop with ⟨st1, h1, h2⟩ | h1
  · refine Or.inl ⟨_, by rw [h1], ?_⟩
    rw [face_offset_succ mesh f _ hfv]
    simp only [h2]
  · exact Or.inr (by rw [h1])

theorem fill_face_error {F : Type} [Zero F] (L : Library F) (attrib : attrib_t F)
    (materials : List (material_t F)) (mesh : mesh_t) (vcount icount : Nat)
    (hvc : vcount < 2 ^ 32) (hic : icount < 2 ^ 32)
    (hvx : vcount = (first_seen (index_tuples mesh (face_vertex_count mesh))).length)
    (hix : icount = face_vertex_count mesh) (f : Nat) (st : fill_state F) (e : Fault)
    (hoff : st.index_offset = face_offset mesh f)
    (hinv : fill_inv L attrib materials mesh vcount icount (face_offset mesh f) st)
    (h : fill_face L attrib materials mesh f st = Except.error e) :
    e = Fault.bad_subscript := by
  unfold fill_face at h
  simp only [bind, Except.bind, pure, Except.pure] at h
  cases hfv : subscript mesh.num_face_vertices f with
  | error e1 =>
    rw [hfv] at h
    cases h
    exact subscript_error _ _ _ hfv
  | ok fv =>
  rw [hfv] at h; simp only at h
  rw [hoff] at h
  cases hnormal : face_normal L attrib mesh (face_offset mesh f) with
  | error e1 =>
    rw [hnormal] at h
    cases h
    exact face_normal_error _ _ _ _ _ hnormal
  | ok normal =>
  rw [hnormal] at h; simp only at h
  have hf : mesh.num_face_vertices[f]? = some fv := (subscript_ok_iff _ _ _).mp hfv
  cases hl : for_range (fill_face_vertex attrib materials mesh f normal) fv 0 st with
  | ok st2 => rw [hl] at h; cases h
  | error e1 =>
  rw [hl] at h
  cases h
  obtain ⟨i, s, _, hi, hp, hb⟩ := for_range_error_inv
    (fill_face_vertex attrib materials mesh f normal)
    (fun i s => fill_inv L attrib materials mesh vcount icount (face_offset mesh f + i) s ∧
      s.index_offset = face_offset mesh f)
    fv 0 st e hl ⟨by simpa using hinv, hoff⟩
    (fun i s s1 _ hi hp hb => by
      have hstep := fill_face_vertex_inv L attrib materials mesh vcount icount hvc hic f fv i
        (face_offset mesh f + i) normal s s1 hf (by omega) hp.2 rfl hnormal hp.1 hb
      exact ⟨hstep.1, by rw [hstep.2, hp.2]⟩)
  have hcount := face_position_lt_count mesh f fv i hf (by omega)
  refine fill_face_vertex_error attrib materials mesh f normal i s e ?_ ?_ hb
  · intro idx hs hc
    rw [hp.2] at hs
    have hidx : mesh.indices[face_offset mesh f + i]? = some idx :=
      (subscript_ok_iff _ _ _).mp hs
    have hnone := (count_eq_zero_iff _ _).mp hc
    rw [hp.1.map] at hnone
    have hnot : make_index_tuple idx ∉ first_seen (index_tuples mesh (face_offset mesh f + i)) := by
      intro hm; rw [if_pos hm] at hnone; cases hnone
    have hfs := first_seen_concat (index_tuples mesh (face_offset mesh f + i))
      (make_index_tuple idx)
    rw [← index_tuples_succ mesh _ idx hidx, if_neg hnot] at hfs
    have hmono := length_first_seen_mono mesh (face_offset mesh f + i + 1)
      (face_vertex_count mesh) (by omega)
    rw [hfs, List.length_append, List.length_singleton] at hmono
    rw [hp.1.vbid, hp.1.vb_len, hvx]
    omega
  · rw [hp.1.ibid, hp.1.ib_len, hix]
    exact hcount

end cg.world

/-! ## One shape of pass 2 -/

namespace cg.world

open tinyobj

theorem fill_shape_ok_or {F : Type} [Zero F] (L : Library F) (attrib : attrib_t F)
    (materials : List (material_t F)) (mesh : mesh_t)
    (vertex_buffer : resource (vertex F)) (index_buffer : resource Nat)
    (hval : mesh_valid attrib materials mesh) :
    (∃ st, fill_shape L attrib materials mesh vertex_buffer index_buffer = Except.ok st) ∨
    fill_shape L attrib materials mesh vertex_buffer index_buffer =
      Except.error Fault.out_of_range := by
  unfold fill_shape
  rcases for_range_ok_or (fill_face L attrib materials mesh)
    (fun f s => s.index_offset = face_offset mesh f) Fault.out_of_range
    mesh.num_face_vertices.length 0
    { index_offset := 0, vertex_buffer_id := 0, index_buffer_id := 0,
      vertex_buffer := vertex_buffer, index_buffer := index_buffer, index_map := [] }
    (face_offset_zero mesh).symm
    (fun f s _ hf hp =>
      fill_face_ok_or L attrib materials mesh f s hval (by omega) hp) with ⟨st, h, _⟩ | h
  · exact Or.inl ⟨st, h⟩
  · exact Or.inr h

theorem fill_shape_error {F : Type} [Zero F] (L : Library F) (attrib : attrib_t F)
    (materials : List (material_t F)) (mesh : mesh_t)
    (vertex_buffer : resource (vertex F)) (index_buffer : resource Nat)
    (hic : face_vertex_count mesh < 2 ^ 32)
    (hle : face_vertex_count mesh ≤ mesh.indices.length)
    (hvx : vertex_buffer.data.length =
      (first_seen (index_tuples mesh (face_vertex_count mesh))).length)
    (hix : index_buffer.data.length = face_vertex_count mesh) (e : Fault)
    (h : fill_shape L attrib materials mesh vertex_buffer index_buffer = Except.error e) :
    e = Fault.bad_subscript := by
  have hvc : vertex_buffer.data.length < 2 ^ 32 := by
    have h1 := length_first_seen_le (index_tuples mesh (face_vertex_count mesh))
    rw [length_index_tuples mesh _ hle] at h1
    omega
  unfold fill_shape at h
  obtain ⟨f, s, _, _, hp, hb⟩ := for_range_error_inv (fill_face L attrib materials mesh)
    (fun f s => fill_inv L attrib materials mesh vertex_buffer.data.length
      index_buffer.data.length (face_offset mesh f) s ∧ s.index_offset = face_offset mesh f)
    mesh.num_face_vertices.length 0 _ e h
    ⟨by rw [face_offset_zero]; exact fill_inv_init L attrib materials mesh _ _,
      by rw [face_offset_zero]⟩
    (fun f s s1 _ _ hp hb =>
      fill_face_inv L attrib materials mesh _ _ hvc (by omega) f s s1 hp.2 hp.1 hb)
  exact fill_face_error L attrib materials mesh _ _ hvc (by omega) hvx hix f s e hp.2 hp.1 hb

theorem resolve_texture_total {F : Type} (L : Library F) (attrib : attrib_t F)
    (materials : List (material_t F)) (base_folder : String) (mesh : mesh_t)
    (hval : mesh_valid attrib materials mesh) :
    ∃ path, resolve_texture L materials base_folder mesh = Except.ok path := by
  obtain ⟨⟨hne, _, hmids, hmat, _, _⟩, _, hmatmax, _⟩ := hval
  have hpos : 0 < mesh.num_face_vertices.length := List.length_pos.mpr hne
  have hmlt : 0 < mesh.material_ids.length := by omega
  have hmm := List.get_mem mesh.material_ids 0 hmlt
  obtain ⟨material, hm⟩ := subscript_int_total materials _ (hmat _ hmm).1 (hmatmax _ hmm)
    (hmat _ hmm).2
  unfold resolve_texture
  simp only [bind, Except.bind, pure, Except.pure, subscript_total _ _ hmlt, hm]
  split <;> exact ⟨_, rfl⟩

theorem allocated_sizes (mesh : mesh_t) (ast : allocate_state)
    (h : allocate_shape mesh = Except.ok ast) (hic : face_vertex_count mesh < 2 ^ 32) :
    face_vertex_count mesh ≤ mesh.indices.length ∧
    ast.index_buffer_size = face_vertex_count mesh ∧
    ast.vertex_buffer_size =
      (first_seen (index_tuples mesh (face_vertex_count mesh))).length := by
  have hinv := allocate_shape_inv mesh ast h
  have h1 := length_first_seen_le (index_tuples mesh (face_vertex_count mesh))
  rw [length_index_tuples mesh _ hinv.le] at h1
  exact ⟨hinv.le, by rw [hinv.ibs, u32_of_lt hic], by rw [hinv.vbs, u32_of_lt (by omega)]⟩

end cg.world

/-! ## The shape loop of pass 2 -/

namespace cg.world

open tinyobj

theorem assign_texture_total (textures : List String) (s : Nat) (path : Option String)
    (h : s < textures.length) :
    ∃ t, assign_texture textures s path = Except.ok t ∧ t.length = textures.length := by
  unfold assign_texture
  cases path with
  | none => exact ⟨textures, rfl, rfl⟩
  | some p =>
    simp only [subscript_total _ _ h]
    exact ⟨_, rfl, List.length_set _ _ _⟩

theorem fill_buffers_ok_or {F : Type} [Zero F] (L : Library F) (shapes : List shape_t)
    (attrib : attrib_t F) (materials : List (material_t F)) (base_folder : String)
    (m : model F) (hval : ∀ shape ∈ shapes, mesh_valid attrib materials shape.mesh)
    (hvb : m.vertex_buffers.length = shapes.length)
    (hib : m.index_buffers.length = shapes.length)
    (htex : m.textures.length = shapes.length) :
    (∃ m2, m.fill_buffers L shapes attrib materials base_folder = Except.ok m2) ∨
    m.fill_buffers L shapes attrib materials base_folder = Except.error Fault.out_of_range := by
  unfold model.fill_buffers
  rcases for_range_ok_or (fill_buffers_shape L shapes attrib materials base_folder)
    (fun _ m1 => m1.vertex_buffers.length = shapes.length ∧
      m1.index_buffers.length = shapes.length ∧ m1.textures.length = shapes.length)
    Fault.out_of_range shapes.length 0 m ⟨hvb, hib, htex⟩
    (fun s m1 _ hs hp => by
      have hslt : s < shapes.length := by omega
      have h1 : s < m1.vertex_buffers.length := by rw [hp.1]; exact hslt
      have h2 : s < m1.index_buffers.length := by rw [hp.2.1]; exact hslt
      have h3 : s < m1.textures.length := by rw [hp.2.2]; exact hslt
      have hv := hval _ (List.get_mem shapes s hslt)
      obtain ⟨path, hpath⟩ := resolve_texture_total L attrib materials base_folder _ hv
      obtain ⟨t, ht, htl⟩ := assign_texture_total m1.textures s path h3
      unfold fill_buffers_shape
      simp only [bind, Except.bind, pure, Except.pure, subscript_total _ _ h1,
        subscript_total _ _ h2, subscript_total _ _ hslt]
      rcases fill_shape_ok_or L attrib materials (shapes.get ⟨s, hslt⟩).mesh
        (m1.vertex_buffers.get ⟨s, h1⟩) (m1.index_buffers.get ⟨s, h2⟩) hv with ⟨st, hst⟩ | hst
      · simp only [hst, hpath, ht]
        refine Or.inl ⟨_, rfl, ?_, ?_, ?_⟩
        · simp only [List.length_set]; exact hp.1
        · simp only [List.length_set]; exact hp.2.1
        · rw [htl]; exact hp.2.2
      · simp only [hst]
        exact Or.inr trivial) with ⟨m2, h, _⟩ | h
  · exact Or.inl ⟨m2, h⟩
  · exact Or.inr h

theorem fill_buffers_error {F : Type} [Zero F] (L : Library F) (shapes : List shape_t)
    (attrib : attrib_t F) (materials : List (material_t F)) (base_folder : String)
    (m1 : model F) (e : Fault)
    (ha : (model.empty : model F).allocate_buffers shapes = Except.ok m1)
    (hcount : ∀ shape ∈ shapes, face_vertex_count shape.mesh < 2 ^ 32)
    (h : m1.fill_buffers L shapes attrib materials base_folder = Except.error e) :
    e = Fault.bad_subscript := by
  obtain ⟨_, _, _, a4⟩ := allocate_buffers_spec shapes m1 ha
  unfold model.fill_buffers at h
  obtain ⟨s, m0, _, _, hp, hb⟩ := for_range_error_inv
    (fill_buffers_shape L shapes attrib materials base_folder)
    (fun s m0 => fill_buffers_inv L shapes attrib materials base_folder m1 s m0)
    shapes.length 0 m1 e h
    ⟨rfl, rfl, rfl, fun _ _ => rfl, fun _ _ => rfl, fun _ _ => rfl,
      fun i hi => absurd hi (Nat.not_lt_zero i)⟩
    (fun s m0 m2 _ _ hp hb =>
      fill_buffers_shape_inv L shapes attrib materials base_folder m1 s m0 m2 hp hb)
  unfold fill_buffers_shape at hb
  simp only [bind, Except.bind, pure, Except.pure] at hb
  cases hvb : subscript m0.vertex_buffers s with
  | error e1 => rw [hvb] at hb; cases hb; exact subscript_error _ _ _ hvb
  | ok vertex_buffer =>
  rw [hvb] at hb; simp only at hb
  cases hib : subscript m0.index_buffers s with
  | error e1 => rw [hib] at hb; cases hb; exact subscript_error _ _ _ hib
  | ok index_buffer =>
  rw [hib] at hb; simp only at hb
  cases hsh : subscript shapes s with
  | error e1 => rw [hsh] at hb; cases hb; exact subscript_error _ _ _ hsh
  | ok shape =>
  rw [hsh] at hb; simp only at hb
  have hs : shapes[s]? = some shape := (subscript_ok_iff _ _ _).mp hsh
  obtain ⟨ast, b1, b2, b3⟩ := a4 s shape hs
  have hc := hcount shape (List.getElem?_mem hs)
  obtain ⟨c1, c2, c3⟩ := allocated_sizes shape.mesh ast b1 hc
  have e2 : m0.vertex_buffers[s]? = some vertex_buffer := (subscript_ok_iff _ _ _).mp hvb
  have e3 : m0.index_buffers[s]? = some index_buffer := (subscript_ok_iff _ _ _).mp hib
  rw [hp.vb_rest s (Nat.le_refl s), b2] at e2
  rw [hp.ib_rest s (Nat.le_refl s), b3] at e3
  have e4 := Option.some.inj e2
  have e5 := Option.some.inj e3
  subst e4 e5
  cases hst : fill_shape L attrib materials shape.mesh
      (resource.mk1 sizeof_vertex ast.vertex_buffer_size)
      (resource.mk1 sizeof_unsigned_int ast.index_buffer_size) with
  | error e1 =>
    rw [hst] at hb; cases hb
    exact fill_shape_error L attrib materials shape.mesh _ _ hc c1
      (by rw [length_mk1, c3]) (by rw [length_mk1, c2]) e hst
  | ok st =>
  rw [hst] at hb; simp only at hb
  cases hpath : resolve_texture L materials base_folder shape.mesh with
  | error e1 => rw [hpath] at hb; cases hb; exact resolve_texture_error _ _ _ _ _ hpath
  | ok path =>
  rw [hpath] at hb; simp only at hb
  cases ht : assign_texture m0.textures s path with
  | error e1 => rw [ht] at hb; cases hb; exact assign_texture_error _ _ _ _ ht
  | ok t => rw [ht] at hb; cases hb

theorem load_total {F : Type} [Zero F] (L : Library F) (shapes : List shape_t)
    (attrib : attrib_t F) (materials : List (material_t F)) (base_folder : String)
    (hval : ∀ shape ∈ shapes, fault_free_conditions attrib materials shape.mesh) :
    ∃ m1 m2, (model.empty : model F).allocate_buffers shapes = Except.ok m1 ∧
      m1.fill_buffers L shapes attrib materials base_folder = Except.ok m2 := by
  obtain ⟨m1, ha⟩ := allocate_buffers_total shapes
    (fun shape hm => (hval shape hm).1.1.2.1) (model.empty : model F)
  obtain ⟨a1, a2, a3, _⟩ := allocate_buffers_spec shapes m1 ha
  rcases fill_buffers_ok_or L shapes attrib materials base_folder m1
    (fun shape hm => (hval shape hm).1) a1 a2 (by rw [a3, List.length_replicate]) with
    ⟨m2, hf⟩ | hf
  · exact ⟨m1, m2, ha, hf⟩
  · have hbad := fill_buffers_error L shapes attrib materials base_folder m1 _ ha
      (fun shape hm => (hval shape hm).2) hf
    cases hbad

end cg.world

/-! ## The two passes on one shape -/

namespace cg.world

open tinyobj

theorem first_occurrence_unique (mesh : mesh_t) (p q : Nat) (idx idx2 : index_t)
    (hp : mesh.indices[p]? = some idx) (hq : mesh.indices[q]? = some idx2)
    (hkey : make_index_tuple idx2 = make_index_tuple idx)
    (hfp : make_index_tuple idx ∉ index_tuples mesh p)
    (hfq : make_index_tuple idx2 ∉ index_tuples mesh q) : q = p := by
  rcases Nat.lt_trichotomy p q with h | h | h
  · exact absurd (hkey ▸ mem_index_tuples_of_lt mesh q p idx h hp) hfq
  · exact h.symm
  · exact absurd (hkey ▸ mem_index_tuples_of_lt mesh p q idx2 h hq) hfp

theorem passes_agree {F : Type} [Zero F] (L : Library F) (attrib : attrib_t F)
    (materials : List (material_t F)) (mesh : mesh_t) (ast : allocate_state)
    (st : fill_state F) (hic : face_vertex_count mesh < 2 ^ 32)
    (hast : allocate_shape mesh = Except.ok ast)
    (hst : fill_shape L attrib materials mesh
      (resource.mk1 sizeof_vertex ast.vertex_buffer_size)
      (resource.mk1 sizeof_unsigned_int ast.index_buffer_size) = Except.ok st) :
    (∀ key, st.index_map.lookup key = ast.index_map.lookup key) ∧
    st.vertex_buffer_id = st.vertex_buffer.get_number_of_elements ∧
    st.vertex_buffer.get_number_of_elements = ast.vertex_buffer_size ∧
    st.index_buffer_id = st.index_buffer.get_number_of_elements ∧
    st.index_buffer.get_number_of_elements = ast.index_buffer_size ∧
    ast.index_buffer_size = face_vertex_count mesh ∧
    (∀ slot, slot < st.vertex_buffer.get_number_of_elements →
      ∃ p idx, (p < face_vertex_count mesh ∧ mesh.indices[p]? = some idx ∧
        make_index_tuple idx ∉ index_tuples mesh p ∧
        st.index_map.lookup (make_index_tuple idx) = some slot) ∧
        ∀ q idx2, q < face_vertex_count mesh → mesh.indices[q]? = some idx2 →
          make_index_tuple idx2 ∉ index_tuples mesh q →
          st.index_map.lookup (make_index_tuple idx2) = some slot → q = p) ∧
    (∀ p, p < st.index_buffer.get_number_of_elements →
      ∃ idx slot, mesh.indices[p]? = some idx ∧
        st.index_map.lookup (make_index_tuple idx) = some slot ∧
        st.index_buffer.item p = Except.ok slot ∧
        slot < st.vertex_buffer.get_number_of_elements) := by
  have ainv := allocate_shape_inv mesh ast hast
  obtain ⟨hle, hibs, hvbs⟩ := allocated_sizes mesh ast hast hic
  have hfl := length_first_seen_le (index_tuples mesh (face_vertex_count mesh))
  rw [length_index_tuples mesh _ hle] at hfl
  have finv := fill_shape_inv L attrib materials mesh _ _
    (by rw [length_mk1, hvbs]; omega) (by rw [length_mk1, hibs]; exact hic) st hst
  rw [length_mk1, length_mk1] at finv
  have hvn : st.vertex_buffer.get_number_of_elements =
      (first_seen (index_tuples mesh (face_vertex_count mesh))).length := by
    unfold resource.get_number_of_elements
    rw [finv.vb_len, hvbs]
  have hin : st.index_buffer.get_number_of_elements = face_vertex_count mesh := by
    unfold resource.get_number_of_elements
    rw [finv.ib_len, hibs]
  have hmap : ∀ idx p, mesh.indices[p]? = some idx → p < face_vertex_count mesh →
      st.index_map.lookup (make_index_tuple idx) = some
        ((first_seen (index_tuples mesh (face_vertex_count mesh))).indexOf
          (make_index_tuple idx)) ∧
      (first_seen (index_tuples mesh (face_vertex_count mesh))).indexOf (make_index_tuple idx)
        < (first_seen (index_tuples mesh (face_vertex_count mesh))).length := by
    intro idx p hidx hp
    have hmem := (mem_first_seen _ _).mpr (mem_index_tuples_of_lt mesh _ p idx hp hidx)
    exact ⟨by rw [finv.map, if_pos hmem], List.indexOf_lt_length.mpr hmem⟩
  refine ⟨?_, by rw [hvn, finv.vbid], by rw [hvn, hvbs], by rw [hin, finv.ibid],
    by rw [hin, hibs], hibs, ?_, ?_⟩
  · intro key
    rw [finv.map, ainv.map]
    by_cases hmem : key ∈ first_seen (index_tuples mesh (face_vertex_count mesh))
    · rw [if_pos hmem, if_pos hmem, u32_of_lt]
      have := List.indexOf_lt_length.mpr hmem
      omega
    · rw [if_neg hmem, if_neg hmem]
  · intro slot hslot
    rw [hvn] at hslot
    have hmem : (first_seen (index_tuples mesh (face_vertex_count mesh))).get ⟨slot, hslot⟩
        ∈ index_tuples mesh (face_vertex_count mesh) :=
      (mem_first_seen _ _).mp (List.get_mem _ _ _)
    unfold index_tuples at hmem
    obtain ⟨idx, hm1, he⟩ := List.mem_map.mp hmem
    obtain ⟨q, hq⟩ := List.getElem?_of_mem hm1
    have hqlt : q < face_vertex_count mesh := by
      have h1 := (List.getElem?_eq_some_iff.mp hq).1
      simp only [List.length_take] at h1
      omega
    rw [List.getElem?_take_of_lt hqlt] at hq
    obtain ⟨p0, hp0, hidx0, hfirst⟩ := first_occurrence_exists mesh q idx hq
    have hslot0 : (first_seen (index_tuples mesh (face_vertex_count mesh))).indexOf
        (make_index_tuple idx) = slot := by
      rw [he]
      exact List.get_indexOf (nodup_first_seen _) ⟨slot, hslot⟩
    refine ⟨p0, idx, ⟨by omega, hidx0, hfirst, ?_⟩, ?_⟩
    · rw [(hmap idx p0 hidx0 (by omega)).1, hslot0]
    · intro q2 idx2 hq2 hidx2 hfirst2 hl2
      rw [(hmap idx2 q2 hidx2 hq2).1, ← hslot0] at hl2
      have hkey : make_index_tuple idx2 = make_index_tuple idx :=
        (List.indexOf_inj
          ((mem_first_seen _ _).mpr (mem_index_tuples_of_lt mesh _ q2 idx2 hq2 hidx2))
          ((mem_first_seen _ _).mpr (mem_index_tuples_of_lt mesh _ p0 idx (by omega)
            hidx0))).mp (Option.some.inj hl2)
      exact first_occurrence_unique mesh p0 q2 idx idx2 hidx0 hidx2 hkey hfirst hfirst2
  · intro p hp
    rw [hin] at hp
    have hpl : p < mesh.indices.length := by omega
    have hidx : mesh.indices[p]? = some (mesh.indices.get ⟨p, hpl⟩) :=
      List.getElem?_eq_getElem hpl
    obtain ⟨h1, h2⟩ := hmap _ p hidx hp
    exact ⟨_, _, hidx, h1, (item_ok_iff _ _ _).mpr (finv.ib p _ hp hidx), by rw [hvn]; exact h2⟩

end cg.world

namespace cg.world

open tinyobj

theorem mesh_valid_triangles (n : Nat) (hn : 0 < n) :
    mesh_valid sample.attrib sample.materials (sample.triangles n).mesh := by
  have hidx : ∀ idx ∈ (sample.triangles n).mesh.indices, idx = ⟨0, -1, -1⟩ := by
    intro idx hm
    exact List.eq_of_mem_replicate hm
  have hfv : ∀ fv ∈ (sample.triangles n).mesh.num_face_vertices, fv = 3 := by
    intro fv hm
    exact List.eq_of_mem_replicate hm
  have hid : ∀ id ∈ (sample.triangles n).mesh.material_ids, id = 0 := by
    intro id hm
    exact List.eq_of_mem_replicate hm
  refine ⟨⟨?_, ?_, ?_, ?_, ?_, ?_⟩, ?_, ⟨?_, ?_⟩⟩
  · intro h
    have hl := congrArg List.length h
    simp [sample.triangles] at hl
    omega
  · rw [face_vertex_count_triangles, length_indices_triangles]
  · simp [sample.triangles]
  · intro id hm
    rw [hid id hm]
    decide
  · intro f hf _
    have hlt : f < n := by simpa [sample.triangles] using hf
    simp [sample.triangles, List.getD_eq_getElem?_getD, List.getElem?_replicate, hlt]
  · intro idx hm
    rw [hidx idx hm]
    decide
  · intro fv hm
    rw [hfv fv hm]
    decide
  · intro id hm
    rw [hid id hm]
    decide
  · intro idx hm
    rw [hidx idx hm]
    decide

end cg.world

/-! ## A single triangle -/

namespace cg.world

open tinyobj

theorem eq_singleton_of_getElem {α : Type} (l : List α) (x : α) (hlen : l.length = 1)
    (h0 : l[0]? = some x) : l = [x] := by
  match l, hlen, h0 with
  | [y], _, h0 =>
    simp only [List.getElem?_cons_zero, Option.some.injEq] at h0
    rw [h0]

theorem eq_triple_of_getElem {α : Type} (l : List α) (x y z : α) (hlen : l.length = 3)
    (h0 : l[0]? = some x) (h1 : l[1]? = some y) (h2 : l[2]? = some z) : l = [x, y, z] := by
  match l, hlen, h0, h1, h2 with
  | [a, b, c], _, h0, h1, h2 =>
    simp only [List.getElem?_cons_zero, List.getElem?_cons_succ, Option.some.injEq]
      at h0 h1 h2
    rw [h0, h1, h2]

theorem first_seen_three (k0 k1 k2 : index_tuple) (h01 : k0 ≠ k1) (h02 : k0 ≠ k2)
    (h12 : k1 ≠ k2) :
    first_seen [k0, k1, k2] = [k0, k1, k2] ∧
    [k0, k1, k2].indexOf k0 = 0 ∧ [k0, k1, k2].indexOf k1 = 1 ∧
    [k0, k1, k2].indexOf k2 = 2 := by
  refine ⟨?_, ?_, ?_, ?_⟩
  · simp [first_seen, h01, h02, h12, Ne.symm h01, Ne.symm h02, Ne.symm h12]
  all_goals
    simp [List.indexOf_cons, h01, h02, h12, Ne.symm h01, Ne.symm h02, Ne.symm h12]

theorem single_triangle_valid {F : Type} (attrib : attrib_t F) (material : material_t F)
    (name : String) (i0 i1 i2 : index_t)
    (hr : ∀ idx ∈ [i0, i1, i2], indices_in_range attrib idx) :
    ∀ shape ∈ [single_triangle name i0 i1 i2],
      fault_free_conditions attrib [material] shape.mesh := by
  intro shape hm
  rw [List.mem_singleton.mp hm]
  refine ⟨⟨⟨?_, ?_, ?_, ?_, ?_, ?_⟩, ?_, ⟨?_, ?_⟩⟩, ?_⟩
  · simp [single_triangle]
  · simp [single_triangle, face_vertex_count]
  · simp [single_triangle]
  · intro id hid
    simp only [single_triangle, List.mem_singleton] at hid
    rw [hid]
    simp
  · intro f hf _
    simp only [single_triangle, List.length_singleton, Nat.lt_one_iff] at hf
    rw [hf]
    simp [single_triangle]
  · intro idx hidx
    obtain ⟨⟨a1, a2, _⟩, ⟨_, b2, _⟩, ⟨_, c2, _⟩⟩ := hr idx hidx
    exact ⟨⟨a1, a2⟩, fun _ => b2, fun _ => c2⟩
  · intro fv hfv
    simp only [single_triangle, List.mem_singleton] at hfv
    omega
  · intro id hid
    simp only [single_triangle, List.mem_singleton] at hid
    rw [hid]
    decide
  · intro idx hidx
    obtain ⟨⟨_, _, a3⟩, ⟨_, _, b3⟩, ⟨_, _, c3⟩⟩ := hr idx hidx
    exact ⟨a3, b3, c3⟩
  · simp [single_triangle, face_vertex_count]

end cg.world

/-! ## Colours with infinities and NaN -/

namespace cg

theorem to_uint8_clamp_finite (q : ℚ) :
    (float_value.clamp (float_value.finite q).mul_255 (float_value.finite 0)
      (float_value.finite 255)).to_uint8
      = Except.ok (static_cast_uint8 (clamp (q * 255) 0 255)) := by
  obtain ⟨h0, h1⟩ := clamp_bounds q
  have e : float_value.clamp (float_value.finite q).mul_255 (float_value.finite 0)
      (float_value.finite 255) = float_value.finite (clamp (q * 255) 0 255) := by
    unfold float_value.clamp float_value.mul_255 float_value.lt clamp
    by_cases a1 : q * 255 < 0
    · simp [a1]
    · by_cases a2 : (255 : ℚ) < q * 255
      · simp [a1, a2]
      · simp [a1, a2]
  rw [e]
  simp only [float_value.to_uint8]
  rw [if_pos ⟨by linarith, by linarith⟩]
  rfl

theorem ieee_channel (v : float_value) (h : v ≠ float_value.nan) :
    ∃ n, (float_value.clamp v.mul_255 (float_value.finite 0)
        (float_value.finite 255)).to_uint8 = Except.ok n ∧
      n ≤ 255 ∧
      (∀ q, v = float_value.finite q →
        n = (trunc (min (max (255 * q) 0) 255)).toNat ∧
        (1 ≤ q → n = 255) ∧ (q ≤ 0 → n = 0)) ∧
      (v = float_value.pos_inf → n = 255) ∧
      (v = float_value.neg_inf → n = 0) := by
  cases v with
  | finite q =>
    refine ⟨_, to_uint8_clamp_finite q, channel_le_255 q, ?_, ?_, ?_⟩
    · intro q1 hq
      have e : q = q1 := float_value.finite.inj hq
      subst e
      refine ⟨?_, channel_of_one_le q, channel_of_nonpos q⟩
      rw [clamp_eq_min_max]
      rfl
    · intro hc; cases hc
    · intro hc; cases hc
  | pos_inf =>
    refine ⟨255, ?_, le_refl _, ?_, fun _ => rfl, ?_⟩
    · have e : float_value.clamp float_value.pos_inf.mul_255 (float_value.finite 0)
          (float_value.finite 255) = float_value.finite 255 := rfl
      rw [e]
      simp only [float_value.to_uint8]
      rw [if_pos ⟨by norm_num, by norm_num⟩]
      have hf : ⌊(255 : ℚ)⌋ = 255 := by exact_mod_cast Int.floor_intCast (255 : Int)
      unfold trunc
      rw [if_pos (by norm_num), hf]
      rfl
    · intro q hq; cases hq
    · intro hc; cases hc
  | neg_inf =>
    refine ⟨0, ?_, Nat.zero_le _, ?_, ?_, fun _ => rfl⟩
    · have e : float_value.clamp float_value.neg_inf.mul_255 (float_value.finite 0)
          (float_value.finite 255) = float_value.finite 0 := rfl
      rw [e]
      simp only [float_value.to_uint8]
      rw [if_pos ⟨by norm_num, by norm_num⟩]
      unfold trunc
      simp
    · intro q hq; cases hq
    · intro hc; cases hc
  | nan => exact absurd rfl h

theorem ieee_nan_channel :
    (float_value.clamp float_value.nan.mul_255 (float_value.finite 0)
      (float_value.finite 255)).to_uint8 = Except.error Fault.bad_conversion := by
  simp [float_value.clamp, float_value.mul_255, float_value.lt, float_value.to_uint8]

end cg

/-! ## Properties of the specification -/

open cg cg.world tinyobj

/-- C1 (as amended): for every list of shapes whose meshes hold at least
`sum(num_face_vertices)` indices, `allocate_buffers` on an empty model returns,
and for every shape the index buffer's element count is the sum of the shape's
face sizes reduced modulo `2 ^ 32`, and the vertex buffer's element count is the
number of distinct index triples among the shape's face-vertices reduced modulo
`2 ^ 32`; both are the plain numbers whenever the shape has fewer than `2 ^ 32`
face-vertices. -/
theorem allocate_buffers_buffer_sizes {F : Type} [Zero F] (shapes : List shape_t)
    (hlen : ∀ shape ∈ shapes, face_vertex_count shape.mesh ≤ shape.mesh.indices.length) :
    ∃ m1 : model F, (model.empty : model F).allocate_buffers shapes = Except.ok m1 ∧
      ∀ (s : Nat) (shape : shape_t), shapes[s]? = some shape →
        ∃ vertex_buffer index_buffer,
          m1.vertex_buffers[s]? = some vertex_buffer ∧
          m1.index_buffers[s]? = some index_buffer ∧
          index_buffer.get_number_of_elements = face_vertex_count shape.mesh % 2 ^ 32 ∧
          vertex_buffer.get_number_of_elements = distinct_tuple_count shape.mesh % 2 ^ 32 ∧
          (face_vertex_count shape.mesh < 2 ^ 32 →
            index_buffer.get_number_of_elements = face_vertex_count shape.mesh ∧
            vertex_buffer.get_number_of_elements = distinct_tuple_count shape.mesh) := by
  obtain ⟨m1, h⟩ := allocate_buffers_total shapes hlen (model.empty : model F)
  refine ⟨m1, h, ?_⟩
  intro s shape hs
  obtain ⟨vb, ib, h1, h2, h3, h4⟩ := allocate_sizes shapes m1 h s shape hs
  refine ⟨vb, ib, h1, h2, h3, h4, ?_⟩
  intro hlt
  have hd : distinct_tuple_count shape.mesh ≤ face_vertex_count shape.mesh := by
    unfold distinct_tuple_count
    refine Nat.le_trans (List.toFinset_card_le _) ?_
    simp
  rw [h3, h4, Nat.mod_eq_of_lt hlt, Nat.mod_eq_of_lt (by omega)]
  exact ⟨rfl, rfl⟩

/-- Witness for C1: the two sample shapes and the seam.  The first has 6
face-vertices with 4 distinct index triples, the second 3 face-vertices with 3
distinct index triples, the seam 6 face-vertices with 4 distinct index triples,
two of which differ in one index only; pass 1 gives them vertex buffers of 4, 3
and 4 and index buffers of 6, 3 and 6 elements. -/
theorem allocate_buffers_buffer_sizes_witness :
    (∀ shape ∈ sample.shapes_with_seam,
      face_vertex_count shape.mesh ≤ shape.mesh.indices.length) ∧
    (face_vertex_count sample.two_faces.mesh = 6 ∧
      distinct_tuple_count sample.two_faces.mesh = 4 ∧
      face_vertex_count sample.triangle.mesh = 3 ∧
      distinct_tuple_count sample.triangle.mesh = 3 ∧
      face_vertex_count sample.seam.mesh = 6 ∧
      distinct_tuple_count sample.seam.mesh = 4) ∧
    ∃ m1 : model Int,
      (model.empty : model Int).allocate_buffers sample.shapes_with_seam = Except.ok m1 ∧
      m1.vertex_buffers.map (fun r => r.get_number_of_elements) = [4, 3, 4] ∧
      m1.index_buffers.map (fun r => r.get_number_of_elements) = [6, 3, 6] ∧
      ∀ (s : Nat) (shape : shape_t), sample.shapes_with_seam[s]? = some shape →
        ∃ vertex_buffer index_buffer,
          m1.vertex_buffers[s]? = some vertex_buffer ∧
          m1.index_buffers[s]? = some index_buffer ∧
          index_buffer.get_number_of_elements = face_vertex_count shape.mesh % 2 ^ 32 ∧
          vertex_buffer.get_number_of_elements = distinct_tuple_count shape.mesh % 2 ^ 32 ∧
          (face_vertex_count shape.mesh < 2 ^ 32 →
            index_buffer.get_number_of_elements = face_vertex_count shape.mesh ∧
            vertex_buffer.get_number_of_elements = distinct_tuple_count shape.mesh) := by
  obtain ⟨m1, h, hall⟩ :=
    allocate_buffers_buffer_sizes (F := Int) sample.shapes_with_seam (by decide)
  have hd : (model.empty : model Int).allocate_buffers sample.shapes_with_seam
      = Except.ok (sample.allocated_of sample.shapes_with_seam) := by decide
  have e : m1 = sample.allocated_of sample.shapes_with_seam := Except.ok.inj (h.symm.trans hd)
  subst e
  exact ⟨by decide, ⟨by decide, by decide, by decide, by decide, by decide, by decide⟩, _, hd,
    by decide, by decide, hall⟩

/-- C1 as stated fails: a shape of 1431655766 triangles has 4294967298
face-vertices, all present in `mesh.indices`, and `allocate_buffers` gives it an
index buffer of 2 elements, because the counter `index_buffer_size` is an
`unsigned int`. -/
theorem allocate_buffers_buffer_sizes_counterexample :
    face_vertex_count (sample.triangles 1431655766).mesh
      ≤ (sample.triangles 1431655766).mesh.indices.length ∧
    ∃ (m1 : model Int) (index_buffer : resource Nat),
      (model.empty : model Int).allocate_buffers [sample.triangles 1431655766] = Except.ok m1 ∧
      m1.index_buffers[0]? = some index_buffer ∧
      index_buffer.get_number_of_elements = 2 ∧
      face_vertex_count (sample.triangles 1431655766).mesh = 4294967298 := by
  have hc := face_vertex_count_triangles 1431655766
  have hl := length_indices_triangles 1431655766
  have hle : face_vertex_count (sample.triangles 1431655766).mesh
      ≤ (sample.triangles 1431655766).mesh.indices.length := by rw [hc, hl]
  refine ⟨hle, ?_⟩
  obtain ⟨m1, h⟩ := allocate_buffers_total [sample.triangles 1431655766]
    (fun shape hm => by rw [List.mem_singleton.mp hm]; exact hle) (model.empty : model Int)
  obtain ⟨vb, ib, _, h2, h3, _⟩ := allocate_sizes [sample.triangles 1431655766] m1 h 0
    (sample.triangles 1431655766) rfl
  refine ⟨m1, ib, h, h2, ?_, ?_⟩
  · rw [h3, hc]
    norm_num
  · rw [hc]

/-- C2: when `allocate_buffers` on an empty model followed by `fill_buffers`
completes, every value stored in a shape's index buffer is strictly less than
the element count of the same shape's vertex buffer. -/
theorem index_buffer_values_valid {F : Type} [Zero F] (L : Library F) (shapes : List shape_t)
    (attrib : attrib_t F) (materials : List (material_t F)) (base_folder : String)
    (m1 m2 : model F)
    (ha : (model.empty : model F).allocate_buffers shapes = Except.ok m1)
    (hf : m1.fill_buffers L shapes attrib materials base_folder = Except.ok m2) :
    ∀ (s : Nat) (vertex_buffer : resource (vertex F)) (index_buffer : resource Nat),
      m2.vertex_buffers[s]? = some vertex_buffer → m2.index_buffers[s]? = some index_buffer →
      ∀ x ∈ index_buffer.get_data, x < vertex_buffer.get_number_of_elements := by
  intro s vb ib hvb hib x hx
  obtain ⟨l1, _, _, l4⟩ := load_spec L shapes attrib materials base_folder m1 m2 ha hf
  have hs : s < shapes.length := by
    rw [← l1]; exact (List.getElem?_eq_some_iff.mp hvb).1
  obtain ⟨vb1, ib1, tex, h1, h2, _, hl⟩ := l4 s (shapes.get ⟨s, hs⟩) (List.getElem?_eq_getElem hs)
  rw [hvb] at h1
  rw [hib] at h2
  have e1 : vb1 = vb := (Option.some.inj h1).symm
  have e2 : ib1 = ib := (Option.some.inj h2).symm
  subst e1 e2
  obtain ⟨p, hp⟩ := List.getElem?_of_mem hx
  have hplt : p < face_vertex_count (shapes.get ⟨s, hs⟩).mesh := by
    rw [← hl.ib_len]; exact (List.getElem?_eq_some_iff.mp hp).1
  have hpl : p < (shapes.get ⟨s, hs⟩).mesh.indices.length := Nat.lt_of_lt_of_le hplt hl.le
  have hidx := List.getElem?_eq_getElem hpl
  have hslot := hl.ib p _ hplt hidx
  have hlt := (loaded_slot L attrib materials base_folder _ _ _ _ hl p _ hplt hidx).2
  have e : ib1.get_data[p]? = ib1.data[p]? := rfl
  rw [e, hslot] at hp
  rw [← Option.some.inj hp]
  exact hlt

/-- Witness for C2: the load of the two sample shapes completes. -/
theorem index_buffer_values_valid_witness :
    (model.empty : model Int).allocate_buffers sample.shapes = Except.ok sample.allocated ∧
    sample.allocated.fill_buffers sample.library sample.shapes sample.attrib sample.materials
      "base" = Except.ok sample.filled ∧
    ∀ (s : Nat) (vertex_buffer : resource (vertex Int)) (index_buffer : resource Nat),
      sample.filled.vertex_buffers[s]? = some vertex_buffer →
      sample.filled.index_buffers[s]? = some index_buffer →
      ∀ x ∈ index_buffer.get_data, x < vertex_buffer.get_number_of_elements :=
  ⟨by decide, by decide,
    index_buffer_values_valid sample.library sample.shapes sample.attrib sample.materials "base"
      sample.allocated sample.filled (by decide) (by decide)⟩

/-- C3: after a completed load, two face-vertex positions of a shape hold the
same value in the shape's index buffer if and only if the face-vertices at the
two positions have the same vertex index, the same normal index and the same
texture-coordinate index. -/
theorem index_buffer_dedup {F : Type} [Zero F] (L : Library F) (shapes : List shape_t)
    (attrib : attrib_t F) (materials : List (material_t F)) (base_folder : String)
    (m1 m2 : model F)
    (ha : (model.empty : model F).allocate_buffers shapes = Except.ok m1)
    (hf : m1.fill_buffers L shapes attrib materials base_folder = Except.ok m2) :
    ∀ (s : Nat) (shape : shape_t), shapes[s]? = some shape →
      ∃ index_buffer, m2.index_buffers[s]? = some index_buffer ∧
        ∀ (p q : Nat) (idx_p idx_q : index_t),
          p < face_vertex_count shape.mesh → q < face_vertex_count shape.mesh →
          shape.mesh.indices[p]? = some idx_p → shape.mesh.indices[q]? = some idx_q →
          ∃ slot_p slot_q, index_buffer.item p = Except.ok slot_p ∧
            index_buffer.item q = Except.ok slot_q ∧
            (slot_p = slot_q ↔
              (idx_p.vertex_index = idx_q.vertex_index ∧
                idx_p.normal_index = idx_q.normal_index ∧
                idx_p.texcoord_index = idx_q.texcoord_index)) := by
  intro s shape hs
  obtain ⟨_, _, _, l4⟩ := load_spec L shapes attrib materials base_folder m1 m2 ha hf
  obtain ⟨vb, ib, tex, _, h2, _, hl⟩ := l4 s shape hs
  refine ⟨ib, h2, ?_⟩
  intro p q idx_p idx_q hp hq hip hiq
  have sp := loaded_slot L attrib materials base_folder _ _ _ _ hl p idx_p hp hip
  have sq := loaded_slot L attrib materials base_folder _ _ _ _ hl q idx_q hq hiq
  refine ⟨_, _, sp.1, sq.1, ?_⟩
  have hkey := List.indexOf_inj
    ((mem_first_seen _ _).mpr (mem_index_tuples_of_lt shape.mesh _ p idx_p hp hip))
    ((mem_first_seen _ _).mpr (mem_index_tuples_of_lt shape.mesh _ q idx_q hq hiq))
  constructor
  · intro h
    have e := make_index_tuple_inj _ _ (hkey.mp h)
    rw [e]
    exact ⟨rfl, rfl, rfl⟩
  · intro h
    have e : idx_p = idx_q := by
      cases idx_p
      cases idx_q
      simp only at h
      simp [h.1, h.2.1, h.2.2]
    rw [e]

/-- Witness for C3: the load of the two sample shapes and the seam completes.
The first shape has the face-vertices `v0, v1, v2, v0, v3, v2` and the index
buffer `0, 1, 2, 0, 3, 2`; the second has three different face-vertices and the
index buffer `0, 1, 2`; the seam has the index buffer `0, 1, 2, 3, 2, 1`: its
face-vertices that differ in the texture-coordinate index only, or in the
normal index only, have different slots. -/
theorem index_buffer_dedup_witness :
    (model.empty : model Int).allocate_buffers sample.shapes_with_seam
      = Except.ok (sample.allocated_of sample.shapes_with_seam) ∧
    (sample.allocated_of sample.shapes_with_seam).fill_buffers sample.library
      sample.shapes_with_seam sample.attrib sample.materials "base"
      = Except.ok (sample.filled_of sample.shapes_with_seam "base") ∧
    (sample.filled_of sample.shapes_with_seam "base").index_buffers.map (fun r => r.get_data)
      = [[0, 1, 2, 0, 3, 2], [0, 1, 2], [0, 1, 2, 3, 2, 1]] ∧
    ∀ (s : Nat) (shape : shape_t), sample.shapes_with_seam[s]? = some shape →
      ∃ index_buffer,
        (sample.filled_of sample.shapes_with_seam "base").index_buffers[s]?
          = some index_buffer ∧
        ∀ (p q : Nat) (idx_p idx_q : index_t),
          p < face_vertex_count shape.mesh → q < face_vertex_count shape.mesh →
          shape.mesh.indices[p]? = some idx_p → shape.mesh.indices[q]? = some idx_q →
          ∃ slot_p slot_q, index_buffer.item p = Except.ok slot_p ∧
            index_buffer.item q = Except.ok slot_q ∧
            (slot_p = slot_q ↔
              (idx_p.vertex_index = idx_q.vertex_index ∧
                idx_p.normal_index = idx_q.normal_index ∧
                idx_p.texcoord_index = idx_q.texcoord_index)) :=
  ⟨by decide, by decide, by decide,
    index_buffer_dedup sample.library sample.shapes_with_seam sample.attrib sample.materials
      "base" (sample.allocated_of sample.shapes_with_seam)
      (sample.filled_of sample.shapes_with_seam "base") (by decide) (by decide)⟩

/-- C4 (as amended): after a completed load, in a face whose first face-vertex
has a negative normal index, every face-vertex that has a negative normal index
itself and whose index triple does not occur in an earlier face of the shape
resolves, through the index buffer, to a vertex record whose normal is
`normalize(cross(b - a, c - a))`, with `a`, `b`, `c` the pool positions of the
first three face-vertices of that face. -/
theorem face_normal_fallback {F : Type} [Zero F] (L : Library F) (shapes : List shape_t)
    (attrib : attrib_t F) (materials : List (material_t F)) (base_folder : String)
    (m1 m2 : model F)
    (ha : (model.empty : model F).allocate_buffers shapes = Except.ok m1)
    (hf : m1.fill_buffers L shapes attrib materials base_folder = Except.ok m2) :
    ∀ (s : Nat) (shape : shape_t), shapes[s]? = some shape →
      ∃ vertex_buffer index_buffer,
        m2.vertex_buffers[s]? = some vertex_buffer ∧
        m2.index_buffers[s]? = some index_buffer ∧
        ∀ (f fv v : Nat) (first idx : index_t),
          shape.mesh.num_face_vertices[f]? = some fv → v < fv →
          shape.mesh.indices[face_offset shape.mesh f]? = some first →
          first.normal_index < 0 →
          shape.mesh.indices[face_offset shape.mesh f + v]? = some idx →
          idx.normal_index < 0 →
          make_index_tuple idx ∉ index_tuples shape.mesh (face_offset shape.mesh f) →
          ∃ slot r a_id b_id c_id a b c,
            index_buffer.item (face_offset shape.mesh f + v) = Except.ok slot ∧
            vertex_buffer.item slot = Except.ok r ∧
            shape.mesh.indices[face_offset shape.mesh f]? = some a_id ∧
            shape.mesh.indices[face_offset shape.mesh f + 1]? = some b_id ∧
            shape.mesh.indices[face_offset shape.mesh f + 2]? = some c_id ∧
            pool_position attrib a_id.vertex_index = some a ∧
            pool_position attrib b_id.vertex_index = some b ∧
            pool_position attrib c_id.vertex_index = some c ∧
            (⟨r.nx, r.ny, r.nz⟩ : float3 F) = L.normalize (L.cross (L.sub b a) (L.sub c a)) := by
  intro s shape hs
  obtain ⟨_, _, _, l4⟩ := load_spec L shapes attrib materials base_folder m1 m2 ha hf
  obtain ⟨vb, ib, tex, h1, h2, _, hl⟩ := l4 s shape hs
  refine ⟨vb, ib, h1, h2, ?_⟩
  intro f fv v first idx hfv hv hfirst hneg hidx hnidx hnew
  have hp := face_position_lt_count shape.mesh f fv v hfv hv
  obtain ⟨f0, fv0, v0, normal, material_id, material, slot, r, g1, g2, g3, g4, g5, g6, _, _,
    g9, g10, g11⟩ := loaded_record L attrib materials base_folder _ _ _ _ hl _ idx hp hidx
  have hge : face_offset shape.mesh f ≤ face_offset shape.mesh f0 + v0 := by
    by_contra hlt
    exact hnew (mem_index_tuples_of_lt shape.mesh _ _ idx (by omega) g4)
  have huniq := face_position_unique shape.mesh f0 f fv0 fv v0
    (face_offset shape.mesh f0 + v0 - face_offset shape.mesh f) g1 hfv g2 (by omega) (by omega)
  have e : f0 = f := huniq.1
  subst e
  have hcn := face_normal_computed L attrib shape.mesh _ first normal hfirst hneg g6
  obtain ⟨a_id, b_id, c_id, a, b, c, k1, k2, k3, k4, k5, k6, k7⟩ :=
    compute_normal_spec L attrib shape.mesh _ normal hcn
  obtain ⟨n1, n2, n3⟩ := g11.computed hnidx
  refine ⟨slot, r, a_id, b_id, c_id, a, b, c, g9, g10, k1, k2, k3, k4, k5, k6, ?_⟩
  rw [← k7, n1, n2, n3]

/-- Witness for C4: the load of the two sample shapes completes. -/
theorem face_normal_fallback_witness :
    (model.empty : model Int).allocate_buffers sample.shapes = Except.ok sample.allocated ∧
    sample.allocated.fill_buffers sample.library sample.shapes sample.attrib sample.materials
      "base" = Except.ok sample.filled ∧
    ∀ (s : Nat) (shape : shape_t), sample.shapes[s]? = some shape →
      ∃ vertex_buffer index_buffer,
        sample.filled.vertex_buffers[s]? = some vertex_buffer ∧
        sample.filled.index_buffers[s]? = some index_buffer ∧
        ∀ (f fv v : Nat) (first idx : index_t),
          shape.mesh.num_face_vertices[f]? = some fv → v < fv →
          shape.mesh.indices[face_offset shape.mesh f]? = some first →
          first.normal_index < 0 →
          shape.mesh.indices[face_offset shape.mesh f + v]? = some idx →
          idx.normal_index < 0 →
          make_index_tuple idx ∉ index_tuples shape.mesh (face_offset shape.mesh f) →
          ∃ slot r a_id b_id c_id a b c,
            index_buffer.item (face_offset shape.mesh f + v) = Except.ok slot ∧
            vertex_buffer.item slot = Except.ok r ∧
            shape.mesh.indices[face_offset shape.mesh f]? = some a_id ∧
            shape.mesh.indices[face_offset shape.mesh f + 1]? = some b_id ∧
            shape.mesh.indices[face_offset shape.mesh f + 2]? = some c_id ∧
            pool_position sample.attrib a_id.vertex_index = some a ∧
            pool_position sample.attrib b_id.vertex_index = some b ∧
            pool_position sample.attrib c_id.vertex_index = some c ∧
            (⟨r.nx, r.ny, r.nz⟩ : float3 Int) =
              sample.library.normalize
                (sample.library.cross (sample.library.sub b a) (sample.library.sub c a)) :=
  ⟨by decide, by decide,
    face_normal_fallback sample.library sample.shapes sample.attrib sample.materials "base"
      sample.allocated sample.filled (by decide) (by decide)⟩

/-- C4 as stated fails on the first sample shape.  Its second face (positions
3, 4, 5 of `mesh.indices`) starts with the face-vertex `(0, -1, -1)`, which has
no normal index and already occurs in the first face.  The load completes; the
index buffer sends position 3 to slot 0, and the record in slot 0 carries the
normal `(0, 0, 1)` of the first face, while `normalize(cross(b - a, c - a))`
for the second face, with `a = (0, 0, 0)`, `b = (0, 0, 1)`, `c = (0, 1, 0)`,
is `(-1, 0, 0)`. -/
theorem face_normal_fallback_counterexample :
    (model.empty : model Int).allocate_buffers sample.shapes = Except.ok sample.allocated ∧
    sample.allocated.fill_buffers sample.library sample.shapes sample.attrib sample.materials
      "base" = Except.ok sample.filled ∧
    sample.two_faces.mesh.num_face_vertices[1]? = some 3 ∧
    face_offset sample.two_faces.mesh 1 = 3 ∧
    sample.two_faces.mesh.indices[3]? = some ⟨0, -1, -1⟩ ∧
    sample.two_faces.mesh.indices[4]? = some ⟨3, -1, -1⟩ ∧
    sample.two_faces.mesh.indices[5]? = some ⟨2, -1, -1⟩ ∧
    pool_position sample.attrib 0 = some ⟨0, 0, 0⟩ ∧
    pool_position sample.attrib 3 = some ⟨0, 0, 1⟩ ∧
    pool_position sample.attrib 2 = some ⟨0, 1, 0⟩ ∧
    sample.library.normalize (sample.library.cross
      (sample.library.sub ⟨0, 0, 1⟩ ⟨0, 0, 0⟩) (sample.library.sub ⟨0, 1, 0⟩ ⟨0, 0, 0⟩))
      = ⟨-1, 0, 0⟩ ∧
    (sample.filled.index_buffers[0]?).map (fun index_buffer => index_buffer.item 3)
      = some (Except.ok 0) ∧
    (sample.filled.vertex_buffers[0]?).map
      (fun vertex_buffer => (vertex_buffer.item 0).map (fun r => (⟨r.nx, r.ny, r.nz⟩ : float3 Int)))
      = some (Except.ok ⟨0, 0, 1⟩) := by
  decide

/-- C5: after a completed load, every face-vertex position of a shape resolves,
through the index buffer, to a vertex record whose position is
`attrib.vertices[3 * vi .. 3 * vi + 2]`, whose texture coordinate is
`attrib.texcoords[2 * ti]`, `attrib.texcoords[2 * ti + 1]` when `ti >= 0` and
`(0, 0)` when `ti < 0`, and whose normal is `attrib.normals[3 * ni .. 3 * ni + 2]`
when `ni >= 0`, for the index triple `(vi, ni, ti)` at that position. -/
theorem welding_preserves_geometry {F : Type} [Zero F] (L : Library F) (shapes : List shape_t)
    (attrib : attrib_t F) (materials : List (material_t F)) (base_folder : String)
    (m1 m2 : model F)
    (ha : (model.empty : model F).allocate_buffers shapes = Except.ok m1)
    (hf : m1.fill_buffers L shapes attrib materials base_folder = Except.ok m2) :
    ∀ (s : Nat) (shape : shape_t), shapes[s]? = some shape →
      ∃ vertex_buffer index_buffer,
        m2.vertex_buffers[s]? = some vertex_buffer ∧
        m2.index_buffers[s]? = some index_buffer ∧
        ∀ (p : Nat) (idx : index_t), p < face_vertex_count shape.mesh →
          shape.mesh.indices[p]? = some idx →
          ∃ slot r, index_buffer.item p = Except.ok slot ∧
            vertex_buffer.item slot = Except.ok r ∧
            0 ≤ idx.vertex_index ∧
            attrib.vertices[(3 * idx.vertex_index).toNat]? = some r.x ∧
            attrib.vertices[(3 * idx.vertex_index + 1).toNat]? = some r.y ∧
            attrib.vertices[(3 * idx.vertex_index + 2).toNat]? = some r.z ∧
            (0 ≤ idx.texcoord_index →
              attrib.texcoords[(2 * idx.texcoord_index).toNat]? = some r.tx ∧
              attrib.texcoords[(2 * idx.texcoord_index + 1).toNat]? = some r.ty) ∧
            (idx.texcoord_index < 0 → r.tx = 0 ∧ r.ty = 0) ∧
            (0 ≤ idx.normal_index →
              attrib.normals[(3 * idx.normal_index).toNat]? = some r.nx ∧
              attrib.normals[(3 * idx.normal_index + 1).toNat]? = some r.ny ∧
              attrib.normals[(3 * idx.normal_index + 2).toNat]? = some r.nz) := by
  intro s shape hs
  obtain ⟨_, _, _, l4⟩ := load_spec L shapes attrib materials base_folder m1 m2 ha hf
  obtain ⟨vb, ib, tex, h1, h2, _, hl⟩ := l4 s shape hs
  refine ⟨vb, ib, h1, h2, ?_⟩
  intro p idx hp hidx
  obtain ⟨f0, fv0, v0, normal, material_id, material, slot, r, _, _, _, _, _, _, _, _,
    g9, g10, g11⟩ := loaded_record L attrib materials base_folder _ _ _ _ hl p idx hp hidx
  have hx := (subscript_int_ok_iff _ _ _).mp g11.x
  have hy := (subscript_int_ok_iff _ _ _).mp g11.y
  have hz := (subscript_int_ok_iff _ _ _).mp g11.z
  unfold vx at hx
  unfold vy at hy
  unfold vz at hz
  refine ⟨slot, r, g9, g10, by omega, hx.2.2, hy.2.2, hz.2.2, ?_, g11.no_texcoord, ?_⟩
  · intro ht
    obtain ⟨t1, t2⟩ := g11.texcoord (by omega)
    exact ⟨((subscript_int_ok_iff _ _ _).mp t1).2.2, ((subscript_int_ok_iff _ _ _).mp t2).2.2⟩
  · intro hn
    obtain ⟨n1, n2, n3⟩ := g11.normal (by omega)
    exact ⟨((subscript_int_ok_iff _ _ _).mp n1).2.2, ((subscript_int_ok_iff _ _ _).mp n2).2.2,
      ((subscript_int_ok_iff _ _ _).mp n3).2.2⟩

/-- Witness for C5: the load of the two sample shapes completes. -/
theorem welding_preserves_geometry_witness :
    (model.empty : model Int).allocate_buffers sample.shapes = Except.ok sample.allocated ∧
    sample.allocated.fill_buffers sample.library sample.shapes sample.attrib sample.materials
      "base" = Except.ok sample.filled ∧
    ∀ (s : Nat) (shape : shape_t), sample.shapes[s]? = some shape →
      ∃ vertex_buffer index_buffer,
        sample.filled.vertex_buffers[s]? = some vertex_buffer ∧
        sample.filled.index_buffers[s]? = some index_buffer ∧
        ∀ (p : Nat) (idx : index_t), p < face_vertex_count shape.mesh →
          shape.mesh.indices[p]? = some idx →
          ∃ slot r, index_buffer.item p = Except.ok slot ∧
            vertex_buffer.item slot = Except.ok r ∧
            0 ≤ idx.vertex_index ∧
            sample.attrib.vertices[(3 * idx.vertex_index).toNat]? = some r.x ∧
            sample.attrib.vertices[(3 * idx.vertex_index + 1).toNat]? = some r.y ∧
            sample.attrib.vertices[(3 * idx.vertex_index + 2).toNat]? = some r.z ∧
            (0 ≤ idx.texcoord_index →
              sample.attrib.texcoords[(2 * idx.texcoord_index).toNat]? = some r.tx ∧
              sample.attrib.texcoords[(2 * idx.texcoord_index + 1).toNat]? = some r.ty) ∧
            (idx.texcoord_index < 0 → r.tx = 0 ∧ r.ty = 0) ∧
            (0 ≤ idx.normal_index →
              sample.attrib.normals[(3 * idx.normal_index).toNat]? = some r.nx ∧
              sample.attrib.normals[(3 * idx.normal_index + 1).toNat]? = some r.ny ∧
              sample.attrib.normals[(3 * idx.normal_index + 2).toNat]? = some r.nz) :=
  ⟨by decide, by decide,
    welding_preserves_geometry sample.library sample.shapes sample.attrib sample.materials
      "base" sample.allocated sample.filled (by decide) (by decide)⟩

/-- C6: after a completed load, the vertex record of an index triple carries the
ambient, diffuse and emission colours of `materials[material_ids[f]]`, where `f`
is the face of the triple's first occurrence in the shape; and every record of
the vertex buffer is the record of such a first occurrence. -/
theorem material_baking {F : Type} [Zero F] (L : Library F) (shapes : List shape_t)
    (attrib : attrib_t F) (materials : List (material_t F)) (base_folder : String)
    (m1 m2 : model F)
    (ha : (model.empty : model F).allocate_buffers shapes = Except.ok m1)
    (hf : m1.fill_buffers L shapes attrib materials base_folder = Except.ok m2) :
    ∀ (s : Nat) (shape : shape_t), shapes[s]? = some shape →
      ∃ vertex_buffer index_buffer,
        m2.vertex_buffers[s]? = some vertex_buffer ∧
        m2.index_buffers[s]? = some index_buffer ∧
        (∀ (f fv v : Nat) (idx : index_t),
          shape.mesh.num_face_vertices[f]? = some fv → v < fv →
          shape.mesh.indices[face_offset shape.mesh f + v]? = some idx →
          make_index_tuple idx ∉ index_tuples shape.mesh (face_offset shape.mesh f + v) →
          ∃ slot r material_id material,
            index_buffer.item (face_offset shape.mesh f + v) = Except.ok slot ∧
            vertex_buffer.item slot = Except.ok r ∧
            shape.mesh.material_ids[f]? = some material_id ∧
            0 ≤ material_id ∧
            materials[material_id.toNat]? = some material ∧
            r.ambient_r = material.ambient.c0 ∧ r.ambient_g = material.ambient.c1 ∧
            r.ambient_b = material.ambient.c2 ∧
            r.diffuse_r = material.diffuse.c0 ∧ r.diffuse_g = material.diffuse.c1 ∧
            r.diffuse_b = material.diffuse.c2 ∧
            r.emissive_r = material.emission.c0 ∧ r.emissive_g = material.emission.c1 ∧
            r.emissive_b = material.emission.c2) ∧
        (∀ slot : Nat, slot < vertex_buffer.get_number_of_elements →
          ∃ f fv v idx, shape.mesh.num_face_vertices[f]? = some fv ∧ v < fv ∧
            shape.mesh.indices[face_offset shape.mesh f + v]? = some idx ∧
            make_index_tuple idx ∉ index_tuples shape.mesh (face_offset shape.mesh f + v) ∧
            index_buffer.item (face_offset shape.mesh f + v) = Except.ok slot) := by
  intro s shape hs
  obtain ⟨_, _, _, l4⟩ := load_spec L shapes attrib materials base_folder m1 m2 ha hf
  obtain ⟨vb, ib, tex, h1, h2, _, hl⟩ := l4 s shape hs
  refine ⟨vb, ib, h1, h2, ?_, ?_⟩
  · intro f fv v idx hfv hv hidx hfirst
    have hp := face_position_lt_count shape.mesh f fv v hfv hv
    obtain ⟨normal, material_id, material, r, _, g2, g3, g4, g5⟩ :=
      hl.vb f fv v idx hfv hv hidx hfirst
    have hm := (subscript_int_ok_iff _ _ _).mp g3
    obtain ⟨a1, a2, a3⟩ := g5.ambient
    obtain ⟨d1, d2, d3⟩ := g5.diffuse
    obtain ⟨e1, e2, e3⟩ := g5.emissive
    exact ⟨_, r, material_id, material,
      (loaded_slot L attrib materials base_folder _ _ _ _ hl _ idx hp hidx).1,
      (item_ok_iff _ _ _).mpr g4, g2, hm.1, hm.2.2, a1, a2, a3, d1, d2, d3, e1, e2, e3⟩
  · intro slot hslot
    exact loaded_slot_first L attrib materials base_folder _ _ _ _ hl slot hslot

/-- Witness for C6: the load of the two sample shapes completes. -/
theorem material_baking_witness :
    (model.empty : model Int).allocate_buffers sample.shapes = Except.ok sample.allocated ∧
    sample.allocated.fill_buffers sample.library sample.shapes sample.attrib sample.materials
      "base" = Except.ok sample.filled ∧
    ∀ (s : Nat) (shape : shape_t), sample.shapes[s]? = some shape →
      ∃ vertex_buffer index_buffer,
        sample.filled.vertex_buffers[s]? = some vertex_buffer ∧
        sample.filled.index_buffers[s]? = some index_buffer ∧
        (∀ (f fv v : Nat) (idx : index_t),
          shape.mesh.num_face_vertices[f]? = some fv → v < fv →
          shape.mesh.indices[face_offset shape.mesh f + v]? = some idx →
          make_index_tuple idx ∉ index_tuples shape.mesh (face_offset shape.mesh f + v) →
          ∃ slot r material_id material,
            index_buffer.item (face_offset shape.mesh f + v) = Except.ok slot ∧
            vertex_buffer.item slot = Except.ok r ∧
            shape.mesh.material_ids[f]? = some material_id ∧
            0 ≤ material_id ∧
            sample.materials[material_id.toNat]? = some material ∧
            r.ambient_r = material.ambient.c0 ∧ r.ambient_g = material.ambient.c1 ∧
            r.ambient_b = material.ambient.c2 ∧
            r.diffuse_r = material.diffuse.c0 ∧ r.diffuse_g = material.diffuse.c1 ∧
            r.diffuse_b = material.diffuse.c2 ∧
            r.emissive_r = material.emission.c0 ∧ r.emissive_g = material.emission.c1 ∧
            r.emissive_b = material.emission.c2) ∧
        (∀ slot : Nat, slot < vertex_buffer.get_number_of_elements →
          ∃ f fv v idx, shape.mesh.num_face_vertices[f]? = some fv ∧ v < fv ∧
            shape.mesh.indices[face_offset shape.mesh f + v]? = some idx ∧
            make_index_tuple idx ∉ index_tuples shape.mesh (face_offset shape.mesh f + v) ∧
            index_buffer.item (face_offset shape.mesh f + v) = Except.ok slot) :=
  ⟨by decide, by decide,
    material_baking sample.library sample.shapes sample.attrib sample.materials "base"
      sample.allocated sample.filled (by decide) (by decide)⟩

/-- C7 (as amended): whenever the parser returns failure and reports a non-empty
error string, `load_obj` fails with an error carrying exactly that string and
leaves the model as it was, whatever the shapes, attributes and materials are:
neither `allocate_buffers` nor `fill_buffers` runs, and the vertex buffers,
index buffers and textures of an empty model stay empty. -/
theorem load_obj_parse_failure {F : Type} [Zero F] (L : Library F) (reader : ObjReader F)
    (model_folder : String) (m : model F) (hfail : reader.parse_result = false)
    (herr : reader.error ≠ "") :
    m.load_obj L reader model_folder =
      { result := Except.error (Fault.error reader.error), model_after := some m } := by
  have hb : reader.error.isEmpty = false := by
    cases hc : reader.error.isEmpty with
    | false => rfl
    | true => exact absurd ((String.isEmpty_iff _).mp hc) herr
  unfold model.load_obj THROW_ERROR
  simp [hfail, hb]

/-- Witness for C7: a failed parse with the message `cannot open file`, on an
empty model; the shape it carries would make `allocate_buffers` stop on a bad
subscript. -/
theorem load_obj_parse_failure_witness :
    (false = false ∧ "cannot open file" ≠ "") ∧
    (model.empty : model Int).load_obj sample.library
        { parse_result := false, error := "cannot open file",
          shapes := [⟨"short", ⟨[], [3], [0]⟩⟩], attrib := sample.attrib,
          materials := sample.materials } "base"
      = { result := Except.error (Fault.error "cannot open file"),
          model_after := some model.empty } :=
  ⟨by decide,
    load_obj_parse_failure sample.library
      { parse_result := false, error := "cannot open file",
        shapes := [⟨"short", ⟨[], [3], [0]⟩⟩], attrib := sample.attrib,
        materials := sample.materials } "base" model.empty rfl (by decide)⟩

/-- C7 as stated fails: when the parser returns success and nevertheless reports
the non-empty error string `warning`, `load_obj` does not fail; both passes run
and the model holds the buffers of the two sample shapes. -/
theorem load_obj_parse_failure_counterexample :
    ("warning" ≠ "") ∧
    (model.empty : model Int).load_obj sample.library
        { parse_result := true, error := "warning", shapes := sample.shapes,
          attrib := sample.attrib, materials := sample.materials } "base"
      = { result := Except.ok (), model_after := some sample.filled } ∧
    sample.filled.vertex_buffers.length = 2 ∧ sample.filled.index_buffers.length = 2 ∧
    sample.filled.textures = ["base/wood.png", ""] := by
  decide

/-- C8: after a completed load, the texture path of every shape is
`base_folder` joined with the diffuse texture name of
`materials[material_ids[0]]` when that name is non-empty, and the empty path
when it is empty; no other material enters the result. -/
theorem texture_resolution {F : Type} [Zero F] (L : Library F) (shapes : List shape_t)
    (attrib : attrib_t F) (materials : List (material_t F)) (base_folder : String)
    (m1 m2 : model F)
    (ha : (model.empty : model F).allocate_buffers shapes = Except.ok m1)
    (hf : m1.fill_buffers L shapes attrib materials base_folder = Except.ok m2) :
    ∀ (s : Nat) (shape : shape_t), shapes[s]? = some shape →
      ∃ material_id material,
        shape.mesh.material_ids[0]? = some material_id ∧ 0 ≤ material_id ∧
        materials[material_id.toNat]? = some material ∧
        m2.textures[s]? = some
          (if material.diffuse_texname = "" then ""
            else L.path_append base_folder material.diffuse_texname) := by
  intro s shape hs
  obtain ⟨_, _, _, l4⟩ := load_spec L shapes attrib materials base_folder m1 m2 ha hf
  obtain ⟨vb, ib, tex, _, _, h3, hl⟩ := l4 s shape hs
  obtain ⟨path, hp, ht⟩ := hl.texture
  obtain ⟨material_id, material, r1, r2, r3, r4⟩ :=
    resolve_texture_spec L materials base_folder shape.mesh path hp
  refine ⟨material_id, material, r1, r2, r3, ?_⟩
  rw [h3, ht, r4]
  by_cases he : material.diffuse_texname = ""
  · rw [if_pos he, if_pos he]; rfl
  · rw [if_neg he, if_neg he]; rfl

/-- Witness for C8: the load of the two sample shapes completes. -/
theorem texture_resolution_witness :
    (model.empty : model Int).allocate_buffers sample.shapes = Except.ok sample.allocated ∧
    sample.allocated.fill_buffers sample.library sample.shapes sample.attrib sample.materials
      "base" = Except.ok sample.filled ∧
    ∀ (s : Nat) (shape : shape_t), sample.shapes[s]? = some shape →
      ∃ material_id material,
        shape.mesh.material_ids[0]? = some material_id ∧ 0 ≤ material_id ∧
        sample.materials[material_id.toNat]? = some material ∧
        sample.filled.textures[s]? = some
          (if material.diffuse_texname = "" then ""
            else sample.library.path_append "base" material.diffuse_texname) :=
  ⟨by decide, by decide,
    texture_resolution sample.library sample.shapes sample.attrib sample.materials "base"
      sample.allocated sample.filled (by decide) (by decide)⟩

/-- C9: starting from an empty model, after `allocate_buffers(shapes)`, and
also after the subsequent `fill_buffers`, the model has as many vertex buffers,
index buffers and texture paths as there are shapes. -/
theorem length_invariant {F : Type} [Zero F] (L : Library F) (shapes : List shape_t)
    (attrib : attrib_t F) (materials : List (material_t F)) (base_folder : String)
    (m1 : model F)
    (ha : (model.empty : model F).allocate_buffers shapes = Except.ok m1) :
    (m1.vertex_buffers.length = shapes.length ∧ m1.index_buffers.length = shapes.length ∧
      m1.textures.length = shapes.length) ∧
    ∀ m2 : model F, m1.fill_buffers L shapes attrib materials base_folder = Except.ok m2 →
      m2.vertex_buffers.length = shapes.length ∧ m2.index_buffers.length = shapes.length ∧
      m2.textures.length = shapes.length := by
  obtain ⟨a1, a2, a3, _⟩ := allocate_buffers_spec shapes m1 ha
  refine ⟨⟨a1, a2, by rw [a3]; simp⟩, ?_⟩
  intro m2 hf
  obtain ⟨l1, l2, l3, _⟩ := load_spec L shapes attrib materials base_folder m1 m2 ha hf
  exact ⟨l1, l2, l3⟩

/-- Witness for C9: the two sample shapes, for which both passes complete. -/
theorem length_invariant_witness :
    (model.empty : model Int).allocate_buffers sample.shapes = Except.ok sample.allocated ∧
    sample.allocated.fill_buffers sample.library sample.shapes sample.attrib sample.materials
      "base" = Except.ok sample.filled ∧
    (sample.allocated.vertex_buffers.length = sample.shapes.length ∧
      sample.allocated.index_buffers.length = sample.shapes.length ∧
      sample.allocated.textures.length = sample.shapes.length) ∧
    ∀ m2 : model Int,
      sample.allocated.fill_buffers sample.library sample.shapes sample.attrib
        sample.materials "base" = Except.ok m2 →
      m2.vertex_buffers.length = sample.shapes.length ∧
      m2.index_buffers.length = sample.shapes.length ∧
      m2.textures.length = sample.shapes.length :=
  ⟨by decide, by decide,
    length_invariant sample.library sample.shapes sample.attrib sample.materials "base"
      sample.allocated (by decide)⟩

/-- C10: for every buffer and every index `i`, `item(i)` fails, and then with
the out-of-bounds error, exactly when `i >= get_number_of_elements()`;
otherwise it yields the `i`-th element of the backing storage, and a write
through the returned reference replaces that element and no other. -/
theorem resource_item_bounds {T : Type} (r : resource T) (i : Nat) :
    ((∃ e, r.item i = Except.error e) ↔ r.get_number_of_elements ≤ i) ∧
    (r.item i = Except.error Fault.out_of_range ↔ r.get_number_of_elements ≤ i) ∧
    ((∃ x, r.item i = Except.ok x ∧ r.get_data[i]? = some x) ↔ i < r.get_number_of_elements) ∧
    (∀ x : T, (r.item_assign i x = Except.error Fault.out_of_range
        ↔ r.get_number_of_elements ≤ i) ∧
      ((∃ r1, r.item_assign i x = Except.ok r1 ∧ r1.get_data = r.get_data.set i x ∧
          r1.get_stride = r.get_stride) ↔ i < r.get_number_of_elements)) := by
  unfold resource.item_assign resource.item resource.get_number_of_elements resource.get_data
    resource.get_stride
  by_cases hi : i < r.data.length
  · have hget : r.data[i]? = some (r.data.get ⟨i, hi⟩) := List.getElem?_eq_getElem hi
    rw [hget]
    simp only [Except.ok.injEq, Option.some.injEq, reduceCtorEq, exists_false, false_iff,
      Nat.not_le, hi, iff_true, true_and]
    exact ⟨⟨_, rfl, rfl⟩, fun x => ⟨_, rfl, rfl, rfl⟩⟩
  · have hget : r.data[i]? = none := List.getElem?_eq_none_iff.mpr (by omega)
    rw [hget]
    have hle : r.data.length ≤ i := by omega
    simp only [Except.error.injEq, exists_eq', hle, reduceCtorEq, false_and, exists_false, hi,
      iff_true, iff_false, not_false_eq_true, true_and, implies_true, and_self]

/-- C11: for every buffer and every `x`, `y`, `item(x, y)` behaves exactly as
`item(y * get_stride() + x)` with the index computed in `size_t` (modulo
`2 ^ 64`): it fails, and then with the out-of-bounds error, exactly when that
linear index is at least the element count, and otherwise yields the element of
the backing storage at that index; no separate bound is put on `x` or `y`. -/
theorem resource_item2_linear {T : Type} (r : resource T) (x y : Nat) :
    r.item2 x y = r.item ((y * r.get_stride + x) % 2 ^ 64) ∧
    ((∃ e, r.item2 x y = Except.error e)
      ↔ r.get_number_of_elements ≤ (y * r.get_stride + x) % 2 ^ 64) ∧
    (r.item2 x y = Except.error Fault.out_of_range
      ↔ r.get_number_of_elements ≤ (y * r.get_stride + x) % 2 ^ 64) ∧
    ((∃ v, r.item2 x y = Except.ok v ∧ r.get_data[(y * r.get_stride + x) % 2 ^ 64]? = some v)
      ↔ (y * r.get_stride + x) % 2 ^ 64 < r.get_number_of_elements) := by
  unfold resource.item2 resource.item resource.get_number_of_elements resource.get_data
  by_cases hi : (y * r.get_stride + x) % 2 ^ 64 < r.data.length
  · have hget : r.data[(y * r.get_stride + x) % 2 ^ 64]?
        = some (r.data.get ⟨(y * r.get_stride + x) % 2 ^ 64, hi⟩) :=
      List.getElem?_eq_getElem hi
    rw [hget]
    simp only [Except.ok.injEq, Option.some.injEq, reduceCtorEq, exists_false, false_iff,
      Nat.not_le, hi, iff_true, true_and]
    exact ⟨_, rfl, rfl⟩
  · have hget : r.data[(y * r.get_stride + x) % 2 ^ 64]? = none :=
      List.getElem?_eq_none_iff.mpr (by omega)
    rw [hget]
    have hle : r.data.length ≤ (y * r.get_stride + x) % 2 ^ 64 := by omega
    simp only [Except.error.injEq, exists_eq', hle, reduceCtorEq, false_and, exists_false, hi,
      iff_true, iff_false, not_false_eq_true, true_and, and_self]

/-- Witness for C11: in a buffer of three rows of two elements, `item(3, 1)`
has `x` beyond the stride and yields the element at the linear index 5, while
`item(0, 3)` has the linear index 6 and fails. -/
theorem resource_item2_linear_witness :
    ((resource.mk2 4 2 3 : resource Nat).item2 3 1
        = (resource.mk2 4 2 3 : resource Nat).item ((1 * 2 + 3) % 2 ^ 64) ∧
      (resource.mk2 4 2 3 : resource Nat).item2 3 1 = Except.ok 0 ∧
      (resource.mk2 4 2 3 : resource Nat).item2 0 3 = Except.error Fault.out_of_range) :=
  ⟨(resource_item2_linear (resource.mk2 4 2 3 : resource Nat) 3 1).1, by decide, by decide⟩

/-- C12 (as amended): `resource(n)` throws `std::length_error` when `n`
exceeds the `max_size()` of the vector and `std::bad_alloc` when the storage
cannot be allocated; when it returns, the resource has element count `n` and
stride `n`.  `resource(x, y)` does the same with the size `x * y` reduced
modulo `2 ^ 64` (the product is taken in `size_t`), which is `x * y` whenever
`x * y < 2 ^ 64`, and when it returns the resource has that element count and
stride `x`.  In both cases every element of the returned resource is
default-initialised and `get_size_in_bytes()` is `sizeof(T)` times the element
count, taken in `size_t`, which is the exact product whenever that is below
`2 ^ 64`. -/
theorem resource_construction {T : Type} [Inhabited T] (limits : vector_limits)
    (sizeof_T n x y : Nat) :
    ((limits.max_size < n →
        (resource.construct1 limits sizeof_T n : Except Fault (resource T))
          = Except.error Fault.length_error) ∧
      (n ≤ limits.max_size → limits.available < n →
        (resource.construct1 limits sizeof_T n : Except Fault (resource T))
          = Except.error Fault.bad_alloc) ∧
      (n ≤ limits.max_size → n ≤ limits.available →
        ∃ r : resource T, resource.construct1 limits sizeof_T n = Except.ok r ∧
          r.get_number_of_elements = n ∧ r.get_stride = n ∧
          (∀ v ∈ r.get_data, v = default) ∧
          r.get_size_in_bytes = (sizeof_T * n) % 2 ^ 64 ∧
          (sizeof_T * n < 2 ^ 64 → r.get_size_in_bytes = sizeof_T * n))) ∧
    ((limits.max_size < (x * y) % 2 ^ 64 →
        (resource.construct2 limits sizeof_T x y : Except Fault (resource T))
          = Except.error Fault.length_error) ∧
      ((x * y) % 2 ^ 64 ≤ limits.max_size → limits.available < (x * y) % 2 ^ 64 →
        (resource.construct2 limits sizeof_T x y : Except Fault (resource T))
          = Except.error Fault.bad_alloc) ∧
      ((x * y) % 2 ^ 64 ≤ limits.max_size → (x * y) % 2 ^ 64 ≤ limits.available →
        ∃ r : resource T, resource.construct2 limits sizeof_T x y = Except.ok r ∧
          r.get_number_of_elements = (x * y) % 2 ^ 64 ∧ r.get_stride = x ∧
          (∀ v ∈ r.get_data, v = default) ∧
          r.get_size_in_bytes = (sizeof_T * ((x * y) % 2 ^ 64)) % 2 ^ 64 ∧
          (x * y < 2 ^ 64 →
            r.get_number_of_elements = x * y ∧
            (sizeof_T * (x * y) < 2 ^ 64 → r.get_size_in_bytes = sizeof_T * (x * y))))) := by
  refine ⟨⟨?_, ?_, ?_⟩, ⟨?_, ?_, ?_⟩⟩
  · intro h
    unfold resource.construct1 vector_resize
    rw [if_pos h]
    rfl
  · intro h1 h2
    unfold resource.construct1 vector_resize
    rw [if_neg (by omega), if_pos h2]
    rfl
  · intro h1 h2
    refine ⟨resource.mk1 sizeof_T n, ?_, ?_, rfl, ?_, ?_, ?_⟩
    · unfold resource.construct1 vector_resize
      rw [if_neg (by omega), if_neg (by omega)]
      rfl
    · simp [resource.mk1, resource.get_number_of_elements]
    · intro v hv
      exact List.eq_of_mem_replicate hv
    · simp [resource.mk1, resource.get_size_in_bytes]
    · intro h
      unfold resource.get_size_in_bytes resource.mk1
      simp only [List.length_replicate]
      exact Nat.mod_eq_of_lt h
  · intro h
    unfold resource.construct2 vector_resize
    rw [if_pos h]
    rfl
  · intro h1 h2
    unfold resource.construct2 vector_resize
    rw [if_neg (by omega), if_pos h2]
    rfl
  · intro h1 h2
    refine ⟨resource.mk2 sizeof_T x y, ?_, ?_, rfl, ?_, ?_, ?_⟩
    · unfold resource.construct2 vector_resize
      rw [if_neg (by omega), if_neg (by omega)]
      rfl
    · simp [resource.mk2, resource.get_number_of_elements]
    · intro v hv
      exact List.eq_of_mem_replicate hv
    · simp [resource.mk2, resource.get_size_in_bytes]
    · intro h
      unfold resource.get_size_in_bytes resource.get_number_of_elements resource.mk2
      simp only [List.length_replicate]
      rw [Nat.mod_eq_of_lt h]
      exact ⟨rfl, fun h2 => Nat.mod_eq_of_lt h2⟩

/-- Witness for C12: with room for 1000 elements, a buffer of 5 and a buffer of
2 by 3 unsigned integers are constructed, with 5 and 6 zero elements, strides 5
and 2, and 20 and 24 bytes. -/
theorem resource_construction_witness :
    (∃ r : resource Nat, resource.construct1 ⟨2 ^ 61 - 1, 1000⟩ 4 5 = Except.ok r ∧
      r.get_data = [0, 0, 0, 0, 0] ∧ r.get_number_of_elements = 5 ∧ r.get_stride = 5 ∧
      r.get_size_in_bytes = 20) ∧
    (∃ r : resource Nat, resource.construct2 ⟨2 ^ 61 - 1, 1000⟩ 4 2 3 = Except.ok r ∧
      r.get_data = [0, 0, 0, 0, 0, 0] ∧ r.get_number_of_elements = 6 ∧ r.get_stride = 2 ∧
      r.get_size_in_bytes = 24) := by
  have h := resource_construction (T := Nat) ⟨2 ^ 61 - 1, 1000⟩ 4 5 2 3
  obtain ⟨r1, a1, a2, a3, _, _, a6⟩ := h.1.2.2 (by decide) (by decide)
  obtain ⟨r2, b1, _, b3, _, _, b6⟩ := h.2.2.2 (by decide) (by decide)
  have c1 : resource.construct1 ⟨2 ^ 61 - 1, 1000⟩ 4 5
      = Except.ok (resource.mk1 4 5 : resource Nat) := by decide
  have c2 : resource.construct2 ⟨2 ^ 61 - 1, 1000⟩ 4 2 3
      = Except.ok (resource.mk2 4 2 3 : resource Nat) := by decide
  rw [c1] at a1
  rw [c2] at b1
  have e1 := Except.ok.inj a1
  have e2 := Except.ok.inj b1
  subst e1 e2
  exact ⟨⟨_, c1, by decide, a2, a3, a6 (by decide)⟩,
    ⟨_, c2, by decide, (b6 (by decide)).1, b3, (b6 (by decide)).2 (by decide)⟩⟩

/-- C12 as stated fails in two ways.  `resource(4294967296, 4294967296)`
returns with the stride 4294967296 and no element at all, because the product
of the two extents is taken in `size_t` and wraps to zero, while `x * y` is
`2 ^ 64`.  And `resource(n)` for `n = 2 ^ 62`, above a `max_size()` of
`2 ^ 61 - 1`, throws `std::length_error` and has no element count. -/
theorem resource_construction_counterexample :
    (∃ r : resource Nat,
      resource.construct2 ⟨2 ^ 61 - 1, 1000⟩ 4 4294967296 4294967296 = Except.ok r ∧
      r.get_number_of_elements = 0 ∧ r.get_stride = 4294967296 ∧
      4294967296 * 4294967296 ≠ 0) ∧
    (resource.construct1 ⟨2 ^ 61 - 1, 1000⟩ 4 (2 ^ 62) : Except Fault (resource Nat))
      = Except.error Fault.length_error := by
  refine ⟨⟨resource.mk2 4 4294967296 4294967296, ?_, ?_, rfl, by norm_num⟩, ?_⟩
  · unfold resource.construct2 vector_resize resource.mk2
    norm_num
  · simp [resource.mk2, resource.get_number_of_elements]
  · unfold resource.construct1 vector_resize
    norm_num

/-- C13: for every colour whose channels all lie in `[0, 1]`, each channel of
`unsigned_color::from_color(c).to_float3()` differs from the corresponding
channel of `c.to_float3()` by less than `1 / 255` (channels are exact rationals,
the cast to `uint8_t` is truncation). -/
theorem color_round_trip (c : color ℚ) (hr : 0 ≤ c.r ∧ c.r ≤ 1) (hg : 0 ≤ c.g ∧ c.g ≤ 1)
    (hb : 0 ≤ c.b ∧ c.b ≤ 1) :
    |(unsigned_color.from_color c).to_float3.x - c.to_float3.x| < 1 / 255 ∧
    |(unsigned_color.from_color c).to_float3.y - c.to_float3.y| < 1 / 255 ∧
    |(unsigned_color.from_color c).to_float3.z - c.to_float3.z| < 1 / 255 :=
  ⟨channel_round_trip c.r hr.1 hr.2, channel_round_trip c.g hg.1 hg.2,
    channel_round_trip c.b hb.1 hb.2⟩

/-- Witness for C13: the colour `(1/2, 1/3, 1)`. -/
theorem color_round_trip_witness :
    ((0 : ℚ) ≤ 1 / 2 ∧ (1 : ℚ) / 2 ≤ 1) ∧ ((0 : ℚ) ≤ 1 / 3 ∧ (1 : ℚ) / 3 ≤ 1) ∧
    ((0 : ℚ) ≤ 1 ∧ (1 : ℚ) ≤ 1) ∧
    |(unsigned_color.from_color ⟨1 / 2, 1 / 3, 1⟩).to_float3.x
      - (color.to_float3 (⟨1 / 2, 1 / 3, 1⟩ : color ℚ)).x| < 1 / 255 ∧
    |(unsigned_color.from_color ⟨1 / 2, 1 / 3, 1⟩).to_float3.y
      - (color.to_float3 (⟨1 / 2, 1 / 3, 1⟩ : color ℚ)).y| < 1 / 255 ∧
    |(unsigned_color.from_color ⟨1 / 2, 1 / 3, 1⟩).to_float3.z
      - (color.to_float3 (⟨1 / 2, 1 / 3, 1⟩ : color ℚ)).z| < 1 / 255 :=
  ⟨by norm_num, by norm_num, by norm_num,
    color_round_trip ⟨1 / 2, 1 / 3, 1⟩ (by norm_num) (by norm_num) (by norm_num)⟩

/-- C14 (as amended): for every float-triple without a NaN channel,
`unsigned_color::from_float3` returns, and each channel of the result lies in
`0..255`; a finite channel `v` maps to `trunc(min(max(255 * v, 0), 255))`, hence
to 255 when `v >= 1` and to 0 when `v <= 0`; a channel `+infinity` maps to 255
and a channel `-infinity` to 0.  The product `255 * v` of a finite channel is
taken exactly. -/
theorem color_clamping (c : float3 float_value) (hx : c.x ≠ float_value.nan)
    (hy : c.y ≠ float_value.nan) (hz : c.z ≠ float_value.nan) :
    ∃ u, unsigned_color.from_float3_ieee c = Except.ok u ∧
      (u.r ≤ 255 ∧
        (∀ q, c.x = float_value.finite q →
          u.r = (trunc (min (max (255 * q) 0) 255)).toNat ∧
          (1 ≤ q → u.r = 255) ∧ (q ≤ 0 → u.r = 0)) ∧
        (c.x = float_value.pos_inf → u.r = 255) ∧ (c.x = float_value.neg_inf → u.r = 0)) ∧
      (u.g ≤ 255 ∧
        (∀ q, c.y = float_value.finite q →
          u.g = (trunc (min (max (255 * q) 0) 255)).toNat ∧
          (1 ≤ q → u.g = 255) ∧ (q ≤ 0 → u.g = 0)) ∧
        (c.y = float_value.pos_inf → u.g = 255) ∧ (c.y = float_value.neg_inf → u.g = 0)) ∧
      (u.b ≤ 255 ∧
        (∀ q, c.z = float_value.finite q →
          u.b = (trunc (min (max (255 * q) 0) 255)).toNat ∧
          (1 ≤ q → u.b = 255) ∧ (q ≤ 0 → u.b = 0)) ∧
        (c.z = float_value.pos_inf → u.b = 255) ∧ (c.z = float_value.neg_inf → u.b = 0)) := by
  obtain ⟨r, hr, r1⟩ := ieee_channel c.x hx
  obtain ⟨g, hg, g1⟩ := ieee_channel c.y hy
  obtain ⟨b, hb, b1⟩ := ieee_channel c.z hz
  refine ⟨⟨r, g, b⟩, ?_, r1, g1, b1⟩
  unfold unsigned_color.from_float3_ieee
  simp only [bind, Except.bind, pure, Except.pure, hr, hg, hb]

/-- Witness for C14: the channels `1.5`, `-0.5` and `1/3` map to 255, 0 and
85; the channels `+infinity`, `-infinity` and `1/2` map to 255, 0 and 127. -/
theorem color_clamping_witness :
    (∃ u, unsigned_color.from_float3_ieee
        ⟨float_value.finite (3 / 2), float_value.finite (-1 / 2), float_value.finite (1 / 3)⟩
        = Except.ok u ∧ u = ⟨255, 0, 85⟩) ∧
    (∃ u, unsigned_color.from_float3_ieee
        ⟨float_value.pos_inf, float_value.neg_inf, float_value.finite (1 / 2)⟩
        = Except.ok u ∧ u = ⟨255, 0, 127⟩) := by
  have f85 : ⌊(85 : ℚ)⌋ = 85 := by exact_mod_cast Int.floor_intCast (85 : Int)
  have f127 : ⌊(255 / 2 : ℚ)⌋ = 127 := by
    rw [Int.floor_eq_iff]
    constructor <;> norm_num
  have e85 : (trunc (min (max (255 * (1 / 3 : ℚ)) 0) 255)).toNat = 85 := by
    have e : min (max (255 * (1 / 3 : ℚ)) 0) 255 = 85 := by norm_num
    rw [e]
    unfold trunc
    rw [if_pos (by norm_num), f85]
    rfl
  have e127 : (trunc (min (max (255 * (1 / 2 : ℚ)) 0) 255)).toNat = 127 := by
    have e : min (max (255 * (1 / 2 : ℚ)) 0) 255 = 255 / 2 := by norm_num
    rw [e]
    unfold trunc
    rw [if_pos (by norm_num), f127]
    rfl
  constructor
  · obtain ⟨u, hu, hr, hg, hb⟩ := color_clamping
      ⟨float_value.finite (3 / 2), float_value.finite (-1 / 2), float_value.finite (1 / 3)⟩
      (by decide) (by decide) (by decide)
    refine ⟨u, hu, ?_⟩
    have h1 := (hr.2.1 (3 / 2) rfl).2.1 (by norm_num)
    have h2 := (hg.2.1 (-1 / 2) rfl).2.2 (by norm_num)
    have h3 := (hb.2.1 (1 / 3) rfl).1
    rw [e85] at h3
    cases u
    simp only at h1 h2 h3
    rw [h1, h2, h3]
  · obtain ⟨u, hu, hr, hg, hb⟩ := color_clamping
      ⟨float_value.pos_inf, float_value.neg_inf, float_value.finite (1 / 2)⟩
      (by decide) (by decide) (by decide)
    refine ⟨u, hu, ?_⟩
    have h1 := hr.2.2.1 rfl
    have h2 := hg.2.2.2 rfl
    have h3 := (hb.2.1 (1 / 2) rfl).1
    rw [e127] at h3
    cases u
    simp only at h1 h2 h3
    rw [h1, h2, h3]

/-- C14 as stated fails for a NaN channel: `std::clamp` returns the NaN, since
both of its comparisons are false, and the conversion of a NaN to `uint8_t` is
undefined. -/
theorem color_clamping_counterexample :
    unsigned_color.from_float3_ieee
      ⟨float_value.nan, float_value.finite 0, float_value.finite 0⟩
      = Except.error Fault.bad_conversion ∧
    unsigned_color.from_float3_ieee
      ⟨float_value.finite 0, float_value.finite 0, float_value.nan⟩
      = Except.error Fault.bad_conversion := by
  have h0 := to_uint8_clamp_finite 0
  constructor
  · unfold unsigned_color.from_float3_ieee
    simp only [bind, Except.bind, ieee_nan_channel]
  · unfold unsigned_color.from_float3_ieee
    simp only [bind, Except.bind, h0, ieee_nan_channel]

/-- C20: when a model contains a shape that has no faces (its per-face vectors,
one entry per face, are empty), or whose first face's material id lies outside
`[0, len(materials))`, the texture step of that shape reads
`materials[material_ids[0]]` out of range, and `fill_buffers` does not complete,
whatever the model it starts from and whatever the attribute-pool indices
are. -/
theorem texture_lookup_fault {F : Type} [Zero F] (L : Library F) (shapes : List shape_t)
    (attrib : attrib_t F) (materials : List (material_t F)) (base_folder : String)
    (s : Nat) (shape : shape_t) (hs : shapes[s]? = some shape)
    (hwf : shape.mesh.material_ids.length = shape.mesh.num_face_vertices.length)
    (hbad : shape.mesh.num_face_vertices = [] ∨
      ∃ id, shape.mesh.material_ids[0]? = some id ∧ (id < 0 ∨ (materials.length : Int) ≤ id)) :
    resolve_texture L materials base_folder shape.mesh = Except.error Fault.bad_subscript ∧
    ∀ m m2 : model F, m.fill_buffers L shapes attrib materials base_folder ≠ Except.ok m2 := by
  have hres : resolve_texture L materials base_folder shape.mesh
      = Except.error Fault.bad_subscript := by
    unfold resolve_texture
    rcases hbad with hnone | ⟨id, hid, hout⟩
    · have hlen : shape.mesh.material_ids.length = 0 := by rw [hwf, hnone]; rfl
      have hget : shape.mesh.material_ids[0]? = none :=
        List.getElem?_eq_none_iff.mpr (by omega)
      simp [subscript, hget, bind, Except.bind]
    · have hsub : subscript_int materials id = Except.error Fault.bad_subscript := by
        unfold subscript_int subscript
        by_cases hr : 0 ≤ id ∧ id ≤ INT_MAX
        · rw [if_pos hr]
          have hget : materials[id.toNat]? = none :=
            List.getElem?_eq_none_iff.mpr (by omega)
          rw [hget]
        · rw [if_neg hr]
      simp [subscript, hid, hsub, bind, Except.bind]
  refine ⟨hres, ?_⟩
  intro m m2 hfill
  have hinv := fill_buffers_spec L shapes attrib materials base_folder m m2 hfill
  have hslt := (List.getElem?_eq_some_iff.mp hs).1
  obtain ⟨sh0, _, _, _, path, h1, _, _, _, h6, _⟩ := hinv.filled s hslt
  rw [hs] at h1
  have e : sh0 = shape := (Option.some.inj h1).symm
  subst e
  rw [hres] at h6
  cases h6

/-- Witness for C20: a triangle whose only face carries the material id `-1`,
with valid attribute-pool indices and a non-empty material list. -/
theorem texture_lookup_fault_witness :
    (sample.unassigned.mesh.material_ids.length
        = sample.unassigned.mesh.num_face_vertices.length ∧
      sample.unassigned.mesh.material_ids[0]? = some (-1)) ∧
    resolve_texture sample.library sample.materials "base" sample.unassigned.mesh
      = Except.error Fault.bad_subscript ∧
    ∀ m m2 : model Int,
      m.fill_buffers sample.library [sample.unassigned] sample.attrib sample.materials "base"
        ≠ Except.ok m2 :=
  ⟨by decide,
    texture_lookup_fault sample.library [sample.unassigned] sample.attrib sample.materials
      "base" 0 sample.unassigned (by decide) (by decide)
      (Or.inr ⟨-1, by decide, Or.inl (by decide)⟩)⟩

/-- C17: after a completed load, the value the index buffer of a shape holds at
a face-vertex position `p` is the number of distinct index triples of the shape
whose first occurrence precedes the first occurrence of the triple at `p`; and a
shape whose index triples are `k0, k1, k2, k0, k2, k3` with `k0 .. k3` distinct
gets a vertex buffer of 4 elements and the index buffer `0, 1, 2, 0, 2, 3`. -/
theorem first_seen_slot_order {F : Type} [Zero F] (L : Library F) (shapes : List shape_t)
    (attrib : attrib_t F) (materials : List (material_t F)) (base_folder : String)
    (m1 m2 : model F)
    (ha : (model.empty : model F).allocate_buffers shapes = Except.ok m1)
    (hf : m1.fill_buffers L shapes attrib materials base_folder = Except.ok m2) :
    ∀ (s : Nat) (shape : shape_t), shapes[s]? = some shape →
      ∃ vertex_buffer index_buffer,
        m2.vertex_buffers[s]? = some vertex_buffer ∧
        m2.index_buffers[s]? = some index_buffer ∧
        (∀ (p : Nat) (idx : index_t), p < face_vertex_count shape.mesh →
          shape.mesh.indices[p]? = some idx →
          index_buffer.item p = Except.ok
            (((index_tuples shape.mesh (face_vertex_count shape.mesh)).toFinset.filter
              (fun key =>
                (index_tuples shape.mesh (face_vertex_count shape.mesh)).indexOf key <
                (index_tuples shape.mesh (face_vertex_count shape.mesh)).indexOf
                  (make_index_tuple idx))).card)) ∧
        (∀ k0 k1 k2 k3 : index_tuple, k0 ≠ k1 → k0 ≠ k2 → k0 ≠ k3 → k1 ≠ k2 → k1 ≠ k3 →
          k2 ≠ k3 →
          index_tuples shape.mesh (face_vertex_count shape.mesh) = [k0, k1, k2, k0, k2, k3] →
          vertex_buffer.get_number_of_elements = 4 ∧
          index_buffer.get_data = [0, 1, 2, 0, 2, 3]) := by
  intro s shape hs
  obtain ⟨_, _, _, l4⟩ := load_spec L shapes attrib materials base_folder m1 m2 ha hf
  obtain ⟨vb, ib, tex, h1, h2, _, hl⟩ := l4 s shape hs
  refine ⟨vb, ib, h1, h2, ?_, ?_⟩
  · intro p idx hp hidx
    rw [(loaded_slot L attrib materials base_folder _ _ _ _ hl p idx hp hidx).1]
    congr 1
    exact first_seen_rank _ _ (mem_index_tuples_of_lt shape.mesh _ p idx hp hidx)
  · intro k0 k1 k2 k3 h01 h02 h03 h12 h13 h23 hkeys
    have hfs := first_seen_quad k0 k1 k2 k3 h01 h02 h03 h12 h13 h23
    obtain ⟨i0, i1, i2, i3⟩ := indexOf_quad k0 k1 k2 k3 h01 h02 h03 h12 h13 h23
    have hcount : face_vertex_count shape.mesh = 6 := by
      have h := length_index_tuples shape.mesh _ hl.le
      rw [hkeys] at h
      exact h.symm
    have hslot : ∀ (p : Nat) (key : index_tuple), [k0, k1, k2, k0, k2, k3][p]? = some key →
        ib.data[p]? = some ([k0, k1, k2, k3].indexOf key) := by
      intro p key hp
      have h := loaded_slot_key L attrib materials base_folder _ _ _ _ hl p key
        (by rw [hkeys]; exact hp)
      rw [hkeys, hfs] at h
      exact h
    refine ⟨?_, ?_⟩
    · show vb.data.length = 4
      rw [hl.vb_len, hkeys, hfs]
      rfl
    · show ib.data = [0, 1, 2, 0, 2, 3]
      apply List.ext_getElem?
      intro p
      have hlen : ib.data.length = 6 := by rw [hl.ib_len, hcount]
      match p with
      | 0 => rw [hslot 0 k0 rfl, i0]; rfl
      | 1 => rw [hslot 1 k1 rfl, i1]; rfl
      | 2 => rw [hslot 2 k2 rfl, i2]; rfl
      | 3 => rw [hslot 3 k0 rfl, i0]; rfl
      | 4 => rw [hslot 4 k2 rfl, i2]; rfl
      | 5 => rw [hslot 5 k3 rfl, i3]; rfl
      | q + 6 =>
        rw [List.getElem?_eq_none_iff.mpr (by omega)]
        rfl

/-- Witness for C17: the sample quad, whose load completes with a vertex buffer
of 4 elements and the index buffer `0, 1, 2, 0, 2, 3`. -/
theorem first_seen_slot_order_witness :
    ((model.empty : model Int).allocate_buffers [sample.quad]
        = Except.ok (sample.allocated_of [sample.quad]) ∧
      (sample.allocated_of [sample.quad]).fill_buffers sample.library [sample.quad]
        sample.attrib sample.materials "base"
        = Except.ok (sample.filled_of [sample.quad] "base")) ∧
    ((sample.filled_of [sample.quad] "base").vertex_buffers.map
        (fun r => r.get_number_of_elements) = [4] ∧
      (sample.filled_of [sample.quad] "base").index_buffers.map (fun r => r.get_data)
        = [[0, 1, 2, 0, 2, 3]]) ∧
    ∀ (s : Nat) (shape : shape_t), [sample.quad][s]? = some shape →
      ∃ vertex_buffer index_buffer,
        (sample.filled_of [sample.quad] "base").vertex_buffers[s]? = some vertex_buffer ∧
        (sample.filled_of [sample.quad] "base").index_buffers[s]? = some index_buffer ∧
        (∀ (p : Nat) (idx : index_t), p < face_vertex_count shape.mesh →
          shape.mesh.indices[p]? = some idx →
          index_buffer.item p = Except.ok
            (((index_tuples shape.mesh (face_vertex_count shape.mesh)).toFinset.filter
              (fun key =>
                (index_tuples shape.mesh (face_vertex_count shape.mesh)).indexOf key <
                (index_tuples shape.mesh (face_vertex_count shape.mesh)).indexOf
                  (make_index_tuple idx))).card)) ∧
        (∀ k0 k1 k2 k3 : index_tuple, k0 ≠ k1 → k0 ≠ k2 → k0 ≠ k3 → k1 ≠ k2 → k1 ≠ k3 →
          k2 ≠ k3 →
          index_tuples shape.mesh (face_vertex_count shape.mesh) = [k0, k1, k2, k0, k2, k3] →
          vertex_buffer.get_number_of_elements = 4 ∧
          index_buffer.get_data = [0, 1, 2, 0, 2, 3]) :=
  ⟨by decide, by decide,
    first_seen_slot_order sample.library [sample.quad] sample.attrib sample.materials "base"
      (sample.allocated_of [sample.quad]) (sample.filled_of [sample.quad] "base")
      (by decide) (by decide)⟩

/-- C18 (as amended): for any two completed loads that share the attribute
pool, the material list and the base folder and contain shapes with the same
mesh, at possibly different positions among different other shapes, the vertex
buffer, the index buffer and the texture path of that shape are the same in
both models; the first face-vertex of the shape has slot 0, and every
face-vertex of the shape has a record in the shape's own vertex buffer. -/
theorem shape_independence {F : Type} [Zero F] (L : Library F) (attrib : attrib_t F)
    (materials : List (material_t F)) (base_folder : String) (shapes1 shapes2 : List shape_t)
    (m1 m2 n1 n2 : model F)
    (ha1 : (model.empty : model F).allocate_buffers shapes1 = Except.ok m1)
    (hf1 : m1.fill_buffers L shapes1 attrib materials base_folder = Except.ok m2)
    (ha2 : (model.empty : model F).allocate_buffers shapes2 = Except.ok n1)
    (hf2 : n1.fill_buffers L shapes2 attrib materials base_folder = Except.ok n2)
    (s t : Nat) (shape1 shape2 : shape_t) (hs : shapes1[s]? = some shape1)
    (ht : shapes2[t]? = some shape2) (hmesh : shape1.mesh = shape2.mesh) :
    ∃ vertex_buffer index_buffer texture,
      m2.vertex_buffers[s]? = some vertex_buffer ∧ n2.vertex_buffers[t]? = some vertex_buffer ∧
      m2.index_buffers[s]? = some index_buffer ∧ n2.index_buffers[t]? = some index_buffer ∧
      m2.textures[s]? = some texture ∧ n2.textures[t]? = some texture ∧
      (0 < face_vertex_count shape1.mesh → index_buffer.item 0 = Except.ok 0) ∧
      (∀ (p : Nat) (idx : index_t), p < face_vertex_count shape1.mesh →
        shape1.mesh.indices[p]? = some idx →
        ∃ slot r, index_buffer.item p = Except.ok slot ∧
          vertex_buffer.item slot = Except.ok r) := by
  obtain ⟨ast1, st1, path1, a1, a2, a3, a4, a5, a6⟩ :=
    load_states L shapes1 attrib materials base_folder m1 m2 ha1 hf1 s shape1 hs
  obtain ⟨ast2, st2, path2, b1, b2, b3, b4, b5, b6⟩ :=
    load_states L shapes2 attrib materials base_folder n1 n2 ha2 hf2 t shape2 ht
  rw [← hmesh, a1] at b1
  have e1 : ast2 = ast1 := (Except.ok.inj b1).symm
  subst e1
  rw [← hmesh, a2] at b2
  have e2 : st2 = st1 := (Except.ok.inj b2).symm
  subst e2
  rw [← hmesh, a3] at b3
  have e3 : path2 = path1 := (Except.ok.inj b3).symm
  subst e3
  obtain ⟨_, _, _, l4⟩ := load_spec L shapes1 attrib materials base_folder m1 m2 ha1 hf1
  obtain ⟨vb, ib, tex, h1, h2, _, hl⟩ := l4 s shape1 hs
  rw [a4] at h1
  rw [a5] at h2
  have ev : vb = st2.vertex_buffer := (Option.some.inj h1).symm
  have ei : ib = st2.index_buffer := (Option.some.inj h2).symm
  subst ev ei
  refine ⟨_, _, _, a4, b4, a5, b5, a6, b6, ?_, ?_⟩
  · exact loaded_first_slot L attrib materials base_folder _ _ _ _ hl
  · intro p idx hp hidx
    obtain ⟨_, _, _, _, _, _, slot, r, _, _, _, _, _, _, _, _, g9, g10, _⟩ :=
      loaded_record L attrib materials base_folder _ _ _ _ hl p idx hp hidx
    exact ⟨slot, r, g9, g10⟩

/-- Witness for C18: the sample triangle is the second of the sample shapes and
the first of the list `triangle, quad`; both loads complete. -/
theorem shape_independence_witness :
    ((model.empty : model Int).allocate_buffers sample.shapes = Except.ok sample.allocated ∧
      sample.allocated.fill_buffers sample.library sample.shapes sample.attrib
        sample.materials "base" = Except.ok sample.filled ∧
      (model.empty : model Int).allocate_buffers [sample.triangle, sample.quad]
        = Except.ok (sample.allocated_of [sample.triangle, sample.quad]) ∧
      (sample.allocated_of [sample.triangle, sample.quad]).fill_buffers sample.library
        [sample.triangle, sample.quad] sample.attrib sample.materials "base"
        = Except.ok (sample.filled_of [sample.triangle, sample.quad] "base")) ∧
    ∃ vertex_buffer index_buffer texture,
      sample.filled.vertex_buffers[1]? = some vertex_buffer ∧
      (sample.filled_of [sample.triangle, sample.quad] "base").vertex_buffers[0]?
        = some vertex_buffer ∧
      sample.filled.index_buffers[1]? = some index_buffer ∧
      (sample.filled_of [sample.triangle, sample.quad] "base").index_buffers[0]?
        = some index_buffer ∧
      sample.filled.textures[1]? = some texture ∧
      (sample.filled_of [sample.triangle, sample.quad] "base").textures[0]? = some texture ∧
      (0 < face_vertex_count sample.triangle.mesh → index_buffer.item 0 = Except.ok 0) ∧
      (∀ (p : Nat) (idx : index_t), p < face_vertex_count sample.triangle.mesh →
        sample.triangle.mesh.indices[p]? = some idx →
        ∃ slot r, index_buffer.item p = Except.ok slot ∧
          vertex_buffer.item slot = Except.ok r) :=
  ⟨by decide,
    shape_independence sample.library sample.attrib sample.materials "base" sample.shapes
      [sample.triangle, sample.quad] sample.allocated sample.filled
      (sample.allocated_of [sample.triangle, sample.quad])
      (sample.filled_of [sample.triangle, sample.quad] "base")
      (by decide) (by decide) (by decide) (by decide) 1 0 sample.triangle sample.triangle
      (by decide) (by decide) rfl⟩

/-- C18 as stated fails for the texture path: two loads of the same shapes with
the same attribute pool and material list, one with the base folder `a` and
one with the base folder `b`, both complete, and the texture path of the first
shape is `a/wood.png` in one model and `b/wood.png` in the other. -/
theorem shape_independence_counterexample :
    (model.empty : model Int).allocate_buffers sample.shapes = Except.ok sample.allocated ∧
    sample.allocated.fill_buffers sample.library sample.shapes sample.attrib sample.materials
      "a" = Except.ok (sample.filled_of sample.shapes "a") ∧
    sample.allocated.fill_buffers sample.library sample.shapes sample.attrib sample.materials
      "b" = Except.ok (sample.filled_of sample.shapes "b") ∧
    (sample.filled_of sample.shapes "a").textures[0]? = some "a/wood.png" ∧
    (sample.filled_of sample.shapes "b").textures[0]? = some "b/wood.png" ∧
    (sample.filled_of sample.shapes "a").textures[0]?
      ≠ (sample.filled_of sample.shapes "b").textures[0]? := by
  decide

/-- C19 (as stated): the listed conditions do not exclude a face without
face-vertices.  The shape `sample.empty_face` meets every listed condition,
pass 1 completes on it, and pass 2 stops on the subscript
`mesh.indices[index_offset]` of its second face, which is past the end of
`mesh.indices`. -/
theorem fault_free_load_counterexample :
    (∀ shape ∈ [sample.empty_face],
      fault_free_claimed sample.attrib sample.materials shape.mesh) ∧
    (∃ m1, (model.empty : model Int).allocate_buffers [sample.empty_face] = Except.ok m1 ∧
      m1.fill_buffers sample.library [sample.empty_face] sample.attrib sample.materials "base"
        = Except.error Fault.bad_subscript) := by
  refine ⟨by decide, sample.allocated_of [sample.empty_face], by decide, by decide⟩

/-- C19 (amended): if every shape has at least one face, every face has at
least one face-vertex, the shape has fewer than `2 ^ 32` face-vertices and at
least as many entries in `mesh.indices`, one material id per face at least,
every material id in `[0, len(materials))`, at least 3 face-vertices in every
face whose first face-vertex has a negative normal index, every vertex index
`vi` with `0 <= vi` and `3*vi+2 < len(attrib.vertices)`, every non-negative
normal index `ni` with `3*ni+2 < len(attrib.normals)`, every non-negative
texture index `ti` with `2*ti+1 < len(attrib.texcoords)`, and the subscripts
computed from these indices are values of `int`, then `allocate_buffers`
followed by `fill_buffers` on an empty model completes: no subscript or
`item()` call of either pass is out of range. -/
theorem fault_free_load {F : Type} [Zero F] (L : Library F) (shapes : List shape_t)
    (attrib : attrib_t F) (materials : List (material_t F)) (base_folder : String)
    (hval : ∀ shape ∈ shapes, fault_free_conditions attrib materials shape.mesh) :
    ∃ m1 m2, (model.empty : model F).allocate_buffers shapes = Except.ok m1 ∧
      m1.fill_buffers L shapes attrib materials base_folder = Except.ok m2 :=
  load_total L shapes attrib materials base_folder hval

/-- Witness for C19: the sample shapes meet the conditions. -/
theorem fault_free_load_witness :
    (∀ shape ∈ sample.shapes,
      fault_free_conditions sample.attrib sample.materials shape.mesh) ∧
    ∃ m1 m2, (model.empty : model Int).allocate_buffers sample.shapes = Except.ok m1 ∧
      m1.fill_buffers sample.library sample.shapes sample.attrib sample.materials "base"
        = Except.ok m2 :=
  ⟨by decide, fault_free_load sample.library sample.shapes sample.attrib sample.materials
    "base" (by decide)⟩

/-- C16 (amended): after `allocate_buffers` on an empty model, (1) if every
shape has fewer than `2 ^ 32` face-vertices, no `item()` call of `fill_buffers`
on either buffer is out of bounds, and (2) if `fill_buffers` completes, then
for every shape the key-to-slot map built by pass 2 holds the same slot for
every key as the map built by pass 1; at the end of pass 2 `vertex_buffer_id`
equals the element count of the vertex buffer and `index_buffer_id` the element
count of the index buffer, which are the sizes pass 1 counted; every
vertex-buffer slot is the slot of exactly one face-vertex at which pass 2
writes a record (a first occurrence of its key); and there is one index-buffer
position per face-vertex, which holds the slot of that face-vertex's key, a
slot inside the vertex buffer. -/
theorem pass_agreement {F : Type} [Zero F] (L : Library F) (shapes : List shape_t)
    (attrib : attrib_t F) (materials : List (material_t F)) (base_folder : String)
    (m1 : model F)
    (ha : (model.empty : model F).allocate_buffers shapes = Except.ok m1) :
    ((∀ shape ∈ shapes, face_vertex_count shape.mesh < 2 ^ 32) →
      m1.fill_buffers L shapes attrib materials base_folder
        ≠ Except.error Fault.out_of_range) ∧
    (∀ m2, m1.fill_buffers L shapes attrib materials base_folder = Except.ok m2 →
      ∀ (s : Nat) (shape : shape_t), shapes[s]? = some shape →
      ∃ ast st,
        allocate_shape shape.mesh = Except.ok ast ∧
        fill_shape L attrib materials shape.mesh
          (resource.mk1 sizeof_vertex ast.vertex_buffer_size)
          (resource.mk1 sizeof_unsigned_int ast.index_buffer_size) = Except.ok st ∧
        m2.vertex_buffers[s]? = some st.vertex_buffer ∧
        m2.index_buffers[s]? = some st.index_buffer ∧
        (∀ key, st.index_map.lookup key = ast.index_map.lookup key) ∧
        st.vertex_buffer_id = st.vertex_buffer.get_number_of_elements ∧
        st.vertex_buffer.get_number_of_elements = ast.vertex_buffer_size ∧
        st.index_buffer_id = st.index_buffer.get_number_of_elements ∧
        st.index_buffer.get_number_of_elements = ast.index_buffer_size ∧
        ast.index_buffer_size = face_vertex_count shape.mesh ∧
        (∀ slot, slot < st.vertex_buffer.get_number_of_elements →
          ∃ p idx, (p < face_vertex_count shape.mesh ∧ shape.mesh.indices[p]? = some idx ∧
            make_index_tuple idx ∉ index_tuples shape.mesh p ∧
            st.index_map.lookup (make_index_tuple idx) = some slot) ∧
            ∀ q idx2, q < face_vertex_count shape.mesh → shape.mesh.indices[q]? = some idx2 →
              make_index_tuple idx2 ∉ index_tuples shape.mesh q →
              st.index_map.lookup (make_index_tuple idx2) = some slot → q = p) ∧
        (∀ p, p < st.index_buffer.get_number_of_elements →
          ∃ idx slot, shape.mesh.indices[p]? = some idx ∧
            st.index_map.lookup (make_index_tuple idx) = some slot ∧
            st.index_buffer.item p = Except.ok slot ∧
            slot < st.vertex_buffer.get_number_of_elements)) := by
  refine ⟨?_, ?_⟩
  · intro hcount h
    have hbad := fill_buffers_error L shapes attrib materials base_folder m1 _ ha hcount h
    cases hbad
  · intro m2 hf s shape hs
    obtain ⟨_, _, _, l4⟩ := load_spec L shapes attrib materials base_folder m1 m2 ha hf
    obtain ⟨_, _, _, _, _, _, hl⟩ := l4 s shape hs
    obtain ⟨ast, st, _, hast, hst, _, hvb, hib, _⟩ :=
      load_states L shapes attrib materials base_folder m1 m2 ha hf s shape hs
    exact ⟨ast, st, hast, hst, hvb, hib,
      passes_agree L attrib materials shape.mesh ast st hl.count_lt hast hst⟩

/-- Witness for C16: the sample shapes, for which both passes complete. -/
theorem pass_agreement_witness :
    (model.empty : model Int).allocate_buffers sample.shapes = Except.ok sample.allocated ∧
    sample.allocated.fill_buffers sample.library sample.shapes sample.attrib sample.materials
      "base" = Except.ok sample.filled ∧
    sample.allocated.fill_buffers sample.library sample.shapes sample.attrib sample.materials
      "base" ≠ Except.error Fault.out_of_range :=
  ⟨by decide, by decide,
    (pass_agreement sample.library sample.shapes sample.attrib sample.materials "base"
      sample.allocated (by decide)).1 (by decide)⟩

/-- C16 as stated fails: for a shape of 1431655766 triangles, which has
4294967298 face-vertices, pass 1 completes with buffers sized by the wrapped
counters, and pass 2 stops in an `item()` call that is out of bounds. -/
theorem pass_agreement_counterexample :
    ∃ m1 : model Int,
      (model.empty : model Int).allocate_buffers [sample.triangles 1431655766]
        = Except.ok m1 ∧
      m1.fill_buffers sample.library [sample.triangles 1431655766] sample.attrib
        sample.materials "base" = Except.error Fault.out_of_range := by
  have hc := face_vertex_count_triangles 1431655766
  have hl := length_indices_triangles 1431655766
  have hle : face_vertex_count (sample.triangles 1431655766).mesh
      ≤ (sample.triangles 1431655766).mesh.indices.length := by rw [hc, hl]
  obtain ⟨m1, ha⟩ := allocate_buffers_total [sample.triangles 1431655766]
    (fun shape hm => by rw [List.mem_singleton.mp hm]; exact hle) (model.empty : model Int)
  obtain ⟨a1, a2, a3, _⟩ := allocate_buffers_spec [sample.triangles 1431655766] m1 ha
  refine ⟨m1, ha, ?_⟩
  rcases fill_buffers_ok_or sample.library [sample.triangles 1431655766] sample.attrib
    sample.materials "base" m1
    (fun shape hm => by
      rw [List.mem_singleton.mp hm]
      exact mesh_valid_triangles 1431655766 (by norm_num))
    a1 a2 (by rw [a3, List.length_replicate]) with ⟨m2, hf⟩ | hf
  · obtain ⟨_, _, _, l4⟩ := load_spec sample.library [sample.triangles 1431655766]
      sample.attrib sample.materials "base" m1 m2 ha hf
    obtain ⟨_, _, _, _, _, _, hsl⟩ := l4 0 (sample.triangles 1431655766) rfl
    have hlt := hsl.count_lt
    rw [hc] at hlt
    norm_num at hlt
  · exact hf

/-- C15: for a single shape that is one triangle whose three face-vertices
carry pairwise distinct index triples, each index non-negative and in range of
its pool, with one material, `allocate_buffers` on an empty model followed by
`fill_buffers` completes and leaves one vertex buffer of 3 elements and the
index buffer `[0, 1, 2]`; the record of every face-vertex has the ambient,
diffuse and emissive fields of the material and the normal its normal index
selects from the pool; the face normal is the unset `float3`, that is,
`compute_normal` is not called. -/
theorem single_triangle_load {F : Type} [Zero F] (L : Library F) (attrib : attrib_t F)
    (material : material_t F) (base_folder name : String) (i0 i1 i2 : index_t)
    (hd : i0 ≠ i1 ∧ i0 ≠ i2 ∧ i1 ≠ i2)
    (hr : ∀ idx ∈ [i0, i1, i2], indices_in_range attrib idx) :
    ∃ m1 m2 vertex_buffer index_buffer,
      (model.empty : model F).allocate_buffers [single_triangle name i0 i1 i2]
        = Except.ok m1 ∧
      m1.fill_buffers L [single_triangle name i0 i1 i2] attrib [material] base_folder
        = Except.ok m2 ∧
      m2.vertex_buffers = [vertex_buffer] ∧ m2.index_buffers = [index_buffer] ∧
      vertex_buffer.get_number_of_elements = 3 ∧
      index_buffer.get_data = [0, 1, 2] ∧
      face_normal L attrib (single_triangle name i0 i1 i2).mesh 0
        = Except.ok L.float3_default ∧
      ∀ (p : Nat) (idx : index_t), [i0, i1, i2][p]? = some idx →
        ∃ r, vertex_buffer.item p = Except.ok r ∧
          (r.ambient_r = material.ambient.c0 ∧ r.ambient_g = material.ambient.c1 ∧
            r.ambient_b = material.ambient.c2) ∧
          (r.diffuse_r = material.diffuse.c0 ∧ r.diffuse_g = material.diffuse.c1 ∧
            r.diffuse_b = material.diffuse.c2) ∧
          (r.emissive_r = material.emission.c0 ∧ r.emissive_g = material.emission.c1 ∧
            r.emissive_b = material.emission.c2) ∧
          attrib.normals[(3 * idx.normal_index).toNat]? = some r.nx ∧
          attrib.normals[(3 * idx.normal_index + 1).toNat]? = some r.ny ∧
          attrib.normals[(3 * idx.normal_index + 2).toNat]? = some r.nz := by
  obtain ⟨m1, m2, ha, hf⟩ := load_total L [single_triangle name i0 i1 i2] attrib [material]
    base_folder (single_triangle_valid attrib material name i0 i1 i2 hr)
  obtain ⟨l1, l2, _, l4⟩ := load_spec L [single_triangle name i0 i1 i2] attrib [material]
    base_folder m1 m2 ha hf
  obtain ⟨vb, ib, tex, hvb, hib, _, hl⟩ := l4 0 (single_triangle name i0 i1 i2) rfl
  have h01 : make_index_tuple i0 ≠ make_index_tuple i1 :=
    fun h => hd.1 (make_index_tuple_inj _ _ h)
  have h02 : make_index_tuple i0 ≠ make_index_tuple i2 :=
    fun h => hd.2.1 (make_index_tuple_inj _ _ h)
  have h12 : make_index_tuple i1 ≠ make_index_tuple i2 :=
    fun h => hd.2.2 (make_index_tuple_inj _ _ h)
  obtain ⟨hfs, x0, x1, x2⟩ := first_seen_three _ _ _ h01 h02 h12
  have hcount : face_vertex_count (single_triangle name i0 i1 i2).mesh = 3 := by
    simp [single_triangle, face_vertex_count]
  have hkeys : index_tuples (single_triangle name i0 i1 i2).mesh 3 =
      [make_index_tuple i0, make_index_tuple i1, make_index_tuple i2] := by
    simp [single_triangle, index_tuples]
  have hib_len := hl.ib_len
  have hvb_len := hl.vb_len
  have hibv := hl.ib
  have hvbv := hl.vb
  rw [hcount] at hib_len hibv
  rw [hcount, hkeys, hfs] at hvb_len
  simp only [hcount, hkeys, hfs] at hibv hvbv
  have g0 := hibv 0 i0 (by omega) rfl
  have g1 := hibv 1 i1 (by omega) rfl
  have g2 := hibv 2 i2 (by omega) rfl
  rw [x0] at g0
  rw [x1] at g1
  rw [x2] at g2
  have hnn : ¬ i0.normal_index < 0 := by
    have := (hr i0 (by simp)).2.1.1
    omega
  have hfn : face_normal L attrib (single_triangle name i0 i1 i2).mesh 0
      = Except.ok L.float3_default := by
    unfold face_normal
    have hsub : subscript (single_triangle name i0 i1 i2).mesh.indices 0 = Except.ok i0 := rfl
    simp only [bind, Except.bind, pure, Except.pure, hsub, if_neg hnn]
  refine ⟨m1, m2, vb, ib, ha, hf, eq_singleton_of_getElem _ _ l1 hvb,
    eq_singleton_of_getElem _ _ l2 hib, hvb_len, eq_triple_of_getElem _ _ _ _ hib_len g0 g1 g2,
    hfn, ?_⟩
  have key : ∀ (p : Nat) (idx : index_t), p < 3 →
      (single_triangle name i0 i1 i2).mesh.indices[p]? = some idx →
      make_index_tuple idx ∉ index_tuples (single_triangle name i0 i1 i2).mesh p →
      [make_index_tuple i0, make_index_tuple i1, make_index_tuple i2].indexOf
        (make_index_tuple idx) = p →
      idx ∈ [i0, i1, i2] →
      ∃ r, vb.item p = Except.ok r ∧
        (r.ambient_r = material.ambient.c0 ∧ r.ambient_g = material.ambient.c1 ∧
          r.ambient_b = material.ambient.c2) ∧
        (r.diffuse_r = material.diffuse.c0 ∧ r.diffuse_g = material.diffuse.c1 ∧
          r.diffuse_b = material.diffuse.c2) ∧
        (r.emissive_r = material.emission.c0 ∧ r.emissive_g = material.emission.c1 ∧
          r.emissive_b = material.emission.c2) ∧
        attrib.normals[(3 * idx.normal_index).toNat]? = some r.nx ∧
        attrib.normals[(3 * idx.normal_index + 1).toNat]? = some r.ny ∧
        attrib.normals[(3 * idx.normal_index + 2).toNat]? = some r.nz := by
    intro p idx hp hidx hnew hpos hmem
    obtain ⟨normal, material_id, mat, r, _, hmid, hmat, hrec, hvd⟩ :=
      hvbv 0 3 p idx rfl hp (by rw [face_offset_zero, Nat.zero_add]; exact hidx)
        (by rw [face_offset_zero, Nat.zero_add]; exact hnew)
    rw [hpos] at hrec
    have e1 : material_id = 0 := by
      have h0 : (single_triangle name i0 i1 i2).mesh.material_ids[0]? = some 0 := rfl
      rw [h0] at hmid
      exact (Option.some.inj hmid).symm
    rw [e1] at hmat
    have e2 : mat = material := by
      have h0 : subscript_int [material] 0 = Except.ok material := rfl
      rw [h0] at hmat
      exact (Except.ok.inj hmat).symm
    rw [e2] at hvd
    have hn : ¬ idx.normal_index < 0 := by
      have := (hr idx hmem).2.1.1
      omega
    obtain ⟨n1, n2, n3⟩ := hvd.normal hn
    rw [subscript_int_ok_iff] at n1 n2 n3
    unfold vx at n1
    unfold vy at n2
    unfold vz at n3
    exact ⟨r, (item_ok_iff _ _ _).mpr hrec, hvd.ambient, hvd.diffuse, hvd.emissive,
      n1.2.2, n2.2.2, n3.2.2⟩
  intro p idx hp
  rcases p with _ | _ | _ | p
  · have e : idx = i0 := by simpa using hp.symm
    subst e
    exact key 0 idx (by omega) rfl (by simp [index_tuples]) x0 (by simp)
  · have e : idx = i1 := by simpa using hp.symm
    subst e
    exact key 1 idx (by omega) rfl (by simp [index_tuples, single_triangle, Ne.symm h01]) x1
      (by simp)
  · have e : idx = i2 := by simpa using hp.symm
    subst e
    exact key 2 idx (by omega) rfl
      (by simp [index_tuples, single_triangle, Ne.symm h02, Ne.symm h12]) x2 (by simp)
  · simp at hp

/-- Witness for C15: the sample triangle's three face-vertices, with the sample
pool and a material of its own.  The load leaves the three records with the
positions `(0,0,0)`, `(1,0,0)`, `(0,1,0)`, the pool normal `(0,0,1)`, the
texture coordinates `(0,0)`, `(1,0)`, `(0,1)` and the colours of the material,
and the index buffer `0, 1, 2`. -/
theorem single_triangle_load_witness :
    ((⟨0, 0, 0⟩ : index_t) ≠ ⟨1, 0, 1⟩ ∧ (⟨0, 0, 0⟩ : index_t) ≠ ⟨2, 0, 2⟩ ∧
      (⟨1, 0, 1⟩ : index_t) ≠ ⟨2, 0, 2⟩) ∧
    (∀ idx ∈ [(⟨0, 0, 0⟩ : index_t), ⟨1, 0, 1⟩, ⟨2, 0, 2⟩],
      indices_in_range sample.attrib idx) ∧
    (Except.map
      (fun m2 : model Int => (m2.vertex_buffers.map (fun vertex_buffer => vertex_buffer.get_data),
        m2.index_buffers.map (fun index_buffer => index_buffer.get_data)))
      ((model.empty : model Int).load_passes sample.library
        ⟨true, "", [single_triangle "triangle" ⟨0, 0, 0⟩ ⟨1, 0, 1⟩ ⟨2, 0, 2⟩], sample.attrib,
          [sample.material]⟩ "base")
      = Except.ok
        ([[⟨0, 0, 0, 0, 0, 1, 0, 0, 10, 20, 30, 40, 50, 60, 70, 80, 90⟩,
            ⟨1, 0, 0, 0, 0, 1, 1, 0, 10, 20, 30, 40, 50, 60, 70, 80, 90⟩,
            ⟨0, 1, 0, 0, 0, 1, 0, 1, 10, 20, 30, 40, 50, 60, 70, 80, 90⟩]],
          [[0, 1, 2]])) ∧
    ∃ m1 m2 vertex_buffer index_buffer,
      (model.empty : model Int).allocate_buffers
        [single_triangle "triangle" ⟨0, 0, 0⟩ ⟨1, 0, 1⟩ ⟨2, 0, 2⟩] = Except.ok m1 ∧
      m1.fill_buffers sample.library [single_triangle "triangle" ⟨0, 0, 0⟩ ⟨1, 0, 1⟩ ⟨2, 0, 2⟩]
        sample.attrib [sample.material] "base" = Except.ok m2 ∧
      m2.vertex_buffers = [vertex_buffer] ∧ m2.index_buffers = [index_buffer] ∧
      vertex_buffer.get_number_of_elements = 3 ∧
      index_buffer.get_data = [0, 1, 2] ∧
      face_normal sample.library sample.attrib
        (single_triangle "triangle" ⟨0, 0, 0⟩ ⟨1, 0, 1⟩ ⟨2, 0, 2⟩).mesh 0
        = Except.ok sample.library.float3_default ∧
      ∀ (p : Nat) (idx : index_t),
        [(⟨0, 0, 0⟩ : index_t), ⟨1, 0, 1⟩, ⟨2, 0, 2⟩][p]? = some idx →
        ∃ r, vertex_buffer.item p = Except.ok r ∧
          (r.ambient_r = sample.material.ambient.c0 ∧
            r.ambient_g = sample.material.ambient.c1 ∧
            r.ambient_b = sample.material.ambient.c2) ∧
          (r.diffuse_r = sample.material.diffuse.c0 ∧
            r.diffuse_g = sample.material.diffuse.c1 ∧
            r.diffuse_b = sample.material.diffuse.c2) ∧
          (r.emissive_r = sample.material.emission.c0 ∧
            r.emissive_g = sample.material.emission.c1 ∧
            r.emissive_b = sample.material.emission.c2) ∧
          sample.attrib.normals[(3 * idx.normal_index).toNat]? = some r.nx ∧
          sample.attrib.normals[(3 * idx.normal_index + 1).toNat]? = some r.ny ∧
          sample.attrib.normals[(3 * idx.normal_index + 2).toNat]? = some r.nz :=
  ⟨by decide, by decide, by decide,
    single_triangle_load sample.library sample.attrib sample.material "base" "triangle"
      ⟨0, 0, 0⟩ ⟨1, 0, 1⟩ ⟨2, 0, 2⟩ (by decide) (by decide)⟩
